import Mathlib

/-!
Verification of the printfq shell-escaping engine (printfq.c) against its
specification.  The development shallowly embeds the two byte-oriented
input paths of the program (the plain ASCII path and the UTF-8 path), the
UTF-8 pull decoder with its bounded lookahead queue, the escape selector,
the quoting loops and the record delimiter logic, together with the
relevant option processing, and proves or refutes the specified
properties.  Machine integers are modelled as Nat together with an
explicit EOF marker (the C value -1) where a stream read can fail.
-/

namespace Printfq

/-- Bitwise AND of a C int holding either EOF (-1, modelled as none) or a
nonnegative value against a nonnegative mask.  In two=s complement,
(-1) AND m = m. -/
def landO : Option Nat → Nat → Nat
  | none, m => m
  | some b, m => b &&& m

/-- Value of a C int holding either EOF (modelled as none) or a
nonnegative value. -/
def cInt : Option Nat → Int
  | none => -1
  | some b => b

/-- getc_unlocked on a byte stream: returns EOF at the end of input and
does not consume anything there. -/
def getc : List Nat → Option Nat × List Nat
  | [] => (none, [])
  | b :: t => (some b, t)

/-- State of the UTF-8 reader: the internal lookahead array getUtf8Buff
of printfq.c (getUtf8BuffLength is the length of the list; a stored EOF
value is none) and the remaining bytes of stdin. -/
structure U8 where
  buff : List (Option Nat)
  inp : List Nat
deriving Repr, DecidableEq

/-- Result of getUtf8CodePoint: the returned code rc, the contents of
cbuff (bytesInCodePoint is the length of the list, zero on a decoding
error or EOF), and the reader state after the call. -/
structure CPRes where
  rc : Int
  bytes : List Nat
  st : U8
deriving Repr, DecidableEq

/-- Shared exit of getUtf8CodePoint for the decoding-error, EOF and
single-byte cases (printfq.c lines 716-728): rc is gb[0], and when the
tracked lookahead length keep is nonzero one stored unit is consumed from
the front of the queue. -/
def cpExit (w : List (Option Nat)) (keep : Nat) (bytes : List Nat) (i : List Nat) : CPRes :=
  ⟨cInt (w.getD 0 none), bytes, ⟨(w.take keep).drop 1, i⟩⟩

/-- Transcription of getUtf8CodePoint from printfq.c (lines 630-741).
The working window w is the lookahead queue extended, exactly as in the
source, by fresh getc reads into the array cells at and past the tracked
length; cbuff cells are filled through unsigned char assignment (low
byte).  On success the queue keeps the stored units past the consumed
encoding; on failure every byte read is retained and only the lead unit
is consumed by the shared exit. -/
def getUtf8CodePoint (s : U8) : CPRes :=
  let len := s.buff.length
  let r0 := if 0 < len then (s.buff, s.inp) else (let g := getc s.inp; ([g.1], g.2))
  let w0 := r0.1
  let i0 := r0.2
  let g0 := w0.getD 0 none
  if -1 < cInt g0 then
    if landO g0 0x80 ≠ 0 then
      if landO g0 0x40 ≠ 0 then
        -- at least two bytes are expected
        let r1 := if 1 < len then (w0, i0) else (let g := getc i0; (w0 ++ [g.1], g.2))
        let w1 := r1.1
        let i1 := r1.2
        let g1 := w1.getD 1 none
        if landO g0 0x20 ≠ 0 then
          -- at least three bytes are expected
          let r2 := if 2 < len then (w1, i1) else (let g := getc i1; (w1 ++ [g.1], g.2))
          let w2 := r2.1
          let i2 := r2.2
          let g2 := w2.getD 2 none
          if landO g0 0x10 ≠ 0 then
            if landO g0 0x8 = 0 then
              -- exactly four bytes are expected
              let r3 := if 3 < len then (w2, i2) else (let g := getc i2; (w2 ++ [g.1], g.2))
              let w3 := r3.1
              let i3 := r3.2
              let g3 := w3.getD 3 none
              if landO g3 0xC0 = 0x80 then
                let v := (landO g0 0x07) <<< 18 ||| (landO g1 0x3F) <<< 12 |||
                  (landO g2 0x3F) <<< 6 ||| landO g3 0x3F
                if 0xFFFF < v ∧ v < 0x110000 then
                  -- bytesInCodePoint = 4, queue emptied, setCbuff3
                  ⟨(v : Int), (w3.take 4).map (fun x => landO x 0xFF), ⟨(w3.drop 4).take 0, i3⟩⟩
                else cpExit w3 4 [] i3
              else cpExit w3 4 [] i3
            else
              -- lead byte 0xF8-0xFF: invalid, keep = max len 3
              cpExit w2 (if len < 3 then 3 else len) [] i2
          else
            -- exactly three bytes are expected
            if landO g2 0xC0 = 0x80 then
              let v := (landO g0 0x0F) <<< 12 ||| (landO g1 0x3F) <<< 6 ||| landO g2 0x3F
              if 0x7FF < v ∧ (v < 0xD800 ∨ 0xDFFF < v) then
                -- bytesInCodePoint = 3, new length is (len > 3), setCbuff2
                ⟨(v : Int), (w2.take 3).map (fun x => landO x 0xFF),
                  ⟨(w2.drop 3).take (if 3 < len then 1 else 0), i2⟩⟩
              else cpExit w2 (if len < 3 then 3 else len) [] i2
            else cpExit w2 (if len < 3 then 3 else len) [] i2
        else
          -- exactly two bytes are expected
          let v := (landO g0 0x1F) <<< 6 ||| landO g1 0x3F
          if landO g1 0xC0 = 0x80 ∧ 0x7F < v then
            -- bytesInCodePoint = 2, new length is len-2 when 1 < len else 0
            ⟨(v : Int), (w1.take 2).map (fun x => landO x 0xFF),
              ⟨(w1.drop 2).take (if 1 < len then len - 2 else 0), i1⟩⟩
          else cpExit w1 (if len < 2 then 2 else len) [] i1
      else
        -- continuation byte as lead: invalid encoding
        cpExit w0 len [] i0
    else
      -- plain single byte
      cpExit w0 len [landO g0 0xFF] i0
  else
    -- EOF stored or read
    cpExit w0 len [] i0

/-- Transcription of ungetUtf8CodePoint from printfq.c (lines 742-764):
a decoded unit is pushed back through its raw bytes; an error or EOF unit
is pushed back as a single stored value, dropping the oldest stored unit
if the queue is already full. -/
def ungetUtf8CodePoint (uc : Int) (bytes : List Nat) (s : U8) : U8 :=
  if bytes.length ≠ 0 then
    ⟨bytes.map some ++ s.buff, s.inp⟩
  else if s.buff.length = 0 then
    ⟨[if uc < 0 then none else some uc.toNat], s.inp⟩
  else if s.buff.length < 4 then
    ⟨(if uc < 0 then none else some uc.toNat) :: s.buff, s.inp⟩
  else
    ⟨(if uc < 0 then none else some uc.toNat) :: s.buff.tail, s.inp⟩

/-- Transcription of iswprintExt (printfq.c lines 42-74): printable per
the platform classification and not one of the enumerated invisible code
points.  The platform iswprint test is a parameter. -/
def iswprintExt (iswprint : Int → Bool) (c : Int) : Bool :=
  iswprint c &&
  (0xAD ≠ c) &&
  (0x034F ≠ c) &&
  (0x061C ≠ c) &&
  (0x115F ≠ c) &&
  (0x1160 ≠ c) &&
  (0x17B4 ≠ c) &&
  (0x17B5 ≠ c) &&
  (0x180B > c || 0x180E < c) &&
  (0x200B > c || 0x200F < c) &&
  (0x202A > c || 0x202E < c) &&
  (0x2060 > c || 0x206F < c) &&
  (0xFE00 > c || 0xFE0F < c) &&
  (0xFEFF ≠ c) &&
  (0xFFA0 ≠ c) &&
  (0xFFFC ≠ c) &&
  (0x1D159 ≠ c) &&
  (0x1D173 > c || 0x1D17A < c) &&
  (0xE0001 ≠ c) &&
  (0xE0020 > c || 0xE007F < c) &&
  (0xE0100 > c || 0xE01EF < c)

/-- Transcription of iswNotBlank (printfq.c lines 77-97): graphic or a
regular space.  The platform iswprint and iswspace tests are
parameters. -/
def iswNotBlank (iswprint iswspace : Int → Bool) (c : Int) : Bool :=
  iswprintExt iswprint c &&
    (if c < 0x100 then (0xA0 ≠ c : Bool)
     else ! (iswspace c || (0x2007 = c) || (0x202F = c) || (0x2800 = c) || (0x3164 = c)))

/-- The shControlChars table of printfq.c (lines 115-133): characters
that must always be escaped or quoted. -/
def shControlChars : List Nat := [
  0, 0, 0, 0, 0, 0, 0, 0,
  0, 1, 1, 0, 0, 0, 0, 0,
  0, 0, 0, 0, 0, 0, 0, 0,
  0, 0, 0, 0, 0, 0, 0, 0,
  1, 1, 1, 1, 1, 0, 1, 1,
  1, 1, 1, 0, 1, 0, 0, 0,
  0, 0, 0, 0, 0, 0, 0, 0,
  0, 0, 0, 1, 1, 0, 1, 1,
  0, 0, 0, 0, 0, 0, 0, 0,
  0, 0, 0, 0, 0, 0, 0, 0,
  0, 0, 0, 0, 0, 0, 0, 0,
  0, 0, 0, 1, 1, 1, 1, 0,
  1, 0, 0, 0, 0, 0, 0, 0,
  0, 0, 0, 0, 0, 0, 0, 0,
  0, 0, 0, 0, 0, 0, 0, 0,
  0, 0, 0, 1, 1, 1, 0, 0]

/-- The ansiEscapes table of printfq.c (lines 136-142): non-printable
characters with a single-letter escape, stored as the letter. -/
def ansiEscapes : List Nat := [
  0, 0, 0, 0, 0, 0, 0, 97,
  98, 116, 110, 118, 102, 114, 0, 0,
  0, 0, 0, 0, 0, 0, 0, 0,
  0, 0, 0, 69]

/-- ansiEscapesLimit: 14 by default, the full table size 28 when the
unicode-escapes option is given (printfq.c lines 146, 257). -/
def ansiEscapesLimit (u : Bool) : Nat := if u then 28 else 14

/-- Test whether the shell metacharacter table flags code point c
(printfq.c pattern: cast of c below the table size and a set entry). -/
def shMeta (c : Int) : Bool := c < 128 && shControlChars.getD c.toNat 0 ≠ 0

/-- Digits of printf %.3o for a byte value. -/
def oct3 (n : Nat) : List Nat := [48 + n / 64, 48 + n / 8 % 8, 48 + n % 8]

/-- Digits of printf %o (no padding) for a positive value below 256. -/
def octMin (n : Nat) : List Nat :=
  if n < 8 then [48 + n] else if n < 64 then [48 + n / 8, 48 + n % 8] else oct3 n

/-- One uppercase hexadecimal digit. -/
def hexDigit (n : Nat) : Nat := if n < 10 then 48 + n else 55 + n

/-- Digits of printf %.4X. -/
def hex4 (n : Nat) : List Nat :=
  [hexDigit (n / 4096 % 16), hexDigit (n / 256 % 16), hexDigit (n / 16 % 16), hexDigit (n % 16)]

/-- Digits of printf %.8X. -/
def hex8 (n : Nat) : List Nat :=
  [hexDigit (n / 0x10000000 % 16), hexDigit (n / 0x1000000 % 16),
   hexDigit (n / 0x100000 % 16), hexDigit (n / 0x10000 % 16),
   hexDigit (n / 4096 % 16), hexDigit (n / 256 % 16), hexDigit (n / 16 % 16), hexDigit (n % 16)]

/-- Digits of printf %X for a positive value: the padded form with the
leading zero digits removed. -/
def hexMin (n : Nat) : List Nat := (hex8 n).dropWhile (fun d => d = 48)

/-- Model of the platform isxdigit on the ASCII hexadecimal digits; the
program only consults it on values at most the character f. -/
def isxdigitA (c : Int) : Bool :=
  (48 ≤ c && c ≤ 57) || (65 ≤ c && c ≤ 70) || (97 ≤ c && c ≤ 102)

/-- The option flags consumed by the escaping engine.  The minimal flag
routes a UTF-8 locale to the plain byte path, so the UTF-8 engine takes
only these four. -/
structure Opts where
  useUnicodeEscapes : Bool
  flushArguments : Bool
  ignoreNullInput : Bool
  nullTerminatedOutput : Bool
deriving Repr, DecidableEq

/-- Result of emitting one escaped unit inside dollar quoting: the output
bytes, the reader state after any lookahead, and whether the upper-case U
escape hit a following hex digit and must break the quote (printfq.c
lines 820-830). -/
structure EmitRes where
  out : List Nat
  st : U8
  brk : Bool
deriving Repr, DecidableEq

/-- Body of the dollar-quote loop of the UTF-8 path for one unit
(printfq.c lines 785-830): literal output for printable units, the named
escape, an octal escape with one-code-point lookahead for the digit
padding decision, per-byte octal escapes for undecodable or non-unicode
output, or a unicode escape with hex lookahead. -/
def escEmit (u : Bool) (c : Int) (bytes : List Nat) (isP : Bool)
    (s : U8) : EmitRes :=
  if isP then
    if c = 92 then ⟨[92, 92], s, false⟩
    else if c = 39 then ⟨[92, 39], s, false⟩
    else if bytes.length ≠ 0 then ⟨bytes, s, false⟩
    else ⟨[c.toNat % 256], s, false⟩
  else if c < 128 ∨ bytes.length = 0 then
    if c < ansiEscapesLimit u ∧ ansiEscapes.getD c.toNat 0 ≠ 0 then
      ⟨[92, ansiEscapes.getD c.toNat 0], s, false⟩
    else if 63 < c then ⟨92 :: oct3 c.toNat, s, false⟩
    else
      let r := getUtf8CodePoint s
      let s2 := ungetUtf8CodePoint r.rc r.bytes r.st
      if 48 ≤ r.rc ∧ r.rc ≤ 55 then ⟨92 :: oct3 c.toNat, s2, false⟩
      else ⟨92 :: octMin c.toNat, s2, false⟩
  else if ¬ u then
    ⟨bytes.foldr (fun b acc => (92 :: oct3 b) ++ acc) [], s, false⟩
  else if c ≤ 65535 then
    if 0xFFF < c then ⟨[92, 117] ++ hex4 c.toNat, s, false⟩
    else
      let r := getUtf8CodePoint s
      let s2 := ungetUtf8CodePoint r.rc r.bytes r.st
      if r.rc ≤ 102 ∧ isxdigitA r.rc then ⟨[92, 117] ++ hex4 c.toNat, s2, false⟩
      else ⟨[92, 117] ++ hexMin c.toNat, s2, false⟩
  else
    let r := getUtf8CodePoint s
    let s2 := ungetUtf8CodePoint r.rc r.bytes r.st
    ⟨[92, 85] ++ hexMin c.toNat, s2, r.rc ≤ 102 ∧ isxdigitA r.rc⟩

/-- Result of the dollar-quote loop: accumulated output, the unit that
ended the loop, the state, and whether the loop was left through the
upper-case U escape break. -/
structure QRes where
  out : List Nat
  c : Int
  bytes : List Nat
  st : U8
  brk : Bool
deriving Repr, DecidableEq

/-- The dollar-quote loop of the UTF-8 path (printfq.c lines 784-835):
emit the current unit, then pull the next unit and stay in the loop while
it is a positive code, recomputing printability for it. -/
def quoteLoop (f : Int → Bool) (u : Bool) : Nat → Int → List Nat → Bool → U8 → QRes
  | 0, c, bytes, _, s => ⟨[], c, bytes, s, false⟩
  | n + 1, c, bytes, isP, s =>
    let e := escEmit u c bytes isP s
    if e.brk then ⟨e.out, c, bytes, e.st, true⟩
    else
      let r := getUtf8CodePoint e.st
      if 0 < r.rc then
        let q := quoteLoop f u n r.rc r.bytes (!r.bytes.isEmpty && f r.rc) r.st
        ⟨e.out ++ q.out, q.c, q.bytes, q.st, q.brk⟩
      else ⟨e.out, r.rc, r.bytes, r.st, false⟩

/-- Result of the record loop: output for the rest of the record, and the
unit (null or EOF) that ended it. -/
structure RecRes where
  out : List Nat
  c : Int
  bytes : List Nat
  st : U8
deriving Repr, DecidableEq

/-- Entry mode into the record loop body: the normal loop head, or the
utf8StartEscape label with the recorded isPrintable value (the target of
the tilde gotos in printfq.c lines 767-770 and 855-858). -/
inductive RMode where
  | norm : RMode
  | esc : Bool → RMode
deriving Repr, DecidableEq

/-- The record loop of the UTF-8 path (printfq.c lines 773-845): literal
output for printable non-metacharacter units, a backslash-quote for a
single quote, and otherwise the dollar-quote loop, which ends the record
unless it was left through the upper-case U escape break. -/
def recLoop (f : Int → Bool) (u : Bool) : Nat → RMode → Int → List Nat → U8 → RecRes
  | 0, _, c, bytes, s => ⟨[], c, bytes, s⟩
  | n + 1, .norm, c, bytes, s =>
    let isP := !bytes.isEmpty && f c
    if ¬ isP ∨ shMeta c then
      if c = 39 then
        let r := getUtf8CodePoint s
        if 0 < r.rc then
          let t := recLoop f u n .norm r.rc r.bytes r.st
          ⟨92 :: 39 :: t.out, t.c, t.bytes, t.st⟩
        else ⟨[92, 39], r.rc, r.bytes, r.st⟩
      else recLoop f u n (.esc isP) c bytes s
    else
      let r := getUtf8CodePoint s
      if 0 < r.rc then
        let t := recLoop f u n .norm r.rc r.bytes r.st
        ⟨bytes ++ t.out, t.c, t.bytes, t.st⟩
      else ⟨bytes, r.rc, r.bytes, r.st⟩
  | n + 1, .esc isP, c, bytes, s =>
    let q := quoteLoop f u n c bytes isP s
    let em := 36 :: 39 :: q.out ++ [39]
    if 0 ≥ q.c then ⟨em, q.c, q.bytes, q.st⟩
    else
      let r := getUtf8CodePoint q.st
      if 0 < r.rc then
        let t := recLoop f u n .norm r.rc r.bytes r.st
        ⟨em ++ t.out, t.c, t.bytes, t.st⟩
      else ⟨em, r.rc, r.bytes, r.st⟩

/-- The outer loop of the UTF-8 path (printfq.c lines 765-870): records
separated by null units, the empty-record output, the delimiter between
records with its write checks, the tilde goto, and the end-of-stream
terminators.  sepOk and flushOk model the success of the checked putc and
fflush calls on the delimiter; the loop exits without further reads when
they fail, and stream processing always returns exit status 0 (line
872). -/
def u8Main (f : Int → Bool) (o : Opts) (sepOk flushOk : Bool) :
    Nat → Int → List Nat → U8 → List Nat
  | 0, _, _, _ => []
  | n + 1, c, bytes, s =>
    let rr : RecRes :=
      if 0 < c then
        if c = 126 then recLoop f o.useUnicodeEscapes n (.esc true) c bytes s
        else recLoop f o.useUnicodeEscapes n .norm c bytes s
      else ⟨[39, 39], c, bytes, s⟩
    if rr.c = 0 then
      let r := getUtf8CodePoint rr.st
      if r.rc = -1 then
        rr.out ++ (if o.nullTerminatedOutput then [0] else [])
      else
        let sep : List Nat :=
          if o.ignoreNullInput then []
          else if o.nullTerminatedOutput then (if sepOk then [0] else [])
          else (if sepOk then [32] else [])
        let lc : Bool :=
          o.ignoreNullInput ||
            (if o.nullTerminatedOutput then sepOk && (!o.flushArguments || flushOk)
             else sepOk)
        if lc then rr.out ++ sep ++ u8Main f o sepOk flushOk n r.rc r.bytes r.st
        else rr.out ++ sep
    else
      rr.out ++ (if o.ignoreNullInput ∧ o.nullTerminatedOutput then [0] else [])

/-- The UTF-8 path of printfq on a byte stream, with the delimiter write
checks modelled as parameters; the pair also carries the exit status of
stream processing, which the source fixes to 0 (printfq.c line 872). -/
def runUtf8F (f : Int → Bool) (o : Opts) (sepOk flushOk : Bool)
    (input : List Nat) : List Nat × Int :=
  let r := getUtf8CodePoint ⟨[], input⟩
  (u8Main f o sepOk flushOk (2 * input.length + 8) r.rc r.bytes r.st, 0)

/-- The UTF-8 path of printfq on a byte stream with all writes
succeeding. -/
def runUtf8 (f : Int → Bool) (o : Opts) (input : List Nat) : List Nat :=
  (runUtf8F f o true true input).1

/-- Reference reading of one unit from a pending byte sequence: the same
decision structure as getUtf8CodePoint, expressed without the lookahead
queue bookkeeping.  Returns the code, the cbuff bytes and the remaining
sequence. -/
def decodeRef : List Nat → Int × List Nat × List Nat
  | [] => (-1, [], [])
  | b0 :: t =>
    if b0 &&& 0x80 ≠ 0 then
      if b0 &&& 0x40 ≠ 0 then
        if b0 &&& 0x20 ≠ 0 then
          if b0 &&& 0x10 ≠ 0 then
            if b0 &&& 0x8 = 0 then
              match t with
              | b1 :: b2 :: b3 :: t3 =>
                if b3 &&& 0xC0 = 0x80 then
                  let v := (b0 &&& 0x07) <<< 18 ||| (b1 &&& 0x3F) <<< 12 |||
                    (b2 &&& 0x3F) <<< 6 ||| (b3 &&& 0x3F)
                  if 0xFFFF < v ∧ v < 0x110000 then
                    ((v : Int), [b0 &&& 0xFF, b1 &&& 0xFF, b2 &&& 0xFF, b3 &&& 0xFF], t3)
                  else ((b0 : Int), [], t)
                else ((b0 : Int), [], t)
              | _ => ((b0 : Int), [], t)
            else ((b0 : Int), [], t)
          else
            match t with
            | b1 :: b2 :: t2 =>
              if b2 &&& 0xC0 = 0x80 then
                let v := (b0 &&& 0x0F) <<< 12 ||| (b1 &&& 0x3F) <<< 6 ||| (b2 &&& 0x3F)
                if 0x7FF < v ∧ (v < 0xD800 ∨ 0xDFFF < v) then
                  ((v : Int), [b0 &&& 0xFF, b1 &&& 0xFF, b2 &&& 0xFF], t2)
                else ((b0 : Int), [], t)
              else ((b0 : Int), [], t)
            | _ => ((b0 : Int), [], t)
        else
          match t with
          | b1 :: t1 =>
            let v := (b0 &&& 0x1F) <<< 6 ||| (b1 &&& 0x3F)
            if b1 &&& 0xC0 = 0x80 ∧ 0x7F < v then
              ((v : Int), [b0 &&& 0xFF, b1 &&& 0xFF], t1)
            else ((b0 : Int), [], t)
          | [] => ((b0 : Int), [], t)
      else ((b0 : Int), [], t)
    else ((b0 : Int), [b0 &&& 0xFF], t)

/-- Pending byte sequence of a reader state: the stored non-EOF units
followed by the remaining input. -/
def pend (s : U8) : List Nat := s.buff.filterMap id ++ s.inp

/-- Every stored unit is an EOF marker. -/
def allNone (l : List (Option Nat)) : Prop := ∀ x ∈ l, x = none

/-- Stored bytes are below 256 and stored EOF markers sit only behind
all stored bytes. -/
def buffWF : List (Option Nat) → Prop
  | [] => True
  | some b :: t => b < 256 ∧ buffWF t
  | none :: t => allNone t

/-- Well-formed reader state: at most four stored units, a well-formed
queue, no remaining input once an EOF has been stored, and input bytes
below 256. -/
def WFS (s : U8) : Prop :=
  s.buff.length ≤ 4 ∧ buffWF s.buff ∧ (none ∈ s.buff → s.inp = []) ∧ ∀ b ∈ s.inp, b < 256

/-! Bit-level facts about byte classes, bridging the masked tests of the
decoder to arithmetic ranges. -/

theorem land_lt128 {b : Nat} (h : b < 0x80) : b &&& 0x80 = 0 := by
  interval_cases b <;> decide

theorem land_ge128 {b : Nat} (h1 : 0x80 ≤ b) (h2 : b < 256) : b &&& 0x80 ≠ 0 := by
  interval_cases b <;> decide

theorem land40_cont {b : Nat} (h1 : 0x80 ≤ b) (h2 : b < 0xC0) : b &&& 0x40 = 0 := by
  interval_cases b <;> decide

theorem land40_lead {b : Nat} (h1 : 0xC0 ≤ b) (h2 : b < 256) : b &&& 0x40 ≠ 0 := by
  interval_cases b <;> decide

theorem land20_two {b : Nat} (h1 : 0xC0 ≤ b) (h2 : b < 0xE0) : b &&& 0x20 = 0 := by
  interval_cases b <;> decide

theorem land20_three {b : Nat} (h1 : 0xE0 ≤ b) (h2 : b < 256) : b &&& 0x20 ≠ 0 := by
  interval_cases b <;> decide

theorem land10_three {b : Nat} (h1 : 0xE0 ≤ b) (h2 : b < 0xF0) : b &&& 0x10 = 0 := by
  interval_cases b <;> decide

theorem land10_four {b : Nat} (h1 : 0xF0 ≤ b) (h2 : b < 256) : b &&& 0x10 ≠ 0 := by
  interval_cases b <;> decide

theorem land8_four {b : Nat} (h1 : 0xF0 ≤ b) (h2 : b < 0xF8) : b &&& 0x8 = 0 := by
  interval_cases b <;> decide

theorem land8_bad {b : Nat} (h1 : 0xF8 ≤ b) (h2 : b < 256) : b &&& 0x8 ≠ 0 := by
  interval_cases b <;> decide

theorem landFF_byte {b : Nat} (h : b < 256) : b &&& 0xFF = b := by
  interval_cases b <;> decide

theorem landC0_cont {b : Nat} (h1 : 0x80 ≤ b) (h2 : b < 0xC0) : b &&& 0xC0 = 0x80 := by
  interval_cases b <;> decide

theorem landC0_low {b : Nat} (h : b < 0x80) : b &&& 0xC0 ≠ 0x80 := by
  interval_cases b <;> decide

theorem landC0_high {b : Nat} (h1 : 0xC0 ≤ b) (h2 : b < 256) : b &&& 0xC0 ≠ 0x80 := by
  interval_cases b <;> decide

theorem land1F_val {b : Nat} (h1 : 0xC0 ≤ b) (h2 : b < 0xE0) : b &&& 0x1F = b - 0xC0 := by
  interval_cases b <;> decide

theorem land3F_val {b : Nat} (h1 : 0x80 ≤ b) (h2 : b < 0xC0) : b &&& 0x3F = b - 0x80 := by
  interval_cases b <;> decide

theorem land0F_val {b : Nat} (h1 : 0xE0 ≤ b) (h2 : b < 0xF0) : b &&& 0x0F = b - 0xE0 := by
  interval_cases b <;> decide

theorem land07_val {b : Nat} (h1 : 0xF0 ≤ b) (h2 : b < 0xF8) : b &&& 0x07 = b - 0xF0 := by
  interval_cases b <;> decide

/-- Disjoint-field or is addition: shifting past b leaves it intact. -/
theorem lorAdd (n : Nat) : ∀ a b : Nat, b < 2 ^ n → a <<< n ||| b = a * 2 ^ n + b := by
  induction n with
  | zero => intro a b h; interval_cases b; simp [Nat.shiftLeft_eq]
  | succ n ih =>
    intro a b h
    have hb : b = Nat.bit (Nat.bodd b) (Nat.div2 b) := (Nat.bit_decomp b).symm
    have ha : a <<< (n + 1) = Nat.bit false (a <<< n) := by
      simp [Nat.bit, Nat.shiftLeft_eq, Nat.pow_succ]; ring
    have hd : Nat.div2 b < 2 ^ n := by
      rw [Nat.div2_val]
      rw [Nat.pow_succ] at h
      omega
    rw [ha, hb, Nat.lor_bit, ih a (Nat.div2 b) hd]
    have hbv : b = 2 * Nat.div2 b + (if Nat.bodd b then 1 else 0) := by
      rw [Nat.div2_val]
      rcases ho : Nat.bodd b <;> simp [ho] <;>
        first
          | (have hsum := Nat.bodd_add_div2 b; rw [ho] at hsum; simpa using hsum.symm)
          | (have hsum := Nat.bodd_add_div2 b; rw [ho] at hsum; simp at hsum; omega)
    rcases ho : Nat.bodd b <;>
      simp [Nat.bit, ho, Nat.pow_succ] <;> rw [hbv] <;> simp [ho] <;> ring

/-- Disjoint-field or against a multiple of a power of two is addition. -/
theorem lorMulAdd {a b : Nat} (n : Nat) (h : b < 2 ^ n) : a * 2 ^ n ||| b = a * 2 ^ n + b := by
  rw [← Nat.shiftLeft_eq, lorAdd n a b h, Nat.shiftLeft_eq]

/-- The two-byte decoder value in arithmetic form. -/
theorem val2_eq {b0 b1 : Nat} (h0 : 0xC0 ≤ b0) (h0' : b0 < 0xE0)
    (h1 : 0x80 ≤ b1) (h1' : b1 < 0xC0) :
    (b0 &&& 0x1F) <<< 6 ||| (b1 &&& 0x3F) = (b0 - 0xC0) * 64 + (b1 - 0x80) := by
  rw [land1F_val h0 h0', land3F_val h1 h1', lorAdd 6 _ _ (by omega)]
  norm_num

/-- The three-byte decoder value in arithmetic form; the middle byte is
only masked, not validated, by the decoder. -/
theorem val3_eq {b0 b1 b2 : Nat} (h0 : 0xE0 ≤ b0) (h0' : b0 < 0xF0)
    (h2 : 0x80 ≤ b2) (h2' : b2 < 0xC0) :
    (b0 &&& 0x0F) <<< 12 ||| (b1 &&& 0x3F) <<< 6 ||| (b2 &&& 0x3F) =
      ((b0 - 0xE0) * 64 + (b1 &&& 0x3F)) * 64 + (b2 - 0x80) := by
  have hb1 : b1 &&& 0x3F < 64 := Nat.lt_succ_of_le (Nat.and_le_right)
  have hy : (b1 &&& 0x3F) <<< 6 < 2 ^ 12 := by rw [Nat.shiftLeft_eq]; omega
  rw [land0F_val h0 h0', land3F_val h2 h2', lorAdd 12 _ _ hy, Nat.shiftLeft_eq]
  have heq : (b0 - 0xE0) * 2 ^ 12 + (b1 &&& 0x3F) * 2 ^ 6 =
      ((b0 - 0xE0) * 64 + (b1 &&& 0x3F)) * 2 ^ 6 := by ring
  rw [heq, lorMulAdd 6 (by omega)]
  norm_num

/-- The four-byte decoder value in arithmetic form; the two middle bytes
are only masked, not validated, by the decoder. -/
theorem val4_eq {b0 b1 b2 b3 : Nat} (h0 : 0xF0 ≤ b0) (h0' : b0 < 0xF8)
    (h3 : 0x80 ≤ b3) (h3' : b3 < 0xC0) :
    (b0 &&& 0x07) <<< 18 ||| (b1 &&& 0x3F) <<< 12 ||| (b2 &&& 0x3F) <<< 6 ||| (b3 &&& 0x3F) =
      (((b0 - 0xF0) * 64 + (b1 &&& 0x3F)) * 64 + (b2 &&& 0x3F)) * 64 + (b3 - 0x80) := by
  have hb1 : b1 &&& 0x3F < 64 := Nat.lt_succ_of_le (Nat.and_le_right)
  have hb2 : b2 &&& 0x3F < 64 := Nat.lt_succ_of_le (Nat.and_le_right)
  have hy : (b1 &&& 0x3F) <<< 12 < 2 ^ 18 := by rw [Nat.shiftLeft_eq]; omega
  have hz : (b2 &&& 0x3F) <<< 6 < 2 ^ 12 := by rw [Nat.shiftLeft_eq]; omega
  rw [land07_val h0 h0', land3F_val h3 h3', lorAdd 18 _ _ hy, Nat.shiftLeft_eq]
  have heq : (b0 - 0xF0) * 2 ^ 18 + (b1 &&& 0x3F) * 2 ^ 12 =
      ((b0 - 0xF0) * 64 + (b1 &&& 0x3F)) * 2 ^ 12 := by ring
  rw [heq, lorMulAdd 12 hz, Nat.shiftLeft_eq]
  have heq2 : ((b0 - 0xF0) * 64 + (b1 &&& 0x3F)) * 2 ^ 12 + (b2 &&& 0x3F) * 2 ^ 6 =
      (((b0 - 0xF0) * 64 + (b1 &&& 0x3F)) * 64 + (b2 &&& 0x3F)) * 2 ^ 6 := by ring
  rw [heq2, lorMulAdd 6 (by omega)]
  norm_num

theorem filterMap_allNone {l : List (Option Nat)} (h : allNone l) : l.filterMap id = [] := by
  induction l with
  | nil => rfl
  | cons x t ih =>
    have hx : x = none := h x (by simp)
    subst hx
    simp only [List.filterMap_cons]
    exact ih fun y hy => h y (by simp [hy])

theorem buffWF_of_allNone {l : List (Option Nat)} (h : allNone l) : buffWF l := by
  cases l with
  | nil => trivial
  | cons x t =>
    have hx : x = none := h x (by simp)
    subst hx
    exact fun y hy => h y (by simp [hy])

/-- The behaviour of one getUtf8CodePoint call on a well-formed state,
phrased through the reference reading of the pending byte sequence: the
same code and cbuff come back, the pending sequence advances exactly as
the reference reading says, well-formedness is preserved, and the queue
keeps room for one pushed-back unit. -/
def RefOk (s : U8) : Prop :=
  (getUtf8CodePoint s).rc = (decodeRef (pend s)).1 ∧
  (getUtf8CodePoint s).bytes = (decodeRef (pend s)).2.1 ∧
  pend (getUtf8CodePoint s).st = (decodeRef (pend s)).2.2 ∧
  WFS (getUtf8CodePoint s).st ∧
  (getUtf8CodePoint s).st.buff.length + (getUtf8CodePoint s).bytes.length ≤ 4 ∧
  (getUtf8CodePoint s).st.buff.length ≤ 3

set_option maxHeartbeats 2000000 in
theorem mRef0 (inp : List Nat) (hinp : ∀ b ∈ inp, b < 256) : RefOk ⟨[], inp⟩ := by
  rcases inp with _ | ⟨b0, t⟩
  · simp [RefOk, getUtf8CodePoint, decodeRef, getc, cpExit, landO, cInt, pend, WFS, buffWF]
  have hb0 : b0 < 256 := hinp b0 (by simp)
  have ht : ∀ b ∈ t, b < 256 := fun b hb => hinp b (by simp [hb])
  have hm1 : (-1 : Int) < (b0 : Int) := by omega
  by_cases hc1 : b0 < 0x80
  · simp [RefOk, getUtf8CodePoint, decodeRef, getc, cpExit, landO, cInt, pend, WFS, buffWF,
      land_lt128 hc1, hm1]
    exact ht
  by_cases hc2 : b0 < 0xC0
  · simp [RefOk, getUtf8CodePoint, decodeRef, getc, cpExit, landO, cInt, pend, WFS, buffWF,
      land_ge128 (by omega) hb0, land40_cont (by omega) hc2, hm1]
    exact ht
  by_cases hc3 : b0 < 0xE0
  · have f80 := land_ge128 (show 0x80 ≤ b0 by omega) hb0
    have f40 := land40_lead (show 0xC0 ≤ b0 by omega) hb0
    have f20 := land20_two (show 0xC0 ≤ b0 by omega) hc3
    rcases t with _ | ⟨b1, t1⟩
    · simp [RefOk, getUtf8CodePoint, decodeRef, getc, cpExit, landO, cInt, pend, WFS, buffWF,
        allNone, f80, f40, f20, hm1]
    have hb1 : b1 < 256 := ht b1 (by simp)
    have ht1 : ∀ b ∈ t1, b < 256 := fun b hb => ht b (by simp [hb])
    by_cases hcc : 0x80 ≤ b1 ∧ b1 < 0xC0
    · have fcc := landC0_cont hcc.1 hcc.2
      by_cases hv : 0x7F < (b0 &&& 0x1F) <<< 6 ||| (b1 &&& 0x3F)
      · simp [RefOk, getUtf8CodePoint, decodeRef, getc, cpExit, landO, cInt, pend, WFS, buffWF,
          f80, f40, f20, fcc, hv, hm1]
        exact ht1
      · simp [RefOk, getUtf8CodePoint, decodeRef, getc, cpExit, landO, cInt, pend, WFS, buffWF,
          f80, f40, f20, fcc, hv, hb1, hm1]
        exact ht1
    · have fcc : b1 &&& 0xC0 ≠ 0x80 := by
        rcases Nat.lt_or_ge b1 0x80 with h | h
        · exact landC0_low h
        · exact landC0_high (by omega) hb1
      simp [RefOk, getUtf8CodePoint, decodeRef, getc, cpExit, landO, cInt, pend, WFS, buffWF,
        f80, f40, f20, fcc, hb1, hm1]
      exact ht1
  by_cases hc4 : b0 < 0xF0
  · have f80 := land_ge128 (show 0x80 ≤ b0 by omega) hb0
    have f40 := land40_lead (show 0xC0 ≤ b0 by omega) hb0
    have f20 := land20_three (show 0xE0 ≤ b0 by omega) hb0
    have f10 := land10_three (show 0xE0 ≤ b0 by omega) hc4
    rcases t with _ | ⟨b1, t1⟩
    · simp [RefOk, getUtf8CodePoint, decodeRef, getc, cpExit, landO, cInt, pend, WFS, buffWF,
        allNone, f80, f40, f20, f10, hm1]
    have hb1 : b1 < 256 := ht b1 (by simp)
    have ht1 : ∀ b ∈ t1, b < 256 := fun b hb => ht b (by simp [hb])
    rcases t1 with _ | ⟨b2, t2⟩
    · simp [RefOk, getUtf8CodePoint, decodeRef, getc, cpExit, landO, cInt, pend, WFS, buffWF,
        allNone, f80, f40, f20, f10, hb1, hm1]
    have hb2 : b2 < 256 := ht1 b2 (by simp)
    have ht2 : ∀ b ∈ t2, b < 256 := fun b hb => ht1 b (by simp [hb])
    by_cases hcc : 0x80 ≤ b2 ∧ b2 < 0xC0
    · have fcc := landC0_cont hcc.1 hcc.2
      by_cases hv : 0x7FF < (b0 &&& 0x0F) <<< 12 ||| (b1 &&& 0x3F) <<< 6 ||| (b2 &&& 0x3F) ∧
          ((b0 &&& 0x0F) <<< 12 ||| (b1 &&& 0x3F) <<< 6 ||| (b2 &&& 0x3F) < 0xD800 ∨
            0xDFFF < (b0 &&& 0x0F) <<< 12 ||| (b1 &&& 0x3F) <<< 6 ||| (b2 &&& 0x3F))
      · simp [RefOk, getUtf8CodePoint, decodeRef, getc, cpExit, landO, cInt, pend, WFS, buffWF,
          f80, f40, f20, f10, fcc, hv, hm1]
        exact ht2
      · simp [RefOk, getUtf8CodePoint, decodeRef, getc, cpExit, landO, cInt, pend, WFS, buffWF,
          f80, f40, f20, f10, fcc, hv, hb1, hb2, hm1]
        exact ht2
    · have fcc : b2 &&& 0xC0 ≠ 0x80 := by
        rcases Nat.lt_or_ge b2 0x80 with h | h
        · exact landC0_low h
        · exact landC0_high (by omega) hb2
      simp [RefOk, getUtf8CodePoint, decodeRef, getc, cpExit, landO, cInt, pend, WFS, buffWF,
        f80, f40, f20, f10, fcc, hb1, hb2, hm1]
      exact ht2
  by_cases hc5 : b0 < 0xF8
  · have f80 := land_ge128 (show 0x80 ≤ b0 by omega) hb0
    have f40 := land40_lead (show 0xC0 ≤ b0 by omega) hb0
    have f20 := land20_three (show 0xE0 ≤ b0 by omega) hb0
    have f10 := land10_four (show 0xF0 ≤ b0 by omega) hb0
    have f8 := land8_four (show 0xF0 ≤ b0 by omega) hc5
    rcases t with _ | ⟨b1, t1⟩
    · simp [RefOk, getUtf8CodePoint, decodeRef, getc, cpExit, landO, cInt, pend, WFS, buffWF,
        allNone, f80, f40, f20, f10, f8, hm1]
    have hb1 : b1 < 256 := ht b1 (by simp)
    have ht1 : ∀ b ∈ t1, b < 256 := fun b hb => ht b (by simp [hb])
    rcases t1 with _ | ⟨b2, t2⟩
    · simp [RefOk, getUtf8CodePoint, decodeRef, getc, cpExit, landO, cInt, pend, WFS, buffWF,
        allNone, f80, f40, f20, f10, f8, hb1, hm1]
    have hb2 : b2 < 256 := ht1 b2 (by simp)
    have ht2 : ∀ b ∈ t2, b < 256 := fun b hb => ht1 b (by simp [hb])
    rcases t2 with _ | ⟨b3, t3⟩
    · simp [RefOk, getUtf8CodePoint, decodeRef, getc, cpExit, landO, cInt, pend, WFS, buffWF,
        allNone, f80, f40, f20, f10, f8, hb1, hb2, hm1]
    have hb3 : b3 < 256 := ht2 b3 (by simp)
    have ht3 : ∀ b ∈ t3, b < 256 := fun b hb => ht2 b (by simp [hb])
    by_cases hcc : 0x80 ≤ b3 ∧ b3 < 0xC0
    · have fcc := landC0_cont hcc.1 hcc.2
      by_cases hv : 0xFFFF <
            (b0 &&& 0x07) <<< 18 ||| (b1 &&& 0x3F) <<< 12 ||| (b2 &&& 0x3F) <<< 6 ||| (b3 &&& 0x3F) ∧
          (b0 &&& 0x07) <<< 18 ||| (b1 &&& 0x3F) <<< 12 ||| (b2 &&& 0x3F) <<< 6 ||| (b3 &&& 0x3F) <
            0x110000
      · simp [RefOk, getUtf8CodePoint, decodeRef, getc, cpExit, landO, cInt, pend, WFS, buffWF,
          f80, f40, f20, f10, f8, fcc, hv, hm1]
        exact ht3
      · simp [RefOk, getUtf8CodePoint, decodeRef, getc, cpExit, landO, cInt, pend, WFS, buffWF,
          f80, f40, f20, f10, f8, fcc, hv, hb1, hb2, hb3, hm1]
        exact ht3
    · have fcc : b3 &&& 0xC0 ≠ 0x80 := by
        rcases Nat.lt_or_ge b3 0x80 with h | h
        · exact landC0_low h
        · exact landC0_high (by omega) hb3
      simp [RefOk, getUtf8CodePoint, decodeRef, getc, cpExit, landO, cInt, pend, WFS, buffWF,
        f80, f40, f20, f10, f8, fcc, hb1, hb2, hb3, hm1]
      exact ht3
  · have f80 := land_ge128 (show 0x80 ≤ b0 by omega) hb0
    have f40 := land40_lead (show 0xC0 ≤ b0 by omega) hb0
    have f20 := land20_three (show 0xE0 ≤ b0 by omega) hb0
    have f10 := land10_four (show 0xF0 ≤ b0 by omega) hb0
    have f8 := land8_bad (show 0xF8 ≤ b0 by omega) hb0
    rcases t with _ | ⟨b1, t1⟩
    · simp [RefOk, getUtf8CodePoint, decodeRef, getc, cpExit, landO, cInt, pend, WFS, buffWF,
        allNone, f80, f40, f20, f10, f8, hm1]
    have hb1 : b1 < 256 := ht b1 (by simp)
    have ht1 : ∀ b ∈ t1, b < 256 := fun b hb => ht b (by simp [hb])
    rcases t1 with _ | ⟨b2, t2⟩
    · simp [RefOk, getUtf8CodePoint, decodeRef, getc, cpExit, landO, cInt, pend, WFS, buffWF,
        allNone, f80, f40, f20, f10, f8, hb1, hm1]
    have hb2 : b2 < 256 := ht1 b2 (by simp)
    have ht2 : ∀ b ∈ t2, b < 256 := fun b hb => ht1 b (by simp [hb])
    simp [RefOk, getUtf8CodePoint, decodeRef, getc, cpExit, landO, cInt, pend, WFS, buffWF,
      f80, f40, f20, f10, f8, hb1, hb2, hm1]
    exact ht2

set_option maxHeartbeats 4000000 in
theorem mRefS1 (b0 : Nat) (inp : List Nat)
    (hb0 : b0 < 256)
    (hinp : ∀ b ∈ inp, b < 256) : RefOk ⟨[some b0], inp⟩ := by
  have hT0 : ∀ b ∈ inp, b < 256 := hinp
  have hm1 : (-1 : Int) < (b0 : Int) := by omega
  by_cases hc1 : b0 < 0x80
  · simp [RefOk, getUtf8CodePoint, decodeRef, getc, cpExit, landO, cInt, pend, WFS, buffWF, allNone, hb0, hm1, land_lt128 hc1] <;> first | assumption | omega | rfl
  by_cases hc2 : b0 < 0xC0
  · simp [RefOk, getUtf8CodePoint, decodeRef, getc, cpExit, landO, cInt, pend, WFS, buffWF, allNone, hb0, hm1, land_ge128 (by omega) hb0, land40_cont (by omega) hc2] <;> first | assumption | omega | rfl
  by_cases hc3 : b0 < 0xE0
  · have f80 := land_ge128 (show 0x80 ≤ b0 by omega) hb0
    have f40 := land40_lead (show 0xC0 ≤ b0 by omega) hb0
    have f20 := land20_two (show 0xC0 ≤ b0 by omega) hc3
    rcases inp with _ | ⟨c1, t1⟩
    · simp [RefOk, getUtf8CodePoint, decodeRef, getc, cpExit, landO, cInt, pend, WFS, buffWF, allNone, hb0, hm1, f80, f40, f20] <;> first | assumption | omega | rfl
    have hbc1 : c1 < 256 := hT0 c1 (by simp)
    have hT1 : ∀ b ∈ t1, b < 256 := fun b hb => hT0 b (by simp [hb])
    by_cases hcc : 0x80 ≤ c1 ∧ c1 < 0xC0
    · have fcc := landC0_cont hcc.1 hcc.2
      by_cases hv : 0x7F < (b0 &&& 0x1F) <<< 6 ||| (c1 &&& 0x3F)
      · simp [RefOk, getUtf8CodePoint, decodeRef, getc, cpExit, landO, cInt, pend, WFS, buffWF, allNone, hb0, hm1, f80, f40, f20, hbc1, fcc, hv] <;> first | assumption | omega | rfl
      · simp [RefOk, getUtf8CodePoint, decodeRef, getc, cpExit, landO, cInt, pend, WFS, buffWF, allNone, hb0, hm1, f80, f40, f20, hbc1, fcc, hv] <;> first | assumption | omega | rfl
    · have fcc : c1 &&& 0xC0 ≠ 0x80 := by
        rcases Nat.lt_or_ge c1 0x80 with h | h
        · exact landC0_low h
        · exact landC0_high (by omega) hbc1
      simp [RefOk, getUtf8CodePoint, decodeRef, getc, cpExit, landO, cInt, pend, WFS, buffWF, allNone, hb0, hm1, f80, f40, f20, hbc1, fcc] <;> first | assumption | omega | rfl
  by_cases hc4 : b0 < 0xF0
  · have f80 := land_ge128 (show 0x80 ≤ b0 by omega) hb0
    have f40 := land40_lead (show 0xC0 ≤ b0 by omega) hb0
    have f20 := land20_three (show 0xE0 ≤ b0 by omega) hb0
    have f10 := land10_three (show 0xE0 ≤ b0 by omega) hc4
    rcases inp with _ | ⟨c1, t1⟩
    · simp [RefOk, getUtf8CodePoint, decodeRef, getc, cpExit, landO, cInt, pend, WFS, buffWF, allNone, hb0, hm1, f80, f40, f20, f10] <;> first | assumption | omega | rfl
    have hbc1 : c1 < 256 := hT0 c1 (by simp)
    have hT1 : ∀ b ∈ t1, b < 256 := fun b hb => hT0 b (by simp [hb])
    rcases t1 with _ | ⟨c2, t2⟩
    · simp [RefOk, getUtf8CodePoint, decodeRef, getc, cpExit, landO, cInt, pend, WFS, buffWF, allNone, hb0, hm1, f80, f40, f20, f10, hbc1] <;> first | assumption | omega | rfl
    have hbc2 : c2 < 256 := hT1 c2 (by simp)
    have hT2 : ∀ b ∈ t2, b < 256 := fun b hb => hT1 b (by simp [hb])
    by_cases hcc : 0x80 ≤ c2 ∧ c2 < 0xC0
    · have fcc := landC0_cont hcc.1 hcc.2
      by_cases hv : 0x7FF < (b0 &&& 0x0F) <<< 12 ||| (c1 &&& 0x3F) <<< 6 ||| (c2 &&& 0x3F) ∧ ((b0 &&& 0x0F) <<< 12 ||| (c1 &&& 0x3F) <<< 6 ||| (c2 &&& 0x3F) < 0xD800 ∨ 0xDFFF < (b0 &&& 0x0F) <<< 12 ||| (c1 &&& 0x3F) <<< 6 ||| (c2 &&& 0x3F))
      · simp [RefOk, getUtf8CodePoint, decodeRef, getc, cpExit, landO, cInt, pend, WFS, buffWF, allNone, hb0, hm1, f80, f40, f20, f10, hbc1, hbc2, fcc, hv] <;> first | assumption | omega | rfl
      · simp [RefOk, getUtf8CodePoint, decodeRef, getc, cpExit, landO, cInt, pend, WFS, buffWF, allNone, hb0, hm1, f80, f40, f20, f10, hbc1, hbc2, fcc, hv] <;> first | assumption | omega | rfl
    · have fcc : c2 &&& 0xC0 ≠ 0x80 := by
        rcases Nat.lt_or_ge c2 0x80 with h | h
        · exact landC0_low h
        · exact landC0_high (by omega) hbc2
      simp [RefOk, getUtf8CodePoint, decodeRef, getc, cpExit, landO, cInt, pend, WFS, buffWF, allNone, hb0, hm1, f80, f40, f20, f10, hbc1, hbc2, fcc] <;> first | assumption | omega | rfl
  by_cases hc5 : b0 < 0xF8
  · have f80 := land_ge128 (show 0x80 ≤ b0 by omega) hb0
    have f40 := land40_lead (show 0xC0 ≤ b0 by omega) hb0
    have f20 := land20_three (show 0xE0 ≤ b0 by omega) hb0
    have f10 := land10_four (show 0xF0 ≤ b0 by omega) hb0
    have f8 := land8_four (show 0xF0 ≤ b0 by omega) hc5
    rcases inp with _ | ⟨c1, t1⟩
    · simp [RefOk, getUtf8CodePoint, decodeRef, getc, cpExit, landO, cInt, pend, WFS, buffWF, allNone, hb0, hm1, f80, f40, f20, f10, f8] <;> first | assumption | omega | rfl
    have hbc1 : c1 < 256 := hT0 c1 (by simp)
    have hT1 : ∀ b ∈ t1, b < 256 := fun b hb => hT0 b (by simp [hb])
    rcases t1 with _ | ⟨c2, t2⟩
    · simp [RefOk, getUtf8CodePoint, decodeRef, getc, cpExit, landO, cInt, pend, WFS, buffWF, allNone, hb0, hm1, f80, f40, f20, f10, f8, hbc1] <;> first | assumption | omega | rfl
    have hbc2 : c2 < 256 := hT1 c2 (by simp)
    have hT2 : ∀ b ∈ t2, b < 256 := fun b hb => hT1 b (by simp [hb])
    rcases t2 with _ | ⟨c3, t3⟩
    · simp [RefOk, getUtf8CodePoint, decodeRef, getc, cpExit, landO, cInt, pend, WFS, buffWF, allNone, hb0, hm1, f80, f40, f20, f10, f8, hbc1, hbc2] <;> first | assumption | omega | rfl
    have hbc3 : c3 < 256 := hT2 c3 (by simp)
    have hT3 : ∀ b ∈ t3, b < 256 := fun b hb => hT2 b (by simp [hb])
    by_cases hcc : 0x80 ≤ c3 ∧ c3 < 0xC0
    · have fcc := landC0_cont hcc.1 hcc.2
      by_cases hv : 0xFFFF < (b0 &&& 0x07) <<< 18 ||| (c1 &&& 0x3F) <<< 12 ||| (c2 &&& 0x3F) <<< 6 ||| (c3 &&& 0x3F) ∧ (b0 &&& 0x07) <<< 18 ||| (c1 &&& 0x3F) <<< 12 ||| (c2 &&& 0x3F) <<< 6 ||| (c3 &&& 0x3F) < 0x110000
      · simp [RefOk, getUtf8CodePoint, decodeRef, getc, cpExit, landO, cInt, pend, WFS, buffWF, allNone, hb0, hm1, f80, f40, f20, f10, f8, hbc1, hbc2, hbc3, fcc, hv] <;> first | assumption | omega | rfl
      · simp [RefOk, getUtf8CodePoint, decodeRef, getc, cpExit, landO, cInt, pend, WFS, buffWF, allNone, hb0, hm1, f80, f40, f20, f10, f8, hbc1, hbc2, hbc3, fcc, hv] <;> first | assumption | omega | rfl
    · have fcc : c3 &&& 0xC0 ≠ 0x80 := by
        rcases Nat.lt_or_ge c3 0x80 with h | h
        · exact landC0_low h
        · exact landC0_high (by omega) hbc3
      simp [RefOk, getUtf8CodePoint, decodeRef, getc, cpExit, landO, cInt, pend, WFS, buffWF, allNone, hb0, hm1, f80, f40, f20, f10, f8, hbc1, hbc2, hbc3, fcc] <;> first | assumption | omega | rfl
  · have f80 := land_ge128 (show 0x80 ≤ b0 by omega) hb0
    have f40 := land40_lead (show 0xC0 ≤ b0 by omega) hb0
    have f20 := land20_three (show 0xE0 ≤ b0 by omega) hb0
    have f10 := land10_four (show 0xF0 ≤ b0 by omega) hb0
    have f8 := land8_bad (show 0xF8 ≤ b0 by omega) hb0
    rcases inp with _ | ⟨c1, t1⟩
    · simp [RefOk, getUtf8CodePoint, decodeRef, getc, cpExit, landO, cInt, pend, WFS, buffWF, allNone, hb0, hm1, f80, f40, f20, f10, f8] <;> first | assumption | omega | rfl
    have hbc1 : c1 < 256 := hT0 c1 (by simp)
    have hT1 : ∀ b ∈ t1, b < 256 := fun b hb => hT0 b (by simp [hb])
    rcases t1 with _ | ⟨c2, t2⟩
    · simp [RefOk, getUtf8CodePoint, decodeRef, getc, cpExit, landO, cInt, pend, WFS, buffWF, allNone, hb0, hm1, f80, f40, f20, f10, f8, hbc1] <;> first | assumption | omega | rfl
    have hbc2 : c2 < 256 := hT1 c2 (by simp)
    have hT2 : ∀ b ∈ t2, b < 256 := fun b hb => hT1 b (by simp [hb])
    simp [RefOk, getUtf8CodePoint, decodeRef, getc, cpExit, landO, cInt, pend, WFS, buffWF, allNone, hb0, hm1, f80, f40, f20, f10, f8, hbc1, hbc2] <;> first | assumption | omega | rfl

set_option maxHeartbeats 4000000 in
theorem mRefS1n (b0 : Nat)
    (hb0 : b0 < 256) : RefOk ⟨[some b0, none], []⟩ := by
  have hm1 : (-1 : Int) < (b0 : Int) := by omega
  by_cases hc1 : b0 < 0x80
  · simp [RefOk, getUtf8CodePoint, decodeRef, getc, cpExit, landO, cInt, pend, WFS, buffWF, allNone, hb0, hm1, land_lt128 hc1] <;> first | assumption | omega | rfl
  by_cases hc2 : b0 < 0xC0
  · simp [RefOk, getUtf8CodePoint, decodeRef, getc, cpExit, landO, cInt, pend, WFS, buffWF, allNone, hb0, hm1, land_ge128 (by omega) hb0, land40_cont (by omega) hc2] <;> first | assumption | omega | rfl
  by_cases hc3 : b0 < 0xE0
  · have f80 := land_ge128 (show 0x80 ≤ b0 by omega) hb0
    have f40 := land40_lead (show 0xC0 ≤ b0 by omega) hb0
    have f20 := land20_two (show 0xC0 ≤ b0 by omega) hc3
    simp [RefOk, getUtf8CodePoint, decodeRef, getc, cpExit, landO, cInt, pend, WFS, buffWF, allNone, hb0, hm1, f80, f40, f20] <;> first | assumption | omega | rfl
  by_cases hc4 : b0 < 0xF0
  · have f80 := land_ge128 (show 0x80 ≤ b0 by omega) hb0
    have f40 := land40_lead (show 0xC0 ≤ b0 by omega) hb0
    have f20 := land20_three (show 0xE0 ≤ b0 by omega) hb0
    have f10 := land10_three (show 0xE0 ≤ b0 by omega) hc4
    simp [RefOk, getUtf8CodePoint, decodeRef, getc, cpExit, landO, cInt, pend, WFS, buffWF, allNone, hb0, hm1, f80, f40, f20, f10] <;> first | assumption | omega | rfl
  by_cases hc5 : b0 < 0xF8
  · have f80 := land_ge128 (show 0x80 ≤ b0 by omega) hb0
    have f40 := land40_lead (show 0xC0 ≤ b0 by omega) hb0
    have f20 := land20_three (show 0xE0 ≤ b0 by omega) hb0
    have f10 := land10_four (show 0xF0 ≤ b0 by omega) hb0
    have f8 := land8_four (show 0xF0 ≤ b0 by omega) hc5
    simp [RefOk, getUtf8CodePoint, decodeRef, getc, cpExit, landO, cInt, pend, WFS, buffWF, allNone, hb0, hm1, f80, f40, f20, f10, f8] <;> first | assumption | omega | rfl
  · have f80 := land_ge128 (show 0x80 ≤ b0 by omega) hb0
    have f40 := land40_lead (show 0xC0 ≤ b0 by omega) hb0
    have f20 := land20_three (show 0xE0 ≤ b0 by omega) hb0
    have f10 := land10_four (show 0xF0 ≤ b0 by omega) hb0
    have f8 := land8_bad (show 0xF8 ≤ b0 by omega) hb0
    simp [RefOk, getUtf8CodePoint, decodeRef, getc, cpExit, landO, cInt, pend, WFS, buffWF, allNone, hb0, hm1, f80, f40, f20, f10, f8] <;> first | assumption | omega | rfl

set_option maxHeartbeats 4000000 in
theorem mRefS1nn (b0 : Nat)
    (hb0 : b0 < 256) : RefOk ⟨[some b0, none, none], []⟩ := by
  have hm1 : (-1 : Int) < (b0 : Int) := by omega
  by_cases hc1 : b0 < 0x80
  · simp [RefOk, getUtf8CodePoint, decodeRef, getc, cpExit, landO, cInt, pend, WFS, buffWF, allNone, hb0, hm1, land_lt128 hc1] <;> first | assumption | omega | rfl
  by_cases hc2 : b0 < 0xC0
  · simp [RefOk, getUtf8CodePoint, decodeRef, getc, cpExit, landO, cInt, pend, WFS, buffWF, allNone, hb0, hm1, land_ge128 (by omega) hb0, land40_cont (by omega) hc2] <;> first | assumption | omega | rfl
  by_cases hc3 : b0 < 0xE0
  · have f80 := land_ge128 (show 0x80 ≤ b0 by omega) hb0
    have f40 := land40_lead (show 0xC0 ≤ b0 by omega) hb0
    have f20 := land20_two (show 0xC0 ≤ b0 by omega) hc3
    simp [RefOk, getUtf8CodePoint, decodeRef, getc, cpExit, landO, cInt, pend, WFS, buffWF, allNone, hb0, hm1, f80, f40, f20] <;> first | assumption | omega | rfl
  by_cases hc4 : b0 < 0xF0
  · have f80 := land_ge128 (show 0x80 ≤ b0 by omega) hb0
    have f40 := land40_lead (show 0xC0 ≤ b0 by omega) hb0
    have f20 := land20_three (show 0xE0 ≤ b0 by omega) hb0
    have f10 := land10_three (show 0xE0 ≤ b0 by omega) hc4
    simp [RefOk, getUtf8CodePoint, decodeRef, getc, cpExit, landO, cInt, pend, WFS, buffWF, allNone, hb0, hm1, f80, f40, f20, f10] <;> first | assumption | omega | rfl
  by_cases hc5 : b0 < 0xF8
  · have f80 := land_ge128 (show 0x80 ≤ b0 by omega) hb0
    have f40 := land40_lead (show 0xC0 ≤ b0 by omega) hb0
    have f20 := land20_three (show 0xE0 ≤ b0 by omega) hb0
    have f10 := land10_four (show 0xF0 ≤ b0 by omega) hb0
    have f8 := land8_four (show 0xF0 ≤ b0 by omega) hc5
    simp [RefOk, getUtf8CodePoint, decodeRef, getc, cpExit, landO, cInt, pend, WFS, buffWF, allNone, hb0, hm1, f80, f40, f20, f10, f8] <;> first | assumption | omega | rfl
  · have f80 := land_ge128 (show 0x80 ≤ b0 by omega) hb0
    have f40 := land40_lead (show 0xC0 ≤ b0 by omega) hb0
    have f20 := land20_three (show 0xE0 ≤ b0 by omega) hb0
    have f10 := land10_four (show 0xF0 ≤ b0 by omega) hb0
    have f8 := land8_bad (show 0xF8 ≤ b0 by omega) hb0
    simp [RefOk, getUtf8CodePoint, decodeRef, getc, cpExit, landO, cInt, pend, WFS, buffWF, allNone, hb0, hm1, f80, f40, f20, f10, f8] <;> first | assumption | omega | rfl

set_option maxHeartbeats 4000000 in
theorem mRefS1nnn (b0 : Nat)
    (hb0 : b0 < 256) : RefOk ⟨[some b0, none, none, none], []⟩ := by
  have hm1 : (-1 : Int) < (b0 : Int) := by omega
  by_cases hc1 : b0 < 0x80
  · simp [RefOk, getUtf8CodePoint, decodeRef, getc, cpExit, landO, cInt, pend, WFS, buffWF, allNone, hb0, hm1, land_lt128 hc1] <;> first | assumption | omega | rfl
  by_cases hc2 : b0 < 0xC0
  · simp [RefOk, getUtf8CodePoint, decodeRef, getc, cpExit, landO, cInt, pend, WFS, buffWF, allNone, hb0, hm1, land_ge128 (by omega) hb0, land40_cont (by omega) hc2] <;> first | assumption | omega | rfl
  by_cases hc3 : b0 < 0xE0
  · have f80 := land_ge128 (show 0x80 ≤ b0 by omega) hb0
    have f40 := land40_lead (show 0xC0 ≤ b0 by omega) hb0
    have f20 := land20_two (show 0xC0 ≤ b0 by omega) hc3
    simp [RefOk, getUtf8CodePoint, decodeRef, getc, cpExit, landO, cInt, pend, WFS, buffWF, allNone, hb0, hm1, f80, f40, f20] <;> first | assumption | omega | rfl
  by_cases hc4 : b0 < 0xF0
  · have f80 := land_ge128 (show 0x80 ≤ b0 by omega) hb0
    have f40 := land40_lead (show 0xC0 ≤ b0 by omega) hb0
    have f20 := land20_three (show 0xE0 ≤ b0 by omega) hb0
    have f10 := land10_three (show 0xE0 ≤ b0 by omega) hc4
    simp [RefOk, getUtf8CodePoint, decodeRef, getc, cpExit, landO, cInt, pend, WFS, buffWF, allNone, hb0, hm1, f80, f40, f20, f10] <;> first | assumption | omega | rfl
  by_cases hc5 : b0 < 0xF8
  · have f80 := land_ge128 (show 0x80 ≤ b0 by omega) hb0
    have f40 := land40_lead (show 0xC0 ≤ b0 by omega) hb0
    have f20 := land20_three (show 0xE0 ≤ b0 by omega) hb0
    have f10 := land10_four (show 0xF0 ≤ b0 by omega) hb0
    have f8 := land8_four (show 0xF0 ≤ b0 by omega) hc5
    simp [RefOk, getUtf8CodePoint, decodeRef, getc, cpExit, landO, cInt, pend, WFS, buffWF, allNone, hb0, hm1, f80, f40, f20, f10, f8] <;> first | assumption | omega | rfl
  · have f80 := land_ge128 (show 0x80 ≤ b0 by omega) hb0
    have f40 := land40_lead (show 0xC0 ≤ b0 by omega) hb0
    have f20 := land20_three (show 0xE0 ≤ b0 by omega) hb0
    have f10 := land10_four (show 0xF0 ≤ b0 by omega) hb0
    have f8 := land8_bad (show 0xF8 ≤ b0 by omega) hb0
    simp [RefOk, getUtf8CodePoint, decodeRef, getc, cpExit, landO, cInt, pend, WFS, buffWF, allNone, hb0, hm1, f80, f40, f20, f10, f8] <;> first | assumption | omega | rfl

set_option maxHeartbeats 4000000 in
theorem mRefS2 (b0 b1 : Nat) (inp : List Nat)
    (hb0 : b0 < 256) (hb1 : b1 < 256)
    (hinp : ∀ b ∈ inp, b < 256) : RefOk ⟨[some b0, some b1], inp⟩ := by
  have hT0 : ∀ b ∈ inp, b < 256 := hinp
  have hm1 : (-1 : Int) < (b0 : Int) := by omega
  by_cases hc1 : b0 < 0x80
  · simp [RefOk, getUtf8CodePoint, decodeRef, getc, cpExit, landO, cInt, pend, WFS, buffWF, allNone, hb0, hb1, hm1, land_lt128 hc1] <;> first | assumption | omega | rfl
  by_cases hc2 : b0 < 0xC0
  · simp [RefOk, getUtf8CodePoint, decodeRef, getc, cpExit, landO, cInt, pend, WFS, buffWF, allNone, hb0, hb1, hm1, land_ge128 (by omega) hb0, land40_cont (by omega) hc2] <;> first | assumption | omega | rfl
  by_cases hc3 : b0 < 0xE0
  · have f80 := land_ge128 (show 0x80 ≤ b0 by omega) hb0
    have f40 := land40_lead (show 0xC0 ≤ b0 by omega) hb0
    have f20 := land20_two (show 0xC0 ≤ b0 by omega) hc3
    by_cases hcc : 0x80 ≤ b1 ∧ b1 < 0xC0
    · have fcc := landC0_cont hcc.1 hcc.2
      by_cases hv : 0x7F < (b0 &&& 0x1F) <<< 6 ||| (b1 &&& 0x3F)
      · simp [RefOk, getUtf8CodePoint, decodeRef, getc, cpExit, landO, cInt, pend, WFS, buffWF, allNone, hb0, hb1, hm1, f80, f40, f20, fcc, hv] <;> first | assumption | omega | rfl
      · simp [RefOk, getUtf8CodePoint, decodeRef, getc, cpExit, landO, cInt, pend, WFS, buffWF, allNone, hb0, hb1, hm1, f80, f40, f20, fcc, hv] <;> first | assumption | omega | rfl
    · have fcc : b1 &&& 0xC0 ≠ 0x80 := by
        rcases Nat.lt_or_ge b1 0x80 with h | h
        · exact landC0_low h
        · exact landC0_high (by omega) hb1
      simp [RefOk, getUtf8CodePoint, decodeRef, getc, cpExit, landO, cInt, pend, WFS, buffWF, allNone, hb0, hb1, hm1, f80, f40, f20, fcc] <;> first | assumption | omega | rfl
  by_cases hc4 : b0 < 0xF0
  · have f80 := land_ge128 (show 0x80 ≤ b0 by omega) hb0
    have f40 := land40_lead (show 0xC0 ≤ b0 by omega) hb0
    have f20 := land20_three (show 0xE0 ≤ b0 by omega) hb0
    have f10 := land10_three (show 0xE0 ≤ b0 by omega) hc4
    rcases inp with _ | ⟨c1, t1⟩
    · simp [RefOk, getUtf8CodePoint, decodeRef, getc, cpExit, landO, cInt, pend, WFS, buffWF, allNone, hb0, hb1, hm1, f80, f40, f20, f10] <;> first | assumption | omega | rfl
    have hbc1 : c1 < 256 := hT0 c1 (by simp)
    have hT1 : ∀ b ∈ t1, b < 256 := fun b hb => hT0 b (by simp [hb])
    by_cases hcc : 0x80 ≤ c1 ∧ c1 < 0xC0
    · have fcc := landC0_cont hcc.1 hcc.2
      by_cases hv : 0x7FF < (b0 &&& 0x0F) <<< 12 ||| (b1 &&& 0x3F) <<< 6 ||| (c1 &&& 0x3F) ∧ ((b0 &&& 0x0F) <<< 12 ||| (b1 &&& 0x3F) <<< 6 ||| (c1 &&& 0x3F) < 0xD800 ∨ 0xDFFF < (b0 &&& 0x0F) <<< 12 ||| (b1 &&& 0x3F) <<< 6 ||| (c1 &&& 0x3F))
      · simp [RefOk, getUtf8CodePoint, decodeRef, getc, cpExit, landO, cInt, pend, WFS, buffWF, allNone, hb0, hb1, hm1, f80, f40, f20, f10, hbc1, fcc, hv] <;> first | assumption | omega | rfl
      · simp [RefOk, getUtf8CodePoint, decodeRef, getc, cpExit, landO, cInt, pend, WFS, buffWF, allNone, hb0, hb1, hm1, f80, f40, f20, f10, hbc1, fcc, hv] <;> first | assumption | omega | rfl
    · have fcc : c1 &&& 0xC0 ≠ 0x80 := by
        rcases Nat.lt_or_ge c1 0x80 with h | h
        · exact landC0_low h
        · exact landC0_high (by omega) hbc1
      simp [RefOk, getUtf8CodePoint, decodeRef, getc, cpExit, landO, cInt, pend, WFS, buffWF, allNone, hb0, hb1, hm1, f80, f40, f20, f10, hbc1, fcc] <;> first | assumption | omega | rfl
  by_cases hc5 : b0 < 0xF8
  · have f80 := land_ge128 (show 0x80 ≤ b0 by omega) hb0
    have f40 := land40_lead (show 0xC0 ≤ b0 by omega) hb0
    have f20 := land20_three (show 0xE0 ≤ b0 by omega) hb0
    have f10 := land10_four (show 0xF0 ≤ b0 by omega) hb0
    have f8 := land8_four (show 0xF0 ≤ b0 by omega) hc5
    rcases inp with _ | ⟨c1, t1⟩
    · simp [RefOk, getUtf8CodePoint, decodeRef, getc, cpExit, landO, cInt, pend, WFS, buffWF, allNone, hb0, hb1, hm1, f80, f40, f20, f10, f8] <;> first | assumption | omega | rfl
    have hbc1 : c1 < 256 := hT0 c1 (by simp)
    have hT1 : ∀ b ∈ t1, b < 256 := fun b hb => hT0 b (by simp [hb])
    rcases t1 with _ | ⟨c2, t2⟩
    · simp [RefOk, getUtf8CodePoint, decodeRef, getc, cpExit, landO, cInt, pend, WFS, buffWF, allNone, hb0, hb1, hm1, f80, f40, f20, f10, f8, hbc1] <;> first | assumption | omega | rfl
    have hbc2 : c2 < 256 := hT1 c2 (by simp)
    have hT2 : ∀ b ∈ t2, b < 256 := fun b hb => hT1 b (by simp [hb])
    by_cases hcc : 0x80 ≤ c2 ∧ c2 < 0xC0
    · have fcc := landC0_cont hcc.1 hcc.2
      by_cases hv : 0xFFFF < (b0 &&& 0x07) <<< 18 ||| (b1 &&& 0x3F) <<< 12 ||| (c1 &&& 0x3F) <<< 6 ||| (c2 &&& 0x3F) ∧ (b0 &&& 0x07) <<< 18 ||| (b1 &&& 0x3F) <<< 12 ||| (c1 &&& 0x3F) <<< 6 ||| (c2 &&& 0x3F) < 0x110000
      · simp [RefOk, getUtf8CodePoint, decodeRef, getc, cpExit, landO, cInt, pend, WFS, buffWF, allNone, hb0, hb1, hm1, f80, f40, f20, f10, f8, hbc1, hbc2, fcc, hv] <;> first | assumption | omega | rfl
      · simp [RefOk, getUtf8CodePoint, decodeRef, getc, cpExit, landO, cInt, pend, WFS, buffWF, allNone, hb0, hb1, hm1, f80, f40, f20, f10, f8, hbc1, hbc2, fcc, hv] <;> first | assumption | omega | rfl
    · have fcc : c2 &&& 0xC0 ≠ 0x80 := by
        rcases Nat.lt_or_ge c2 0x80 with h | h
        · exact landC0_low h
        · exact landC0_high (by omega) hbc2
      simp [RefOk, getUtf8CodePoint, decodeRef, getc, cpExit, landO, cInt, pend, WFS, buffWF, allNone, hb0, hb1, hm1, f80, f40, f20, f10, f8, hbc1, hbc2, fcc] <;> first | assumption | omega | rfl
  · have f80 := land_ge128 (show 0x80 ≤ b0 by omega) hb0
    have f40 := land40_lead (show 0xC0 ≤ b0 by omega) hb0
    have f20 := land20_three (show 0xE0 ≤ b0 by omega) hb0
    have f10 := land10_four (show 0xF0 ≤ b0 by omega) hb0
    have f8 := land8_bad (show 0xF8 ≤ b0 by omega) hb0
    rcases inp with _ | ⟨c1, t1⟩
    · simp [RefOk, getUtf8CodePoint, decodeRef, getc, cpExit, landO, cInt, pend, WFS, buffWF, allNone, hb0, hb1, hm1, f80, f40, f20, f10, f8] <;> first | assumption | omega | rfl
    have hbc1 : c1 < 256 := hT0 c1 (by simp)
    have hT1 : ∀ b ∈ t1, b < 256 := fun b hb => hT0 b (by simp [hb])
    simp [RefOk, getUtf8CodePoint, decodeRef, getc, cpExit, landO, cInt, pend, WFS, buffWF, allNone, hb0, hb1, hm1, f80, f40, f20, f10, f8, hbc1] <;> first | assumption | omega | rfl

set_option maxHeartbeats 4000000 in
theorem mRefS2n (b0 b1 : Nat)
    (hb0 : b0 < 256) (hb1 : b1 < 256) : RefOk ⟨[some b0, some b1, none], []⟩ := by
  have hm1 : (-1 : Int) < (b0 : Int) := by omega
  by_cases hc1 : b0 < 0x80
  · simp [RefOk, getUtf8CodePoint, decodeRef, getc, cpExit, landO, cInt, pend, WFS, buffWF, allNone, hb0, hb1, hm1, land_lt128 hc1] <;> first | assumption | omega | rfl
  by_cases hc2 : b0 < 0xC0
  · simp [RefOk, getUtf8CodePoint, decodeRef, getc, cpExit, landO, cInt, pend, WFS, buffWF, allNone, hb0, hb1, hm1, land_ge128 (by omega) hb0, land40_cont (by omega) hc2] <;> first | assumption | omega | rfl
  by_cases hc3 : b0 < 0xE0
  · have f80 := land_ge128 (show 0x80 ≤ b0 by omega) hb0
    have f40 := land40_lead (show 0xC0 ≤ b0 by omega) hb0
    have f20 := land20_two (show 0xC0 ≤ b0 by omega) hc3
    by_cases hcc : 0x80 ≤ b1 ∧ b1 < 0xC0
    · have fcc := landC0_cont hcc.1 hcc.2
      by_cases hv : 0x7F < (b0 &&& 0x1F) <<< 6 ||| (b1 &&& 0x3F)
      · simp [RefOk, getUtf8CodePoint, decodeRef, getc, cpExit, landO, cInt, pend, WFS, buffWF, allNone, hb0, hb1, hm1, f80, f40, f20, fcc, hv] <;> first | assumption | omega | rfl
      · simp [RefOk, getUtf8CodePoint, decodeRef, getc, cpExit, landO, cInt, pend, WFS, buffWF, allNone, hb0, hb1, hm1, f80, f40, f20, fcc, hv] <;> first | assumption | omega | rfl
    · have fcc : b1 &&& 0xC0 ≠ 0x80 := by
        rcases Nat.lt_or_ge b1 0x80 with h | h
        · exact landC0_low h
        · exact landC0_high (by omega) hb1
      simp [RefOk, getUtf8CodePoint, decodeRef, getc, cpExit, landO, cInt, pend, WFS, buffWF, allNone, hb0, hb1, hm1, f80, f40, f20, fcc] <;> first | assumption | omega | rfl
  by_cases hc4 : b0 < 0xF0
  · have f80 := land_ge128 (show 0x80 ≤ b0 by omega) hb0
    have f40 := land40_lead (show 0xC0 ≤ b0 by omega) hb0
    have f20 := land20_three (show 0xE0 ≤ b0 by omega) hb0
    have f10 := land10_three (show 0xE0 ≤ b0 by omega) hc4
    simp [RefOk, getUtf8CodePoint, decodeRef, getc, cpExit, landO, cInt, pend, WFS, buffWF, allNone, hb0, hb1, hm1, f80, f40, f20, f10] <;> first | assumption | omega | rfl
  by_cases hc5 : b0 < 0xF8
  · have f80 := land_ge128 (show 0x80 ≤ b0 by omega) hb0
    have f40 := land40_lead (show 0xC0 ≤ b0 by omega) hb0
    have f20 := land20_three (show 0xE0 ≤ b0 by omega) hb0
    have f10 := land10_four (show 0xF0 ≤ b0 by omega) hb0
    have f8 := land8_four (show 0xF0 ≤ b0 by omega) hc5
    simp [RefOk, getUtf8CodePoint, decodeRef, getc, cpExit, landO, cInt, pend, WFS, buffWF, allNone, hb0, hb1, hm1, f80, f40, f20, f10, f8] <;> first | assumption | omega | rfl
  · have f80 := land_ge128 (show 0x80 ≤ b0 by omega) hb0
    have f40 := land40_lead (show 0xC0 ≤ b0 by omega) hb0
    have f20 := land20_three (show 0xE0 ≤ b0 by omega) hb0
    have f10 := land10_four (show 0xF0 ≤ b0 by omega) hb0
    have f8 := land8_bad (show 0xF8 ≤ b0 by omega) hb0
    simp [RefOk, getUtf8CodePoint, decodeRef, getc, cpExit, landO, cInt, pend, WFS, buffWF, allNone, hb0, hb1, hm1, f80, f40, f20, f10, f8] <;> first | assumption | omega | rfl

set_option maxHeartbeats 4000000 in
theorem mRefS2nn (b0 b1 : Nat)
    (hb0 : b0 < 256) (hb1 : b1 < 256) : RefOk ⟨[some b0, some b1, none, none], []⟩ := by
  have hm1 : (-1 : Int) < (b0 : Int) := by omega
  by_cases hc1 : b0 < 0x80
  · simp [RefOk, getUtf8CodePoint, decodeRef, getc, cpExit, landO, cInt, pend, WFS, buffWF, allNone, hb0, hb1, hm1, land_lt128 hc1] <;> first | assumption | omega | rfl
  by_cases hc2 : b0 < 0xC0
  · simp [RefOk, getUtf8CodePoint, decodeRef, getc, cpExit, landO, cInt, pend, WFS, buffWF, allNone, hb0, hb1, hm1, land_ge128 (by omega) hb0, land40_cont (by omega) hc2] <;> first | assumption | omega | rfl
  by_cases hc3 : b0 < 0xE0
  · have f80 := land_ge128 (show 0x80 ≤ b0 by omega) hb0
    have f40 := land40_lead (show 0xC0 ≤ b0 by omega) hb0
    have f20 := land20_two (show 0xC0 ≤ b0 by omega) hc3
    by_cases hcc : 0x80 ≤ b1 ∧ b1 < 0xC0
    · have fcc := landC0_cont hcc.1 hcc.2
      by_cases hv : 0x7F < (b0 &&& 0x1F) <<< 6 ||| (b1 &&& 0x3F)
      · simp [RefOk, getUtf8CodePoint, decodeRef, getc, cpExit, landO, cInt, pend, WFS, buffWF, allNone, hb0, hb1, hm1, f80, f40, f20, fcc, hv] <;> first | assumption | omega | rfl
      · simp [RefOk, getUtf8CodePoint, decodeRef, getc, cpExit, landO, cInt, pend, WFS, buffWF, allNone, hb0, hb1, hm1, f80, f40, f20, fcc, hv] <;> first | assumption | omega | rfl
    · have fcc : b1 &&& 0xC0 ≠ 0x80 := by
        rcases Nat.lt_or_ge b1 0x80 with h | h
        · exact landC0_low h
        · exact landC0_high (by omega) hb1
      simp [RefOk, getUtf8CodePoint, decodeRef, getc, cpExit, landO, cInt, pend, WFS, buffWF, allNone, hb0, hb1, hm1, f80, f40, f20, fcc] <;> first | assumption | omega | rfl
  by_cases hc4 : b0 < 0xF0
  · have f80 := land_ge128 (show 0x80 ≤ b0 by omega) hb0
    have f40 := land40_lead (show 0xC0 ≤ b0 by omega) hb0
    have f20 := land20_three (show 0xE0 ≤ b0 by omega) hb0
    have f10 := land10_three (show 0xE0 ≤ b0 by omega) hc4
    simp [RefOk, getUtf8CodePoint, decodeRef, getc, cpExit, landO, cInt, pend, WFS, buffWF, allNone, hb0, hb1, hm1, f80, f40, f20, f10] <;> first | assumption | omega | rfl
  by_cases hc5 : b0 < 0xF8
  · have f80 := land_ge128 (show 0x80 ≤ b0 by omega) hb0
    have f40 := land40_lead (show 0xC0 ≤ b0 by omega) hb0
    have f20 := land20_three (show 0xE0 ≤ b0 by omega) hb0
    have f10 := land10_four (show 0xF0 ≤ b0 by omega) hb0
    have f8 := land8_four (show 0xF0 ≤ b0 by omega) hc5
    simp [RefOk, getUtf8CodePoint, decodeRef, getc, cpExit, landO, cInt, pend, WFS, buffWF, allNone, hb0, hb1, hm1, f80, f40, f20, f10, f8] <;> first | assumption | omega | rfl
  · have f80 := land_ge128 (show 0x80 ≤ b0 by omega) hb0
    have f40 := land40_lead (show 0xC0 ≤ b0 by omega) hb0
    have f20 := land20_three (show 0xE0 ≤ b0 by omega) hb0
    have f10 := land10_four (show 0xF0 ≤ b0 by omega) hb0
    have f8 := land8_bad (show 0xF8 ≤ b0 by omega) hb0
    simp [RefOk, getUtf8CodePoint, decodeRef, getc, cpExit, landO, cInt, pend, WFS, buffWF, allNone, hb0, hb1, hm1, f80, f40, f20, f10, f8] <;> first | assumption | omega | rfl

set_option maxHeartbeats 4000000 in
theorem mRefS3 (b0 b1 b2 : Nat) (inp : List Nat)
    (hb0 : b0 < 256) (hb1 : b1 < 256) (hb2 : b2 < 256)
    (hinp : ∀ b ∈ inp, b < 256) : RefOk ⟨[some b0, some b1, some b2], inp⟩ := by
  have hT0 : ∀ b ∈ inp, b < 256 := hinp
  have hm1 : (-1 : Int) < (b0 : Int) := by omega
  by_cases hc1 : b0 < 0x80
  · simp [RefOk, getUtf8CodePoint, decodeRef, getc, cpExit, landO, cInt, pend, WFS, buffWF, allNone, hb0, hb1, hb2, hm1, land_lt128 hc1] <;> first | assumption | omega | rfl
  by_cases hc2 : b0 < 0xC0
  · simp [RefOk, getUtf8CodePoint, decodeRef, getc, cpExit, landO, cInt, pend, WFS, buffWF, allNone, hb0, hb1, hb2, hm1, land_ge128 (by omega) hb0, land40_cont (by omega) hc2] <;> first | assumption | omega | rfl
  by_cases hc3 : b0 < 0xE0
  · have f80 := land_ge128 (show 0x80 ≤ b0 by omega) hb0
    have f40 := land40_lead (show 0xC0 ≤ b0 by omega) hb0
    have f20 := land20_two (show 0xC0 ≤ b0 by omega) hc3
    by_cases hcc : 0x80 ≤ b1 ∧ b1 < 0xC0
    · have fcc := landC0_cont hcc.1 hcc.2
      by_cases hv : 0x7F < (b0 &&& 0x1F) <<< 6 ||| (b1 &&& 0x3F)
      · simp [RefOk, getUtf8CodePoint, decodeRef, getc, cpExit, landO, cInt, pend, WFS, buffWF, allNone, hb0, hb1, hb2, hm1, f80, f40, f20, fcc, hv] <;> first | assumption | omega | rfl
      · simp [RefOk, getUtf8CodePoint, decodeRef, getc, cpExit, landO, cInt, pend, WFS, buffWF, allNone, hb0, hb1, hb2, hm1, f80, f40, f20, fcc, hv] <;> first | assumption | omega | rfl
    · have fcc : b1 &&& 0xC0 ≠ 0x80 := by
        rcases Nat.lt_or_ge b1 0x80 with h | h
        · exact landC0_low h
        · exact landC0_high (by omega) hb1
      simp [RefOk, getUtf8CodePoint, decodeRef, getc, cpExit, landO, cInt, pend, WFS, buffWF, allNone, hb0, hb1, hb2, hm1, f80, f40, f20, fcc] <;> first | assumption | omega | rfl
  by_cases hc4 : b0 < 0xF0
  · have f80 := land_ge128 (show 0x80 ≤ b0 by omega) hb0
    have f40 := land40_lead (show 0xC0 ≤ b0 by omega) hb0
    have f20 := land20_three (show 0xE0 ≤ b0 by omega) hb0
    have f10 := land10_three (show 0xE0 ≤ b0 by omega) hc4
    by_cases hcc : 0x80 ≤ b2 ∧ b2 < 0xC0
    · have fcc := landC0_cont hcc.1 hcc.2
      by_cases hv : 0x7FF < (b0 &&& 0x0F) <<< 12 ||| (b1 &&& 0x3F) <<< 6 ||| (b2 &&& 0x3F) ∧ ((b0 &&& 0x0F) <<< 12 ||| (b1 &&& 0x3F) <<< 6 ||| (b2 &&& 0x3F) < 0xD800 ∨ 0xDFFF < (b0 &&& 0x0F) <<< 12 ||| (b1 &&& 0x3F) <<< 6 ||| (b2 &&& 0x3F))
      · simp [RefOk, getUtf8CodePoint, decodeRef, getc, cpExit, landO, cInt, pend, WFS, buffWF, allNone, hb0, hb1, hb2, hm1, f80, f40, f20, f10, fcc, hv] <;> first | assumption | omega | rfl
      · simp [RefOk, getUtf8CodePoint, decodeRef, getc, cpExit, landO, cInt, pend, WFS, buffWF, allNone, hb0, hb1, hb2, hm1, f80, f40, f20, f10, fcc, hv] <;> first | assumption | omega | rfl
    · have fcc : b2 &&& 0xC0 ≠ 0x80 := by
        rcases Nat.lt_or_ge b2 0x80 with h | h
        · exact landC0_low h
        · exact landC0_high (by omega) hb2
      simp [RefOk, getUtf8CodePoint, decodeRef, getc, cpExit, landO, cInt, pend, WFS, buffWF, allNone, hb0, hb1, hb2, hm1, f80, f40, f20, f10, fcc] <;> first | assumption | omega | rfl
  by_cases hc5 : b0 < 0xF8
  · have f80 := land_ge128 (show 0x80 ≤ b0 by omega) hb0
    have f40 := land40_lead (show 0xC0 ≤ b0 by omega) hb0
    have f20 := land20_three (show 0xE0 ≤ b0 by omega) hb0
    have f10 := land10_four (show 0xF0 ≤ b0 by omega) hb0
    have f8 := land8_four (show 0xF0 ≤ b0 by omega) hc5
    rcases inp with _ | ⟨c1, t1⟩
    · simp [RefOk, getUtf8CodePoint, decodeRef, getc, cpExit, landO, cInt, pend, WFS, buffWF, allNone, hb0, hb1, hb2, hm1, f80, f40, f20, f10, f8] <;> first | assumption | omega | rfl
    have hbc1 : c1 < 256 := hT0 c1 (by simp)
    have hT1 : ∀ b ∈ t1, b < 256 := fun b hb => hT0 b (by simp [hb])
    by_cases hcc : 0x80 ≤ c1 ∧ c1 < 0xC0
    · have fcc := landC0_cont hcc.1 hcc.2
      by_cases hv : 0xFFFF < (b0 &&& 0x07) <<< 18 ||| (b1 &&& 0x3F) <<< 12 ||| (b2 &&& 0x3F) <<< 6 ||| (c1 &&& 0x3F) ∧ (b0 &&& 0x07) <<< 18 ||| (b1 &&& 0x3F) <<< 12 ||| (b2 &&& 0x3F) <<< 6 ||| (c1 &&& 0x3F) < 0x110000
      · simp [RefOk, getUtf8CodePoint, decodeRef, getc, cpExit, landO, cInt, pend, WFS, buffWF, allNone, hb0, hb1, hb2, hm1, f80, f40, f20, f10, f8, hbc1, fcc, hv] <;> first | assumption | omega | rfl
      · simp [RefOk, getUtf8CodePoint, decodeRef, getc, cpExit, landO, cInt, pend, WFS, buffWF, allNone, hb0, hb1, hb2, hm1, f80, f40, f20, f10, f8, hbc1, fcc, hv] <;> first | assumption | omega | rfl
    · have fcc : c1 &&& 0xC0 ≠ 0x80 := by
        rcases Nat.lt_or_ge c1 0x80 with h | h
        · exact landC0_low h
        · exact landC0_high (by omega) hbc1
      simp [RefOk, getUtf8CodePoint, decodeRef, getc, cpExit, landO, cInt, pend, WFS, buffWF, allNone, hb0, hb1, hb2, hm1, f80, f40, f20, f10, f8, hbc1, fcc] <;> first | assumption | omega | rfl
  · have f80 := land_ge128 (show 0x80 ≤ b0 by omega) hb0
    have f40 := land40_lead (show 0xC0 ≤ b0 by omega) hb0
    have f20 := land20_three (show 0xE0 ≤ b0 by omega) hb0
    have f10 := land10_four (show 0xF0 ≤ b0 by omega) hb0
    have f8 := land8_bad (show 0xF8 ≤ b0 by omega) hb0
    simp [RefOk, getUtf8CodePoint, decodeRef, getc, cpExit, landO, cInt, pend, WFS, buffWF, allNone, hb0, hb1, hb2, hm1, f80, f40, f20, f10, f8] <;> first | assumption | omega | rfl

set_option maxHeartbeats 4000000 in
theorem mRefS3n (b0 b1 b2 : Nat)
    (hb0 : b0 < 256) (hb1 : b1 < 256) (hb2 : b2 < 256) : RefOk ⟨[some b0, some b1, some b2, none], []⟩ := by
  have hm1 : (-1 : Int) < (b0 : Int) := by omega
  by_cases hc1 : b0 < 0x80
  · simp [RefOk, getUtf8CodePoint, decodeRef, getc, cpExit, landO, cInt, pend, WFS, buffWF, allNone, hb0, hb1, hb2, hm1, land_lt128 hc1] <;> first | assumption | omega | rfl
  by_cases hc2 : b0 < 0xC0
  · simp [RefOk, getUtf8CodePoint, decodeRef, getc, cpExit, landO, cInt, pend, WFS, buffWF, allNone, hb0, hb1, hb2, hm1, land_ge128 (by omega) hb0, land40_cont (by omega) hc2] <;> first | assumption | omega | rfl
  by_cases hc3 : b0 < 0xE0
  · have f80 := land_ge128 (show 0x80 ≤ b0 by omega) hb0
    have f40 := land40_lead (show 0xC0 ≤ b0 by omega) hb0
    have f20 := land20_two (show 0xC0 ≤ b0 by omega) hc3
    by_cases hcc : 0x80 ≤ b1 ∧ b1 < 0xC0
    · have fcc := landC0_cont hcc.1 hcc.2
      by_cases hv : 0x7F < (b0 &&& 0x1F) <<< 6 ||| (b1 &&& 0x3F)
      · simp [RefOk, getUtf8CodePoint, decodeRef, getc, cpExit, landO, cInt, pend, WFS, buffWF, allNone, hb0, hb1, hb2, hm1, f80, f40, f20, fcc, hv] <;> first | assumption | omega | rfl
      · simp [RefOk, getUtf8CodePoint, decodeRef, getc, cpExit, landO, cInt, pend, WFS, buffWF, allNone, hb0, hb1, hb2, hm1, f80, f40, f20, fcc, hv] <;> first | assumption | omega | rfl
    · have fcc : b1 &&& 0xC0 ≠ 0x80 := by
        rcases Nat.lt_or_ge b1 0x80 with h | h
        · exact landC0_low h
        · exact landC0_high (by omega) hb1
      simp [RefOk, getUtf8CodePoint, decodeRef, getc, cpExit, landO, cInt, pend, WFS, buffWF, allNone, hb0, hb1, hb2, hm1, f80, f40, f20, fcc] <;> first | assumption | omega | rfl
  by_cases hc4 : b0 < 0xF0
  · have f80 := land_ge128 (show 0x80 ≤ b0 by omega) hb0
    have f40 := land40_lead (show 0xC0 ≤ b0 by omega) hb0
    have f20 := land20_three (show 0xE0 ≤ b0 by omega) hb0
    have f10 := land10_three (show 0xE0 ≤ b0 by omega) hc4
    by_cases hcc : 0x80 ≤ b2 ∧ b2 < 0xC0
    · have fcc := landC0_cont hcc.1 hcc.2
      by_cases hv : 0x7FF < (b0 &&& 0x0F) <<< 12 ||| (b1 &&& 0x3F) <<< 6 ||| (b2 &&& 0x3F) ∧ ((b0 &&& 0x0F) <<< 12 ||| (b1 &&& 0x3F) <<< 6 ||| (b2 &&& 0x3F) < 0xD800 ∨ 0xDFFF < (b0 &&& 0x0F) <<< 12 ||| (b1 &&& 0x3F) <<< 6 ||| (b2 &&& 0x3F))
      · simp [RefOk, getUtf8CodePoint, decodeRef, getc, cpExit, landO, cInt, pend, WFS, buffWF, allNone, hb0, hb1, hb2, hm1, f80, f40, f20, f10, fcc, hv] <;> first | assumption | omega | rfl
      · simp [RefOk, getUtf8CodePoint, decodeRef, getc, cpExit, landO, cInt, pend, WFS, buffWF, allNone, hb0, hb1, hb2, hm1, f80, f40, f20, f10, fcc, hv] <;> first | assumption | omega | rfl
    · have fcc : b2 &&& 0xC0 ≠ 0x80 := by
        rcases Nat.lt_or_ge b2 0x80 with h | h
        · exact landC0_low h
        · exact landC0_high (by omega) hb2
      simp [RefOk, getUtf8CodePoint, decodeRef, getc, cpExit, landO, cInt, pend, WFS, buffWF, allNone, hb0, hb1, hb2, hm1, f80, f40, f20, f10, fcc] <;> first | assumption | omega | rfl
  by_cases hc5 : b0 < 0xF8
  · have f80 := land_ge128 (show 0x80 ≤ b0 by omega) hb0
    have f40 := land40_lead (show 0xC0 ≤ b0 by omega) hb0
    have f20 := land20_three (show 0xE0 ≤ b0 by omega) hb0
    have f10 := land10_four (show 0xF0 ≤ b0 by omega) hb0
    have f8 := land8_four (show 0xF0 ≤ b0 by omega) hc5
    simp [RefOk, getUtf8CodePoint, decodeRef, getc, cpExit, landO, cInt, pend, WFS, buffWF, allNone, hb0, hb1, hb2, hm1, f80, f40, f20, f10, f8] <;> first | assumption | omega | rfl
  · have f80 := land_ge128 (show 0x80 ≤ b0 by omega) hb0
    have f40 := land40_lead (show 0xC0 ≤ b0 by omega) hb0
    have f20 := land20_three (show 0xE0 ≤ b0 by omega) hb0
    have f10 := land10_four (show 0xF0 ≤ b0 by omega) hb0
    have f8 := land8_bad (show 0xF8 ≤ b0 by omega) hb0
    simp [RefOk, getUtf8CodePoint, decodeRef, getc, cpExit, landO, cInt, pend, WFS, buffWF, allNone, hb0, hb1, hb2, hm1, f80, f40, f20, f10, f8] <;> first | assumption | omega | rfl

set_option maxHeartbeats 4000000 in
theorem mRefS4 (b0 b1 b2 b3 : Nat) (inp : List Nat)
    (hb0 : b0 < 256) (hb1 : b1 < 256) (hb2 : b2 < 256) (hb3 : b3 < 256)
    (hinp : ∀ b ∈ inp, b < 256) : RefOk ⟨[some b0, some b1, some b2, some b3], inp⟩ := by
  have hT0 : ∀ b ∈ inp, b < 256 := hinp
  have hm1 : (-1 : Int) < (b0 : Int) := by omega
  by_cases hc1 : b0 < 0x80
  · simp [RefOk, getUtf8CodePoint, decodeRef, getc, cpExit, landO, cInt, pend, WFS, buffWF, allNone, hb0, hb1, hb2, hb3, hm1, land_lt128 hc1] <;> first | assumption | omega | rfl
  by_cases hc2 : b0 < 0xC0
  · simp [RefOk, getUtf8CodePoint, decodeRef, getc, cpExit, landO, cInt, pend, WFS, buffWF, allNone, hb0, hb1, hb2, hb3, hm1, land_ge128 (by omega) hb0, land40_cont (by omega) hc2] <;> first | assumption | omega | rfl
  by_cases hc3 : b0 < 0xE0
  · have f80 := land_ge128 (show 0x80 ≤ b0 by omega) hb0
    have f40 := land40_lead (show 0xC0 ≤ b0 by omega) hb0
    have f20 := land20_two (show 0xC0 ≤ b0 by omega) hc3
    by_cases hcc : 0x80 ≤ b1 ∧ b1 < 0xC0
    · have fcc := landC0_cont hcc.1 hcc.2
      by_cases hv : 0x7F < (b0 &&& 0x1F) <<< 6 ||| (b1 &&& 0x3F)
      · simp [RefOk, getUtf8CodePoint, decodeRef, getc, cpExit, landO, cInt, pend, WFS, buffWF, allNone, hb0, hb1, hb2, hb3, hm1, f80, f40, f20, fcc, hv] <;> first | assumption | omega | rfl
      · simp [RefOk, getUtf8CodePoint, decodeRef, getc, cpExit, landO, cInt, pend, WFS, buffWF, allNone, hb0, hb1, hb2, hb3, hm1, f80, f40, f20, fcc, hv] <;> first | assumption | omega | rfl
    · have fcc : b1 &&& 0xC0 ≠ 0x80 := by
        rcases Nat.lt_or_ge b1 0x80 with h | h
        · exact landC0_low h
        · exact landC0_high (by omega) hb1
      simp [RefOk, getUtf8CodePoint, decodeRef, getc, cpExit, landO, cInt, pend, WFS, buffWF, allNone, hb0, hb1, hb2, hb3, hm1, f80, f40, f20, fcc] <;> first | assumption | omega | rfl
  by_cases hc4 : b0 < 0xF0
  · have f80 := land_ge128 (show 0x80 ≤ b0 by omega) hb0
    have f40 := land40_lead (show 0xC0 ≤ b0 by omega) hb0
    have f20 := land20_three (show 0xE0 ≤ b0 by omega) hb0
    have f10 := land10_three (show 0xE0 ≤ b0 by omega) hc4
    by_cases hcc : 0x80 ≤ b2 ∧ b2 < 0xC0
    · have fcc := landC0_cont hcc.1 hcc.2
      by_cases hv : 0x7FF < (b0 &&& 0x0F) <<< 12 ||| (b1 &&& 0x3F) <<< 6 ||| (b2 &&& 0x3F) ∧ ((b0 &&& 0x0F) <<< 12 ||| (b1 &&& 0x3F) <<< 6 ||| (b2 &&& 0x3F) < 0xD800 ∨ 0xDFFF < (b0 &&& 0x0F) <<< 12 ||| (b1 &&& 0x3F) <<< 6 ||| (b2 &&& 0x3F))
      · simp [RefOk, getUtf8CodePoint, decodeRef, getc, cpExit, landO, cInt, pend, WFS, buffWF, allNone, hb0, hb1, hb2, hb3, hm1, f80, f40, f20, f10, fcc, hv] <;> first | assumption | omega | rfl
      · simp [RefOk, getUtf8CodePoint, decodeRef, getc, cpExit, landO, cInt, pend, WFS, buffWF, allNone, hb0, hb1, hb2, hb3, hm1, f80, f40, f20, f10, fcc, hv] <;> first | assumption | omega | rfl
    · have fcc : b2 &&& 0xC0 ≠ 0x80 := by
        rcases Nat.lt_or_ge b2 0x80 with h | h
        · exact landC0_low h
        · exact landC0_high (by omega) hb2
      simp [RefOk, getUtf8CodePoint, decodeRef, getc, cpExit, landO, cInt, pend, WFS, buffWF, allNone, hb0, hb1, hb2, hb3, hm1, f80, f40, f20, f10, fcc] <;> first | assumption | omega | rfl
  by_cases hc5 : b0 < 0xF8
  · have f80 := land_ge128 (show 0x80 ≤ b0 by omega) hb0
    have f40 := land40_lead (show 0xC0 ≤ b0 by omega) hb0
    have f20 := land20_three (show 0xE0 ≤ b0 by omega) hb0
    have f10 := land10_four (show 0xF0 ≤ b0 by omega) hb0
    have f8 := land8_four (show 0xF0 ≤ b0 by omega) hc5
    by_cases hcc : 0x80 ≤ b3 ∧ b3 < 0xC0
    · have fcc := landC0_cont hcc.1 hcc.2
      by_cases hv : 0xFFFF < (b0 &&& 0x07) <<< 18 ||| (b1 &&& 0x3F) <<< 12 ||| (b2 &&& 0x3F) <<< 6 ||| (b3 &&& 0x3F) ∧ (b0 &&& 0x07) <<< 18 ||| (b1 &&& 0x3F) <<< 12 ||| (b2 &&& 0x3F) <<< 6 ||| (b3 &&& 0x3F) < 0x110000
      · simp [RefOk, getUtf8CodePoint, decodeRef, getc, cpExit, landO, cInt, pend, WFS, buffWF, allNone, hb0, hb1, hb2, hb3, hm1, f80, f40, f20, f10, f8, fcc, hv] <;> first | assumption | omega | rfl
      · simp [RefOk, getUtf8CodePoint, decodeRef, getc, cpExit, landO, cInt, pend, WFS, buffWF, allNone, hb0, hb1, hb2, hb3, hm1, f80, f40, f20, f10, f8, fcc, hv] <;> first | assumption | omega | rfl
    · have fcc : b3 &&& 0xC0 ≠ 0x80 := by
        rcases Nat.lt_or_ge b3 0x80 with h | h
        · exact landC0_low h
        · exact landC0_high (by omega) hb3
      simp [RefOk, getUtf8CodePoint, decodeRef, getc, cpExit, landO, cInt, pend, WFS, buffWF, allNone, hb0, hb1, hb2, hb3, hm1, f80, f40, f20, f10, f8, fcc] <;> first | assumption | omega | rfl
  · have f80 := land_ge128 (show 0x80 ≤ b0 by omega) hb0
    have f40 := land40_lead (show 0xC0 ≤ b0 by omega) hb0
    have f20 := land20_three (show 0xE0 ≤ b0 by omega) hb0
    have f10 := land10_four (show 0xF0 ≤ b0 by omega) hb0
    have f8 := land8_bad (show 0xF8 ≤ b0 by omega) hb0
    simp [RefOk, getUtf8CodePoint, decodeRef, getc, cpExit, landO, cInt, pend, WFS, buffWF, allNone, hb0, hb1, hb2, hb3, hm1, f80, f40, f20, f10, f8] <;> first | assumption | omega | rfl


theorem mRefN (r : List (Option Nat)) (ha : allNone r) (hlen : r.length ≤ 3) :
    RefOk ⟨none :: r, []⟩ := by
  have hf : r.filterMap id = [] := filterMap_allNone ha
  have hw : buffWF r := buffWF_of_allNone ha
  simp [RefOk, getUtf8CodePoint, decodeRef, getc, cpExit, landO, cInt, pend, WFS, buffWF,
    allNone, hf, hw, List.take_length]
  omega

set_option maxHeartbeats 1000000 in
/-- Master characterization: on a well-formed reader state a
getUtf8CodePoint call behaves exactly as the reference reading of the
pending byte sequence. -/
theorem getUtf8CodePoint_ref {s : U8} (h : WFS s) : RefOk s := by
  obtain ⟨h4, hwf, heof, hinp⟩ := h
  rcases s with ⟨buff, inp⟩
  rcases buff with _ | ⟨x0, r0⟩
  · exact mRef0 inp hinp
  rcases x0 with _ | b0
  · have hin : inp = [] := heof (by simp)
    subst hin
    exact mRefN r0 hwf (by simpa using h4)
  have hb0 : b0 < 256 := hwf.1
  rcases r0 with _ | ⟨x1, r1⟩
  · exact mRefS1 b0 inp hb0 hinp
  rcases x1 with _ | b1
  · have hin : inp = [] := heof (by simp)
    subst hin
    have ha1 : allNone r1 := hwf.2
    rcases r1 with _ | ⟨x2, r2⟩
    · exact mRefS1n b0 hb0
    have hx2 : x2 = none := ha1 x2 (by simp)
    subst hx2
    rcases r2 with _ | ⟨x3, r3⟩
    · exact mRefS1nn b0 hb0
    have hx3 : x3 = none := ha1 x3 (by simp)
    subst hx3
    rcases r3 with _ | ⟨x4, r4⟩
    · exact mRefS1nnn b0 hb0
    · simp at h4
  have hb1 : b1 < 256 := hwf.2.1
  rcases r1 with _ | ⟨x2, r2⟩
  · exact mRefS2 b0 b1 inp hb0 hb1 hinp
  rcases x2 with _ | b2
  · have hin : inp = [] := heof (by simp)
    subst hin
    have ha2 : allNone r2 := hwf.2.2
    rcases r2 with _ | ⟨x3, r3⟩
    · exact mRefS2n b0 b1 hb0 hb1
    have hx3 : x3 = none := ha2 x3 (by simp)
    subst hx3
    rcases r3 with _ | ⟨x4, r4⟩
    · exact mRefS2nn b0 b1 hb0 hb1
    · simp at h4
  have hb2 : b2 < 256 := hwf.2.2.1
  rcases r2 with _ | ⟨x3, r3⟩
  · exact mRefS3 b0 b1 b2 inp hb0 hb1 hb2 hinp
  rcases x3 with _ | b3
  · have hin : inp = [] := heof (by simp)
    subst hin
    have ha3 : allNone r3 := hwf.2.2.2
    rcases r3 with _ | ⟨x4, r4⟩
    · exact mRefS3n b0 b1 b2 hb0 hb1 hb2
    · simp at h4
  have hb3 : b3 < 256 := hwf.2.2.2.1
  rcases r3 with _ | ⟨x4, r4⟩
  · exact mRefS4 b0 b1 b2 b3 inp hb0 hb1 hb2 hb3 hinp
  · simp at h4



theorem decodeRef_two (b0 b1 : Nat) (t : List Nat)
    (h0 : 0xC0 ≤ b0) (h0' : b0 < 0xE0) (h1 : 0x80 ≤ b1) (h1' : b1 < 0xC0) :
    decodeRef (b0 :: b1 :: t) =
      if 0x7F < (b0 - 0xC0) * 64 + (b1 - 0x80) then
        ((((b0 - 0xC0) * 64 + (b1 - 0x80) : Nat) : Int), [b0, b1], t)
      else ((b0 : Int), [], b1 :: t) := by
  have hb0 : b0 < 256 := by omega
  have hb1 : b1 < 256 := by omega
  simp [decodeRef, land_ge128 (by omega) hb0, land40_lead (by omega) hb0,
    land20_two (by omega) h0', landC0_cont h1 h1', val2_eq h0 h0' h1 h1',
    landFF_byte hb0, landFF_byte hb1]

theorem decodeRef_three (b0 b1 b2 : Nat) (t : List Nat)
    (h0 : 0xE0 ≤ b0) (h0' : b0 < 0xF0) (h1 : 0x80 ≤ b1) (h1' : b1 < 0xC0)
    (h2 : 0x80 ≤ b2) (h2' : b2 < 0xC0) :
    decodeRef (b0 :: b1 :: b2 :: t) =
      (if 0x7FF < ((b0 - 0xE0) * 64 + (b1 - 0x80)) * 64 + (b2 - 0x80) ∧
          (((b0 - 0xE0) * 64 + (b1 - 0x80)) * 64 + (b2 - 0x80) < 0xD800 ∨
            0xDFFF < ((b0 - 0xE0) * 64 + (b1 - 0x80)) * 64 + (b2 - 0x80)) then
        (((((b0 - 0xE0) * 64 + (b1 - 0x80)) * 64 + (b2 - 0x80) : Nat) : Int), [b0, b1, b2], t)
      else ((b0 : Int), [], b1 :: b2 :: t)) := by
  have hb0 : b0 < 256 := by omega
  have hb1 : b1 < 256 := by omega
  have hb2 : b2 < 256 := by omega
  have hv : (b0 &&& 0x0F) <<< 12 ||| (b1 &&& 0x3F) <<< 6 ||| (b2 &&& 0x3F) =
      ((b0 - 0xE0) * 64 + (b1 - 0x80)) * 64 + (b2 - 0x80) := by
    rw [val3_eq h0 h0' h2 h2', land3F_val h1 h1']
  simp [decodeRef, land_ge128 (by omega) hb0, land40_lead (by omega) hb0,
    land20_three (by omega) hb0, land10_three (by omega) h0', landC0_cont h2 h2', hv,
    landFF_byte hb0, landFF_byte hb1, landFF_byte hb2]

theorem decodeRef_four (b0 b1 b2 b3 : Nat) (t : List Nat)
    (h0 : 0xF0 ≤ b0) (h0' : b0 < 0xF8) (h1 : 0x80 ≤ b1) (h1' : b1 < 0xC0)
    (h2 : 0x80 ≤ b2) (h2' : b2 < 0xC0) (h3 : 0x80 ≤ b3) (h3' : b3 < 0xC0) :
    decodeRef (b0 :: b1 :: b2 :: b3 :: t) =
      (if 0xFFFF < (((b0 - 0xF0) * 64 + (b1 - 0x80)) * 64 + (b2 - 0x80)) * 64 + (b3 - 0x80) ∧
          (((b0 - 0xF0) * 64 + (b1 - 0x80)) * 64 + (b2 - 0x80)) * 64 + (b3 - 0x80) < 0x110000 then
        ((((((b0 - 0xF0) * 64 + (b1 - 0x80)) * 64 + (b2 - 0x80)) * 64 + (b3 - 0x80) : Nat) : Int),
          [b0, b1, b2, b3], t)
      else ((b0 : Int), [], b1 :: b2 :: b3 :: t)) := by
  have hb0 : b0 < 256 := by omega
  have hb1 : b1 < 256 := by omega
  have hb2 : b2 < 256 := by omega
  have hb3 : b3 < 256 := by omega
  have hv : (b0 &&& 0x07) <<< 18 ||| (b1 &&& 0x3F) <<< 12 ||| (b2 &&& 0x3F) <<< 6 ||| (b3 &&& 0x3F) =
      (((b0 - 0xF0) * 64 + (b1 - 0x80)) * 64 + (b2 - 0x80)) * 64 + (b3 - 0x80) := by
    rw [val4_eq h0 h0' h3 h3', land3F_val h1 h1', land3F_val h2 h2']
  simp [decodeRef, land_ge128 (by omega) hb0, land40_lead (by omega) hb0,
    land20_three (by omega) hb0, land10_four (by omega) hb0, land8_four (by omega) h0',
    landC0_cont h3 h3', hv, landFF_byte hb0, landFF_byte hb1, landFF_byte hb2, landFF_byte hb3]


theorem mem_cons_bound {x : Nat} {l : List Nat} (hx : x < 256) (hl : ∀ b ∈ l, b < 256) :
    ∀ b ∈ x :: l, b < 256 := by
  intro b hb
  rcases List.mem_cons.mp hb with h | h
  · omega
  · exact hl b h

theorem WFS_init (inp : List Nat) (h : ∀ b ∈ inp, b < 256) : WFS ⟨[], inp⟩ :=
  ⟨by simp, trivial, by simp, h⟩

/-- Claim C6: the UTF-8 decoder rejects as a decoding failure every
overlong two-, three- or four-byte encoding, every three-byte sequence
whose value is a UTF-16 surrogate, and every four-byte sequence whose
value exceeds 0x10FFFF (returning the lead byte with a recorded width of
zero); every other well-formed sequence with correct continuation bytes
decodes to its scalar value with the matching byte width recorded in the
cbuff result. -/
theorem c6_utf8_validation :
    (∀ b0 b1 : Nat, ∀ rest : List Nat, (∀ b ∈ rest, b < 256) →
      0xC0 ≤ b0 → b0 < 0xE0 → 0x80 ≤ b1 → b1 < 0xC0 →
      (getUtf8CodePoint ⟨[], b0 :: b1 :: rest⟩).rc =
          (if 0x7F < (b0 - 0xC0) * 64 + (b1 - 0x80) then
            (((b0 - 0xC0) * 64 + (b1 - 0x80) : Nat) : Int) else (b0 : Int)) ∧
        (getUtf8CodePoint ⟨[], b0 :: b1 :: rest⟩).bytes =
          (if 0x7F < (b0 - 0xC0) * 64 + (b1 - 0x80) then [b0, b1] else [])) ∧
    (∀ b0 b1 b2 : Nat, ∀ rest : List Nat, (∀ b ∈ rest, b < 256) →
      0xE0 ≤ b0 → b0 < 0xF0 → 0x80 ≤ b1 → b1 < 0xC0 → 0x80 ≤ b2 → b2 < 0xC0 →
      (getUtf8CodePoint ⟨[], b0 :: b1 :: b2 :: rest⟩).rc =
          (if 0x7FF < ((b0 - 0xE0) * 64 + (b1 - 0x80)) * 64 + (b2 - 0x80) ∧
              (((b0 - 0xE0) * 64 + (b1 - 0x80)) * 64 + (b2 - 0x80) < 0xD800 ∨
                0xDFFF < ((b0 - 0xE0) * 64 + (b1 - 0x80)) * 64 + (b2 - 0x80)) then
            ((((b0 - 0xE0) * 64 + (b1 - 0x80)) * 64 + (b2 - 0x80) : Nat) : Int) else (b0 : Int)) ∧
        (getUtf8CodePoint ⟨[], b0 :: b1 :: b2 :: rest⟩).bytes =
          (if 0x7FF < ((b0 - 0xE0) * 64 + (b1 - 0x80)) * 64 + (b2 - 0x80) ∧
              (((b0 - 0xE0) * 64 + (b1 - 0x80)) * 64 + (b2 - 0x80) < 0xD800 ∨
                0xDFFF < ((b0 - 0xE0) * 64 + (b1 - 0x80)) * 64 + (b2 - 0x80)) then
            [b0, b1, b2] else [])) ∧
    (∀ b0 b1 b2 b3 : Nat, ∀ rest : List Nat, (∀ b ∈ rest, b < 256) →
      0xF0 ≤ b0 → b0 < 0xF8 → 0x80 ≤ b1 → b1 < 0xC0 → 0x80 ≤ b2 → b2 < 0xC0 →
      0x80 ≤ b3 → b3 < 0xC0 →
      (getUtf8CodePoint ⟨[], b0 :: b1 :: b2 :: b3 :: rest⟩).rc =
          (if 0xFFFF < (((b0 - 0xF0) * 64 + (b1 - 0x80)) * 64 + (b2 - 0x80)) * 64 + (b3 - 0x80) ∧
              (((b0 - 0xF0) * 64 + (b1 - 0x80)) * 64 + (b2 - 0x80)) * 64 + (b3 - 0x80) < 0x110000 then
            (((((b0 - 0xF0) * 64 + (b1 - 0x80)) * 64 + (b2 - 0x80)) * 64 + (b3 - 0x80) : Nat) : Int)
          else (b0 : Int)) ∧
        (getUtf8CodePoint ⟨[], b0 :: b1 :: b2 :: b3 :: rest⟩).bytes =
          (if 0xFFFF < (((b0 - 0xF0) * 64 + (b1 - 0x80)) * 64 + (b2 - 0x80)) * 64 + (b3 - 0x80) ∧
              (((b0 - 0xF0) * 64 + (b1 - 0x80)) * 64 + (b2 - 0x80)) * 64 + (b3 - 0x80) < 0x110000 then
            [b0, b1, b2, b3] else [])) := by
  refine ⟨?_, ?_, ?_⟩
  · intro b0 b1 rest hrest h0 h0' h1 h1'
    have hin : ∀ b ∈ b0 :: b1 :: rest, b < 256 :=
      mem_cons_bound (by omega) (mem_cons_bound (by omega) hrest)
    obtain ⟨hrc, hbytes, _, _, _, _⟩ := getUtf8CodePoint_ref (WFS_init _ hin)
    rw [hrc, hbytes]
    have hp : pend ⟨[], b0 :: b1 :: rest⟩ = b0 :: b1 :: rest := by simp [pend]
    rw [hp, decodeRef_two b0 b1 rest h0 h0' h1 h1']
    split_ifs <;> simp
  · intro b0 b1 b2 rest hrest h0 h0' h1 h1' h2 h2'
    have hin : ∀ b ∈ b0 :: b1 :: b2 :: rest, b < 256 :=
      mem_cons_bound (by omega) (mem_cons_bound (by omega) (mem_cons_bound (by omega) hrest))
    obtain ⟨hrc, hbytes, _, _, _, _⟩ := getUtf8CodePoint_ref (WFS_init _ hin)
    rw [hrc, hbytes]
    have hp : pend ⟨[], b0 :: b1 :: b2 :: rest⟩ = b0 :: b1 :: b2 :: rest := by simp [pend]
    rw [hp, decodeRef_three b0 b1 b2 rest h0 h0' h1 h1' h2 h2']
    split_ifs <;> simp
  · intro b0 b1 b2 b3 rest hrest h0 h0' h1 h1' h2 h2' h3 h3'
    have hin : ∀ b ∈ b0 :: b1 :: b2 :: b3 :: rest, b < 256 :=
      mem_cons_bound (by omega) (mem_cons_bound (by omega)
        (mem_cons_bound (by omega) (mem_cons_bound (by omega) hrest)))
    obtain ⟨hrc, hbytes, _, _, _, _⟩ := getUtf8CodePoint_ref (WFS_init _ hin)
    rw [hrc, hbytes]
    have hp : pend ⟨[], b0 :: b1 :: b2 :: b3 :: rest⟩ = b0 :: b1 :: b2 :: b3 :: rest := by
      simp [pend]
    rw [hp, decodeRef_four b0 b1 b2 b3 rest h0 h0' h1 h1' h2 h2' h3 h3']
    split_ifs <;> simp

theorem c6_utf8_validation_witness :
    (getUtf8CodePoint ⟨[], [0xC3, 0xA9]⟩).rc = 233 ∧
      (getUtf8CodePoint ⟨[], [0xC3, 0xA9]⟩).bytes = [0xC3, 0xA9] ∧
      (getUtf8CodePoint ⟨[], [0xED, 0xA0, 0x80]⟩).rc = 0xED ∧
      (getUtf8CodePoint ⟨[], [0xED, 0xA0, 0x80]⟩).bytes = [] := by
  have h2 := (c6_utf8_validation.1) 0xC3 0xA9 [] (by simp) (by decide) (by decide)
    (by decide) (by decide)
  have h3 := (c6_utf8_validation.2.1) 0xED 0xA0 0x80 [] (by simp) (by decide) (by decide)
    (by decide) (by decide) (by decide) (by decide)
  refine ⟨?_, ?_, ?_, ?_⟩
  · rw [h2.1]; decide
  · rw [h2.2]; decide
  · rw [h3.1]; decide
  · rw [h3.2]; decide


/-- One returned unit of the decoder as bytes: the cbuff contents for a
decoded unit, the raw returned value for an error unit. -/
def unitBytes (u : Int × List Nat) : List Nat := if u.2.isEmpty then [u.1.toNat] else u.2

/-- Successive getUtf8CodePoint calls until EOF (bounded by fuel),
collecting the returned code and cbuff of each call. -/
def readUnits : Nat → U8 → List (Int × List Nat)
  | 0, _ => []
  | n + 1, s =>
    let r := getUtf8CodePoint s
    if r.rc = -1 then [] else (r.rc, r.bytes) :: readUnits n r.st

/-- Concatenation of the byte views of a unit list. -/
def unitsConcat (l : List (Int × List Nat)) : List Nat :=
  l.foldr (fun u acc => unitBytes u ++ acc) []

theorem buffWF_mem {l : List (Option Nat)} (h : buffWF l) {x : Nat} (hx : some x ∈ l) :
    x < 256 := by
  induction l with
  | nil => simp at hx
  | cons y t ih =>
    rcases y with _ | b
    · rcases List.mem_cons.mp hx with h1 | h1
      · simp at h1
      · have := h (some x) h1
        simp at this
    · rcases List.mem_cons.mp hx with h1 | h1
      · have hxb : x = b := by
          injection h1
        rw [hxb]
        exact h.1
      · exact ih h.2 h1

theorem pend_bytes {s : U8} (h : WFS s) : ∀ x ∈ pend s, x < 256 := by
  obtain ⟨_, hwf, _, hinp⟩ := h
  intro x hx
  rcases List.mem_append.mp hx with h1 | h1
  · obtain ⟨a, ha, hax⟩ := List.mem_filterMap.mp h1
    simp only [id] at hax
    subst hax
    exact buffWF_mem hwf ha
  · exact hinp x h1

theorem decodeRef_cons_spec (b : Nat) (t : List Nat) (hb : b < 256) (ht : ∀ x ∈ t, x < 256) :
    0 ≤ (decodeRef (b :: t)).1 ∧
      unitBytes ((decodeRef (b :: t)).1, (decodeRef (b :: t)).2.1) ++ (decodeRef (b :: t)).2.2 =
        b :: t ∧
      (decodeRef (b :: t)).2.2.length < (b :: t).length := by
  by_cases hc1 : b < 0x80
  · simp [decodeRef, unitBytes, land_lt128 hc1, landFF_byte hb]
  by_cases hc2 : b < 0xC0
  · simp [decodeRef, unitBytes, land_ge128 (by omega) hb, land40_cont (by omega) hc2]
  by_cases hc3 : b < 0xE0
  · have f80 := land_ge128 (show 0x80 ≤ b by omega) hb
    have f40 := land40_lead (show 0xC0 ≤ b by omega) hb
    have f20 := land20_two (show 0xC0 ≤ b by omega) hc3
    rcases t with _ | ⟨b1, t1⟩
    · simp [decodeRef, unitBytes, f80, f40, f20]
    have hb1 : b1 < 256 := ht b1 (by simp)
    simp only [decodeRef, f80, f40, f20, if_true, if_false, ne_eq, not_false_eq_true,
      not_true_eq_false]
    split_ifs <;> simp_all [unitBytes, landFF_byte hb, landFF_byte hb1] <;> omega
  by_cases hc4 : b < 0xF0
  · have f80 := land_ge128 (show 0x80 ≤ b by omega) hb
    have f40 := land40_lead (show 0xC0 ≤ b by omega) hb
    have f20 := land20_three (show 0xE0 ≤ b by omega) hb
    have f10 := land10_three (show 0xE0 ≤ b by omega) hc4
    rcases t with _ | ⟨b1, t1⟩
    · simp [decodeRef, unitBytes, f80, f40, f20, f10]
    have hb1 : b1 < 256 := ht b1 (by simp)
    rcases t1 with _ | ⟨b2, t2⟩
    · simp [decodeRef, unitBytes, f80, f40, f20, f10]
    have hb2 : b2 < 256 := ht b2 (by simp)
    simp only [decodeRef, f80, f40, f20, f10, if_true, if_false, ne_eq, not_false_eq_true,
      not_true_eq_false]
    split_ifs <;> simp_all [unitBytes, landFF_byte hb, landFF_byte hb1, landFF_byte hb2] <;> omega
  by_cases hc5 : b < 0xF8
  · have f80 := land_ge128 (show 0x80 ≤ b by omega) hb
    have f40 := land40_lead (show 0xC0 ≤ b by omega) hb
    have f20 := land20_three (show 0xE0 ≤ b by omega) hb
    have f10 := land10_four (show 0xF0 ≤ b by omega) hb
    have f8 := land8_four (show 0xF0 ≤ b by omega) hc5
    rcases t with _ | ⟨b1, t1⟩
    · simp [decodeRef, unitBytes, f80, f40, f20, f10, f8]
    have hb1 : b1 < 256 := ht b1 (by simp)
    rcases t1 with _ | ⟨b2, t2⟩
    · simp [decodeRef, unitBytes, f80, f40, f20, f10, f8]
    have hb2 : b2 < 256 := ht b2 (by simp)
    rcases t2 with _ | ⟨b3, t3⟩
    · simp [decodeRef, unitBytes, f80, f40, f20, f10, f8]
    have hb3 : b3 < 256 := ht b3 (by simp)
    simp only [decodeRef, f80, f40, f20, f10, f8, if_true, if_false, ne_eq, not_false_eq_true,
      not_true_eq_false]
    split_ifs <;>
      simp_all [unitBytes, landFF_byte hb, landFF_byte hb1, landFF_byte hb2, landFF_byte hb3] <;>
      omega
  · have f80 := land_ge128 (show 0x80 ≤ b by omega) hb
    have f40 := land40_lead (show 0xC0 ≤ b by omega) hb
    have f20 := land20_three (show 0xE0 ≤ b by omega) hb
    have f10 := land10_four (show 0xF0 ≤ b by omega) hb
    have f8 := land8_bad (show 0xF8 ≤ b by omega) hb
    simp [decodeRef, unitBytes, f80, f40, f20, f10, f8]

theorem readUnits_concat : ∀ n : Nat, ∀ s : U8, WFS s → (pend s).length < n →
    unitsConcat (readUnits n s) = pend s := by
  intro n
  induction n with
  | zero => intro s _ h; omega
  | succ n ih =>
    intro s hWF hlen
    obtain ⟨hrc, hbytes, hpend, hWF2, _, _⟩ := getUtf8CodePoint_ref hWF
    rcases hp : pend s with _ | ⟨b, t⟩
    · rw [hp] at hrc
      simp [readUnits, unitsConcat, hrc, decodeRef]
    have hb : b < 256 := pend_bytes hWF b (by rw [hp]; simp)
    have ht : ∀ x ∈ t, x < 256 := fun x hx => pend_bytes hWF x (by rw [hp]; simp [hx])
    obtain ⟨hpos, hcat, hshort⟩ := decodeRef_cons_spec b t hb ht
    rw [hp] at hrc hbytes hpend
    have hne : ¬ (getUtf8CodePoint s).rc = -1 := by rw [hrc]; omega
    have hstep : readUnits (n + 1) s =
        ((getUtf8CodePoint s).rc, (getUtf8CodePoint s).bytes) ::
          readUnits n (getUtf8CodePoint s).st := by
      simp [readUnits, hne]
    rw [hstep]
    have hih := ih (getUtf8CodePoint s).st hWF2 (by
      rw [hpend]
      have hs2 : (decodeRef (b :: t)).2.2.length < t.length + 1 := by simpa using hshort
      rw [hp] at hlen
      simp at hlen
      omega)
    simp only [unitsConcat, List.foldr_cons] at hih ⊢
    rw [hih, hpend, hrc, hbytes]
    exact hcat

/-- Claim C2: in UTF-8 mode no byte vanishes and none is duplicated: the
concatenation of the units returned by successive getUtf8CodePoint calls
reproduces the input byte stream exactly, also across validation
failures, whose lead byte comes back as a raw one-byte unit while the
other bytes already read are replayed from the lookahead queue. -/
theorem c2_decode_no_loss (inp : List Nat) (h : ∀ b ∈ inp, b < 256) :
    unitsConcat (readUnits (inp.length + 1) ⟨[], inp⟩) = inp := by
  have hres := readUnits_concat (inp.length + 1) ⟨[], inp⟩ (WFS_init inp h) (by simp [pend])
  simpa [pend] using hres

theorem c2_decode_no_loss_witness :
    unitsConcat (readUnits 4 ⟨[], [0xE0, 0x41, 0x42]⟩) = [0xE0, 0x41, 0x42] :=
  c2_decode_no_loss [0xE0, 0x41, 0x42] (by decide)


/-- The three classifier policies selectable through options: iswprint,
iswprintExt and iswNotBlank (printfq.c line 147 and lines 239-248). -/
inductive PolicyK where
  | strict : PolicyK
  | ext : PolicyK
  | nonblank : PolicyK
deriving Repr, DecidableEq

/-- Settings accumulated by option processing. -/
structure POpts where
  policy : PolicyK
  disableCQuoting : Bool
  useUnicodeEscapes : Bool
  flushArguments : Bool
  ignoreNullInput : Bool
  nullTerminatedOutput : Bool
deriving Repr, DecidableEq

/-- Settings before any option is processed. -/
def popts0 : POpts := ⟨PolicyK.strict, false, false, false, false, false⟩

/-- Effect of one recognized option character on the settings (printfq.c
lines 239-261): e selects the nonblank classifier unconditionally, f sets
flushing and null-terminated output, i selects the extended-invisible
classifier only when the nonblank classifier is not already selected, and
m, n, u, z set their flags. -/
def applyOpt (o : POpts) (ch : Nat) : POpts :=
  if ch = 101 then
    ⟨PolicyK.nonblank, o.disableCQuoting, o.useUnicodeEscapes, o.flushArguments,
      o.ignoreNullInput, o.nullTerminatedOutput⟩
  else if ch = 102 then
    ⟨o.policy, o.disableCQuoting, o.useUnicodeEscapes, true, o.ignoreNullInput, true⟩
  else if ch = 105 then
    if o.policy ≠ PolicyK.nonblank then
      ⟨PolicyK.ext, o.disableCQuoting, o.useUnicodeEscapes, o.flushArguments,
        o.ignoreNullInput, o.nullTerminatedOutput⟩
    else o
  else if ch = 109 then
    ⟨o.policy, true, o.useUnicodeEscapes, o.flushArguments, o.ignoreNullInput,
      o.nullTerminatedOutput⟩
  else if ch = 110 then
    ⟨o.policy, o.disableCQuoting, o.useUnicodeEscapes, o.flushArguments, true,
      o.nullTerminatedOutput⟩
  else if ch = 117 then
    ⟨o.policy, o.disableCQuoting, true, o.flushArguments, o.ignoreNullInput,
      o.nullTerminatedOutput⟩
  else if ch = 122 then
    ⟨o.policy, o.disableCQuoting, o.useUnicodeEscapes, o.flushArguments, o.ignoreNullInput,
      true⟩
  else o

/-- Option processing over the sequence of recognized option characters
in command-line order. -/
def parseOpts (l : List Nat) : POpts := l.foldl applyOpt popts0

/-- Claim C8 counterexample: with escape-invisible parsed first and
escape-more parsed second, the run uses the nonblank policy of
escape-more, not the extended-invisible policy that the first-parsed
option selects on its own, so the first-parsed option does not win. -/
theorem c8_counterexample :
    (parseOpts [105, 101]).policy = PolicyK.nonblank ∧
      (parseOpts [105]).policy = PolicyK.ext ∧ PolicyK.nonblank ≠ PolicyK.ext := by decide

theorem policy_nonblank_stays (l : List Nat) :
    ∀ o : POpts, o.policy = PolicyK.nonblank → (l.foldl applyOpt o).policy = PolicyK.nonblank := by
  induction l with
  | nil => intro o h; exact h
  | cons ch rest ih =>
    intro o h
    refine ih (applyOpt o ch) ?_
    unfold applyOpt
    split_ifs <;> simp_all

theorem policy_ext_stays (l : List Nat) :
    ∀ o : POpts, 101 ∉ l → o.policy = PolicyK.ext → (l.foldl applyOpt o).policy = PolicyK.ext := by
  induction l with
  | nil => intro o _ h; exact h
  | cons ch rest ih =>
    intro o hne h
    have hch : ch ≠ 101 := fun hc => hne (by simp [hc])
    refine ih (applyOpt o ch) (fun hc => hne (by simp [hc])) ?_
    unfold applyOpt
    split_ifs <;> simp_all

/-- Claim C8 (amended): when both classification options are given,
escape-more always wins regardless of order: a command line containing
escape-more ends with the nonblank policy, once the nonblank policy is
selected no later option replaces it, and escape-invisible yields the
extended-invisible policy exactly when escape-more is absent. -/
theorem c8_escape_more_wins :
    (∀ l1 l2 : List Nat, (parseOpts (l1 ++ 101 :: l2)).policy = PolicyK.nonblank) ∧
      (∀ l : List Nat, 101 ∉ l → 105 ∈ l → (parseOpts l).policy = PolicyK.ext) ∧
      (∀ (o : POpts) (ch : Nat), o.policy = PolicyK.nonblank →
        (applyOpt o ch).policy = PolicyK.nonblank) := by
  refine ⟨?_, ?_, ?_⟩
  · intro l1 l2
    unfold parseOpts
    rw [List.foldl_append]
    refine policy_nonblank_stays l2 _ ?_
    simp [applyOpt]
  · have key : ∀ l : List Nat, ∀ o : POpts, 101 ∉ l → o.policy ≠ PolicyK.nonblank →
        (l.foldl applyOpt o).policy ≠ PolicyK.nonblank ∧
          (105 ∈ l → (l.foldl applyOpt o).policy = PolicyK.ext) := by
      intro l
      induction l with
      | nil =>
        intro o _ h
        exact ⟨h, by intro h2; simp at h2⟩
      | cons ch rest ih =>
        intro o hne hp
        have hch : ch ≠ 101 := fun hc => hne (by simp [hc])
        have hne2 : 101 ∉ rest := fun hc => hne (by simp [hc])
        by_cases hi : ch = 105
        · subst hi
          have hstep : (applyOpt o 105).policy = PolicyK.ext := by simp [applyOpt, hp]
          refine ⟨?_, fun _ => ?_⟩
          · have := policy_ext_stays rest (applyOpt o 105) hne2 hstep
            simp only [List.foldl_cons]
            rw [this]
            simp
          · simp only [List.foldl_cons]
            exact policy_ext_stays rest (applyOpt o 105) hne2 hstep
        · have hkeep : (applyOpt o ch).policy = o.policy := by
            unfold applyOpt
            split_ifs <;> simp_all
          have hrec := ih (applyOpt o ch) hne2 (by rw [hkeep]; exact hp)
          refine ⟨hrec.1, fun hmem => ?_⟩
          rcases List.mem_cons.mp hmem with h1 | h1
          · exact absurd h1.symm (by simpa using hi)
          · exact hrec.2 h1
    intro l hne hmem
    exact (key l popts0 hne (by simp [popts0])).2 hmem
  · intro o ch h
    unfold applyOpt
    split_ifs <;> simp_all


theorem c8_escape_more_wins_witness :
    (parseOpts ([105] ++ 101 :: [])).policy = PolicyK.nonblank ∧
      (parseOpts [122, 105]).policy = PolicyK.ext :=
  ⟨c8_escape_more_wins.1 [105] [], c8_escape_more_wins.2.1 [122, 105] (by decide) (by decide)⟩

/-- Model of the platform isprint in the C locale used for concrete
runs: the ASCII graphic characters and the space. -/
def printableAscii (c : Int) : Bool := 32 ≤ c && c ≤ 126

/-- Bytes the parent writes into the coprocess pipe when arguments are
given: every argument followed by a null byte (printfq.c lines 295-299
and 302-314). -/
def pipeBytes (args : List (List Nat)) : List Nat := args.foldr (fun a acc => a ++ 0 :: acc) []

/-- Claim C7 counterexample: with ignore-null-input active no null byte
separates the two records of the stream a NUL b: the records collapse
with no inter-record separator at all, while the claim asserts a null
separator in this mode. -/
theorem c7_counterexample :
    runUtf8 printableAscii ⟨false, false, true, false⟩ [97, 0, 98] = [97, 98] ∧
      (0 : Nat) ∉ runUtf8 printableAscii ⟨false, false, true, false⟩ [97, 0, 98] := by decide

/-- Claim C7 (amended): the inter-record separator is a null byte exactly
when null-terminated output is selected (directly or forced by
flush-arguments at option parsing) and a single space otherwise; when
ignore-null-input is active no separator is emitted at all because the
records collapse into one; the final record carries a trailing null
terminator exactly when null-terminated output is selected and the input
itself was null terminated or ignore-null-input is active; and input from
command-line arguments reaches the engine as null-terminated records in
the pipe, so it is space separated by default and null terminated only
under null-terminated output. -/
theorem c7_delimiters :
    (∀ u fl n z : Bool,
      runUtf8 printableAscii ⟨u, fl, n, z⟩ [97, 0, 98] =
        [97] ++ (if n then [] else if z then [0] else [32]) ++ [98] ++
          (if n ∧ z then [0] else [])) ∧
    (∀ u fl n z : Bool,
      runUtf8 printableAscii ⟨u, fl, n, z⟩ [97, 0, 98, 0] =
        [97] ++ (if n then [] else if z then [0] else [32]) ++ [98] ++
          (if z then [0] else [])) ∧
    (∀ u fl z : Bool,
      runUtf8 printableAscii ⟨u, fl, false, z⟩ (pipeBytes [[97], [98]]) =
        [97] ++ (if z then [0] else [32]) ++ [98] ++ (if z then [0] else [])) ∧
    (∀ o : POpts, (applyOpt o 102).nullTerminatedOutput = true ∧
      (applyOpt o 102).flushArguments = true) := by
  refine ⟨by decide, by decide, by decide, fun o => by simp [applyOpt]⟩

/-- Model of the parent writing its arguments into the coprocess pipe
through stdio (printfq.c lines 295-299): the fputs of each argument is
unchecked, the null putc after each argument is checked, and the first
failing putc aborts with EX_IOERR before any further argument is
written.  The predicate gives the success of the k-th null putc. -/
def writeArgsPipe : List (List Nat) → (Nat → Bool) → Nat → List Nat × Option Nat
  | [], _, _ => ([], none)
  | a :: rest, ok, k =>
    if ok k then
      let r := writeArgsPipe rest ok (k + 1)
      (a ++ 0 :: r.1, r.2)
    else (a, some 74)

/-- Model of the single-argument write path (printfq.c lines 302-314): a
failing write returns EX_IOERR. -/
def writeSingleArg (arg : List Nat) (writeOk : Bool) : List Nat × Option Nat :=
  if writeOk then (arg ++ [0], none) else ([], some 74)

/-- Claim C9 counterexample: a write failure on the checked stdout
delimiter putc stops the stream loop, but the process then returns exit
status 0 (printfq.c line 872), not the I/O-error code EX_IOERR = 74 that
the claim asserts. -/
theorem c9_counterexample :
    runUtf8F printableAscii ⟨false, false, false, false⟩ false true [97, 0, 98] =
        ([97], 0) ∧ (0 : Int) ≠ 74 := by decide

/-- Claim C9 (amended): a detected write failure on the coprocess pipe is
fatal with exit code EX_IOERR = 74 and no further argument is written; a
detected write failure on stdout (checked only at the inter-record
delimiter writes) stops the stream loop immediately, so no further input
is processed and the partial output already produced is kept, but the
process exits with status 0 rather than an I/O-error code; unchecked
buffered writes do not change control flow. -/
theorem c9_write_failures :
    (∀ (a : List Nat) (rest : List (List Nat)) (k : Nat),
      writeArgsPipe (a :: rest) (fun _ => false) k = (a, some 74)) ∧
    (∀ arg : List Nat, writeSingleArg arg false = ([], some 74)) ∧
    (∀ u fl z : Bool,
      runUtf8F printableAscii ⟨u, fl, false, z⟩ false true [97, 0, 98] = ([97], 0)) := by
  refine ⟨?_, ?_, by decide⟩
  · intro a rest k
    simp [writeArgsPipe]
  · intro arg
    simp [writeSingleArg]


theorem allNone_of_filterMap_nil {l : List (Option Nat)} (h : l.filterMap id = []) :
    allNone l := by
  induction l with
  | nil => intro x hx; simp at hx
  | cons y t ih =>
    rcases y with _ | b
    · intro x hx
      rcases List.mem_cons.mp hx with h1 | h1
      · exact h1
      · have ht : t.filterMap id = [] := by simpa using h
        exact ih ht x h1
    · simp at h

theorem buffWF_append_somes {A : List Nat} {l : List (Option Nat)} (hA : ∀ b ∈ A, b < 256)
    (hl : buffWF l) : buffWF (A.map some ++ l) := by
  induction A with
  | nil => simpa
  | cons a t ih =>
    exact ⟨hA a (by simp), ih fun b hb => hA b (by simp [hb])⟩

/-- Pushing the unit just returned by getUtf8CodePoint back with
ungetUtf8CodePoint restores the pending byte sequence exactly and keeps
the state well formed: the lookahead used by the escape selector does not
consume input. -/
theorem peek_restore {s : U8} (h : WFS s) :
    pend (ungetUtf8CodePoint (getUtf8CodePoint s).rc (getUtf8CodePoint s).bytes
        (getUtf8CodePoint s).st) = pend s ∧
      WFS (ungetUtf8CodePoint (getUtf8CodePoint s).rc (getUtf8CodePoint s).bytes
        (getUtf8CodePoint s).st) := by
  obtain ⟨hrc, hbytes, hpend, hWF2, hb4, hb3⟩ := getUtf8CodePoint_ref h
  obtain ⟨hl2, hwf2, heof2, hinp2⟩ := hWF2
  rcases hp : pend s with _ | ⟨b, t⟩
  · rw [hp] at hrc hbytes hpend
    simp only [decodeRef] at hrc hbytes hpend
    have hpe : (getUtf8CodePoint s).st.buff.filterMap id = [] ∧
        (getUtf8CodePoint s).st.inp = [] := by
      have hs := hpend
      simp only [pend] at hs
      exact List.append_eq_nil.mp hs
    have han : allNone (getUtf8CodePoint s).st.buff := allNone_of_filterMap_nil hpe.1
    rw [hrc, hbytes]
    by_cases h0 : (getUtf8CodePoint s).st.buff.length = 0
    · have hnil : (getUtf8CodePoint s).st.buff = [] := List.length_eq_zero.mp h0
      have hres : ungetUtf8CodePoint (-1) [] (getUtf8CodePoint s).st =
          ⟨[none], (getUtf8CodePoint s).st.inp⟩ := by
        unfold ungetUtf8CodePoint
        simp [hnil]
      rw [hres]
      refine ⟨by simp [pend, hpe.2], by simp [WFS, buffWF, allNone, hpe.2]⟩
    · have hlt : (getUtf8CodePoint s).st.buff.length < 4 := by omega
      have hres : ungetUtf8CodePoint (-1) [] (getUtf8CodePoint s).st =
          ⟨none :: (getUtf8CodePoint s).st.buff, (getUtf8CodePoint s).st.inp⟩ := by
        unfold ungetUtf8CodePoint
        simp [h0, hlt]
      rw [hres]
      constructor
      · simp [pend, hpe.1, hpe.2]
      · refine ⟨by simp; omega, ?_, by simp [hpe.2], by simp [hpe.2]⟩
        have hbw : buffWF (none :: (getUtf8CodePoint s).st.buff) := han
        exact hbw
  · have hb : b < 256 := pend_bytes h b (by rw [hp]; simp)
    have ht : ∀ x ∈ t, x < 256 := fun x hx => pend_bytes h x (by rw [hp]; simp [hx])
    obtain ⟨hpos, hcat, _⟩ := decodeRef_cons_spec b t hb ht
    rw [hp] at hrc hbytes hpend
    by_cases hby : (decodeRef (b :: t)).2.1 = []
    · have hhead : (decodeRef (b :: t)).1.toNat = b ∧ (decodeRef (b :: t)).2.2 = t := by
        rw [hby] at hcat
        simp [unitBytes] at hcat
        exact ⟨hcat.1, hcat.2⟩
      have hrcb : (getUtf8CodePoint s).rc = (b : Int) := by
        rw [hrc]
        omega
      rw [hrcb, hbytes, hby]
      by_cases h0 : (getUtf8CodePoint s).st.buff.length = 0
      · have hnil : (getUtf8CodePoint s).st.buff = [] := List.length_eq_zero.mp h0
        have hip : (getUtf8CodePoint s).st.inp = t := by
          have hs := hpend
          simp only [pend, hnil, List.filterMap_nil, List.nil_append] at hs
          rw [hs, hhead.2]
        have hres : ungetUtf8CodePoint (b : Int) [] (getUtf8CodePoint s).st =
            ⟨[some b], (getUtf8CodePoint s).st.inp⟩ := by
          unfold ungetUtf8CodePoint
          simp [hnil, show ¬ ((b : Int) < 0) by omega]
        rw [hres, hip]
        refine ⟨by simp [pend], ?_⟩
        refine ⟨by simp, ?_, by simp, fun x hx => ht x hx⟩
        exact ⟨hb, trivial⟩
      · have hlt : (getUtf8CodePoint s).st.buff.length < 4 := by omega
        have hres : ungetUtf8CodePoint (b : Int) [] (getUtf8CodePoint s).st =
            ⟨some b :: (getUtf8CodePoint s).st.buff, (getUtf8CodePoint s).st.inp⟩ := by
          unfold ungetUtf8CodePoint
          simp [h0, hlt, show ¬ ((b : Int) < 0) by omega]
        rw [hres]
        constructor
        · have hpt : pend (getUtf8CodePoint s).st = t := by rw [hpend, hhead.2]
          simp only [pend] at hpt ⊢
          simp [hpt]
        · refine ⟨by simp; omega, ⟨hb, hwf2⟩, ?_, hinp2⟩
          intro hn
          refine heof2 ?_
          simpa using hn
    · have hres : ungetUtf8CodePoint (getUtf8CodePoint s).rc (getUtf8CodePoint s).bytes
          (getUtf8CodePoint s).st =
          ⟨(decodeRef (b :: t)).2.1.map some ++ (getUtf8CodePoint s).st.buff,
            (getUtf8CodePoint s).st.inp⟩ := by
        unfold ungetUtf8CodePoint
        rw [hbytes]
        have hlen0 : ¬ (decodeRef (b :: t)).2.1.length = 0 :=
          fun hl => hby (List.length_eq_zero.mp hl)
        simp [hlen0]
      have hcat2 : (decodeRef (b :: t)).2.1 ++ (decodeRef (b :: t)).2.2 = b :: t := by
        simpa [unitBytes, List.isEmpty_iff, hby] using hcat
      rw [hres]
      constructor
      · simp only [pend, List.filterMap_append]
        have hfm : ((decodeRef (b :: t)).2.1.map some).filterMap id =
            (decodeRef (b :: t)).2.1 := by simp
        rw [hfm, List.append_assoc]
        have hpt : (getUtf8CodePoint s).st.buff.filterMap id ++ (getUtf8CodePoint s).st.inp =
            (decodeRef (b :: t)).2.2 := hpend
        rw [hpt]
        exact hcat2
      · have hbmem : ∀ x ∈ (decodeRef (b :: t)).2.1, x < 256 := by
          intro x hx
          have hxm : x ∈ b :: t := by
            rw [← hcat2]
            exact List.mem_append.mpr (Or.inl hx)
          rcases List.mem_cons.mp hxm with h1 | h1
          · omega
          · exact ht x h1
        refine ⟨?_, buffWF_append_somes hbmem hwf2, ?_, hinp2⟩
        · simp only [List.length_append, List.length_map]
          rw [hbytes] at hb4
          omega
        · intro hn
          refine heof2 ?_
          rcases List.mem_append.mp hn with h1 | h1
          · exfalso
            rcases List.mem_map.mp h1 with ⟨y, _, hy⟩
            simp at hy
          · exact h1


theorem octMin_short {n : Nat} (h : n < 64) : (octMin n).length ≤ 2 := by
  unfold octMin
  split_ifs with h1
  · simp
  · simp

/-- Claim C3: inside dollar quoting, a unit representable as a single
byte that reaches the octal escape is padded to exactly three digits
whenever the immediately following input code point is an octal digit
(or the value itself needs three digits), a one or two digit escape is
emitted only when the following code point is not an octal digit, and
the peeked code point is pushed back unconsumed, leaving the pending
input and its well-formedness untouched. -/
theorem c3_octal_padding (u : Bool) (c : Int) (bytes : List Nat) (s : U8) (h : WFS s)
    (hc2 : c < 128 ∨ bytes.length = 0)
    (hnoAnsi : ¬ (c < ansiEscapesLimit u ∧ ansiEscapes.getD c.toNat 0 ≠ 0)) :
    (63 < c → escEmit u c bytes false s = ⟨92 :: oct3 c.toNat, s, false⟩) ∧
      (c ≤ 63 →
        (escEmit u c bytes false s).out =
            (if 48 ≤ (getUtf8CodePoint s).rc ∧ (getUtf8CodePoint s).rc ≤ 55 then
              92 :: oct3 c.toNat
            else 92 :: octMin c.toNat) ∧
          (escEmit u c bytes false s).brk = false ∧
          pend (escEmit u c bytes false s).st = pend s ∧
          WFS (escEmit u c bytes false s).st ∧
          (oct3 c.toNat).length = 3 ∧ (octMin c.toNat).length ≤ 2) := by
  constructor
  · intro h63
    unfold escEmit
    rw [if_neg (by decide), if_pos hc2, if_neg hnoAnsi, if_pos h63]
  · intro h63
    have hpr := peek_restore h
    have hn63 : ¬ (63 : Int) < c := by omega
    have hlt : c.toNat < 64 := by omega
    have hres : escEmit u c bytes false s =
        (if 48 ≤ (getUtf8CodePoint s).rc ∧ (getUtf8CodePoint s).rc ≤ 55 then
          (⟨92 :: oct3 c.toNat,
            ungetUtf8CodePoint (getUtf8CodePoint s).rc (getUtf8CodePoint s).bytes
              (getUtf8CodePoint s).st, false⟩ : EmitRes)
        else
          ⟨92 :: octMin c.toNat,
            ungetUtf8CodePoint (getUtf8CodePoint s).rc (getUtf8CodePoint s).bytes
              (getUtf8CodePoint s).st, false⟩) := by
      unfold escEmit
      rw [if_neg (by decide), if_pos hc2, if_neg hnoAnsi, if_neg hn63]
    rw [hres]
    split_ifs with hoc
    · exact ⟨rfl, rfl, hpr.1, hpr.2, by simp [oct3], octMin_short hlt⟩
    · exact ⟨rfl, rfl, hpr.1, hpr.2, by simp [oct3], octMin_short hlt⟩

theorem c3_octal_padding_witness :
    (escEmit false 1 [1] false ⟨[], [50]⟩).out = [92, 48, 48, 49] ∧
      (escEmit false 1 [1] false ⟨[], [56]⟩).out = [92, 49] := by
  have h1 := (c3_octal_padding false 1 [1] ⟨[], [50]⟩ (WFS_init [50] (by decide))
    (Or.inl (by decide)) (by decide)).2 (by decide)
  have h2 := (c3_octal_padding false 1 [1] ⟨[], [56]⟩ (WFS_init [56] (by decide))
    (Or.inl (by decide)) (by decide)).2 (by decide)
  constructor
  · rw [h1.1]; decide
  · rw [h2.1]; decide

/-- Claim C10: an undecodable byte in the range 128-255 (a raw unit with
zero recorded width) that reaches the dollar-quote emitter is always
written as the three-digit octal escape of its byte value with no
lookahead and no state change, independently of the unicode-escapes flag,
and the record loop routes such a unit into the dollar-quote path with
the printability flag already false, short-circuiting without consulting
the classifier. -/
theorem c10_raw_byte_octal (c : Int) (hc1 : 128 ≤ c) (hc2 : c ≤ 255) :
    (∀ (u : Bool) (s : U8), escEmit u c [] false s = ⟨92 :: oct3 c.toNat, s, false⟩) ∧
      (∀ (f : Int → Bool) (u : Bool) (n : Nat) (s : U8),
        recLoop f u (n + 1) RMode.norm c [] s = recLoop f u n (RMode.esc false) c [] s) := by
  constructor
  · intro u s
    have hna : ¬ (c < ansiEscapesLimit u ∧ ansiEscapes.getD c.toNat 0 ≠ 0) := by
      intro hx
      have h1 := hx.1
      unfold ansiEscapesLimit at h1
      split at h1 <;> omega
    unfold escEmit
    rw [if_neg (by decide),
      if_pos (show c < 128 ∨ ([] : List Nat).length = 0 from Or.inr rfl), if_neg hna,
      if_pos (show (63 : Int) < c by omega)]
  · intro f u n s
    have h39 : ¬ c = 39 := by omega
    simp [recLoop, h39]

theorem c10_raw_byte_octal_witness :
    escEmit true 233 [] false ⟨[], []⟩ = ⟨[92, 51, 53, 49], ⟨[], []⟩, false⟩ := by
  have h := (c10_raw_byte_octal 233 (by decide) (by decide)).1 true ⟨[], []⟩
  rw [h]
  decide




/-- One byte read from the stream in the narrow-char path (printfq.c
line 334): the C int returned by getc, with -1 for EOF, and the rest of
the stream. -/
def getcA : List Nat → Int × List Nat
  | [] => (-1, [])
  | b :: t => ((b : Int), t)

/-- One unit read from the stream in the wide-char path (printfq.c line
420): the platform-decoded wide character, with -1 standing for WEOF,
and the rest of the stream. -/
def getcW : List Nat → Int × List Nat
  | [] => (-1, [])
  | w :: t => ((w : Int), t)

/-- Entry mode into a narrow- or wide-char record loop body: the normal
loop head, or the start-escape label with the recorded isPrintable value
(the target of the tilde gotos in printfq.c lines 336-339, 399-401,
422-425 and 585-588). -/
inductive AMode where
  | norm : AMode
  | esc : Bool → AMode
deriving Repr, DecidableEq

/-- One emission of the dollar-quote loop of the narrow-char path
(printfq.c lines 354-378): output bytes and the stream after the octal
lookahead, which getc-then-ungetc leaves unchanged. -/
def escEmitA (u : Bool) (c : Int) (isP : Bool) (inp : List Nat) :
    List Nat × List Nat :=
  if isP then
    if c = 92 then ([92, 92], inp)
    else if c = 39 then ([92, 39], inp)
    else ([c.toNat % 256], inp)
  else if c < ansiEscapesLimit u ∧ ansiEscapes.getD c.toNat 0 ≠ 0 then
    ([92, ansiEscapes.getD c.toNat 0], inp)
  else if 63 < c then (92 :: oct3 c.toNat, inp)
  else
    let nextc := (getcA inp).1
    if 48 ≤ nextc ∧ nextc ≤ 55 then (92 :: oct3 c.toNat, inp)
    else (92 :: octMin c.toNat, inp)

/-- The dollar-quote loop of the narrow-char path (printfq.c lines
354-378): accumulated output, the unit that ended the loop, and the
remaining stream. -/
def aQuoteLoop (f : Int → Bool) (u : Bool) :
    Nat → Int → Bool → List Nat → List Nat × Int × List Nat
  | 0, c, _, inp => ([], c, inp)
  | n + 1, c, isP, inp =>
    let e := escEmitA u c isP inp
    let r := getcA e.2
    if 0 < r.1 then
      let q := aQuoteLoop f u n r.1 (f r.1) r.2
      (e.1 ++ q.1, q.2.1, q.2.2)
    else (e.1, r.1, r.2)

/-- The raw single-quote loop of minimal mode in the narrow-char path
(printfq.c lines 348-351): the current unit and every following one are
emitted verbatim until a quote, a null or EOF stops the loop. -/
def rawQuoteLoop : Nat → Int → List Nat → List Nat × Int × List Nat
  | 0, c, inp => ([], c, inp)
  | n + 1, c, inp =>
    let r := getcA inp
    if 0 < r.1 ∧ r.1 ≠ 39 then
      let q := rawQuoteLoop n r.1 r.2
      (c.toNat % 256 :: q.1, q.2.1, q.2.2)
    else ([c.toNat % 256], r.1, r.2)

/-- The record loop of the narrow-char path (printfq.c lines 341-392):
literal output for printable non-metacharacter bytes, the backslash
quote for a single quote, and the raw or dollar quoting of an escaped
run, with the close-quote bookkeeping shared by both modes.  m is
disableCQuoting (minimal mode). -/
def aRecLoop (f : Int → Bool) (m u : Bool) :
    Nat → AMode → Int → List Nat → List Nat × Int × List Nat
  | 0, _, c, inp => ([], c, inp)
  | n + 1, AMode.norm, c, inp =>
    let isP := m || f c
    if shMeta c || !isP then aRecLoop f m u n (AMode.esc isP) c inp
    else
      let r := getcA inp
      if 0 < r.1 then
        let t := aRecLoop f m u n AMode.norm r.1 r.2
        (c.toNat % 256 :: t.1, t.2.1, t.2.2)
      else ([c.toNat % 256], r.1, r.2)
  | n + 1, AMode.esc isP, c, inp =>
    if c = 39 then
      let r := getcA inp
      if 0 < r.1 then
        let t := aRecLoop f m u n AMode.norm r.1 r.2
        (92 :: 39 :: t.1, t.2.1, t.2.2)
      else ([92, 39], r.1, r.2)
    else
      let q : List Nat × Int × List Nat :=
        if m then
          let rq := rawQuoteLoop n c inp
          (39 :: rq.1, rq.2.1, rq.2.2)
        else
          let aq := aQuoteLoop f u n c isP inp
          (36 :: 39 :: aq.1, aq.2.1, aq.2.2)
      let em := q.1 ++ [39]
      if q.2.1 = 39 then
        let r := getcA q.2.2
        if 0 < r.1 then
          let t := aRecLoop f m u n AMode.norm r.1 r.2
          (em ++ 92 :: 39 :: t.1, t.2.1, t.2.2)
        else (em ++ [92, 39], r.1, r.2)
      else if q.2.1 ≤ 0 then (em, q.2.1, q.2.2)
      else
        let r := getcA q.2.2
        if 0 < r.1 then
          let t := aRecLoop f m u n AMode.norm r.1 r.2
          (em ++ t.1, t.2.1, t.2.2)
        else (em, r.1, r.2)

/-- The outer loop of the narrow-char path (printfq.c lines 334-414):
records separated by null bytes, the empty-record output, the delimiter
with its write checks, the tilde gotos and the end-of-stream
terminators, mirroring the UTF-8 outer loop byte for byte. -/
def aMain (f : Int → Bool) (m : Bool) (o : Opts) (sepOk flushOk : Bool) :
    Nat → Int → List Nat → List Nat
  | 0, _, _ => []
  | n + 1, c, inp =>
    let rr : List Nat × Int × List Nat :=
      if 0 < c then
        if c = 126 then aRecLoop f m o.useUnicodeEscapes n (AMode.esc true) c inp
        else aRecLoop f m o.useUnicodeEscapes n AMode.norm c inp
      else ([39, 39], c, inp)
    if rr.2.1 = 0 then
      let r := getcA rr.2.2
      if r.1 = -1 then rr.1 ++ (if o.nullTerminatedOutput then [0] else [])
      else
        let sep : List Nat :=
          if o.ignoreNullInput then []
          else if o.nullTerminatedOutput then (if sepOk then [0] else [])
          else (if sepOk then [32] else [])
        let lc : Bool :=
          o.ignoreNullInput ||
            (if o.nullTerminatedOutput then sepOk && (!o.flushArguments || flushOk)
             else sepOk)
        if lc then rr.1 ++ sep ++ aMain f m o sepOk flushOk n r.1 r.2
        else rr.1 ++ sep
    else rr.1 ++ (if o.ignoreNullInput ∧ o.nullTerminatedOutput then [0] else [])

/-- The narrow-char path of printfq on a byte stream with all delimiter
writes succeeding: the route taken for the C locale, ANSI_X3.4-1968, and
a UTF-8 locale in minimal mode (printfq.c lines 326-333). -/
def runAscii (f : Int → Bool) (m : Bool) (o : Opts) (input : List Nat) : List Nat :=
  let r := getcA input
  aMain f m o true true (2 * input.length + 8) r.1 r.2

/-- The UTF-8 bytes the wide-char path prints as per-byte octal escapes
when numeric escapes are disabled (printfq.c lines 465-491): the
original pre-RFC-3629 encoding of values up to six bytes, with the
continuation bytes masked exactly as the source masks them. -/
def wideOctBytes (c : Nat) : List Nat :=
  if c < 0x800 then [0xC0 ||| c >>> 6, (c &&& 0xBF) ||| 0x80]
  else if c < 0x10000 then
    [0xE0 ||| c >>> 12, ((c >>> 6) &&& 0xBF) ||| 0x80, (c &&& 0xBF) ||| 0x80]
  else if c < 0x200000 then
    [0xF0 ||| c >>> 18, ((c >>> 12) &&& 0xBF) ||| 0x80, ((c >>> 6) &&& 0xBF) ||| 0x80,
      (c &&& 0xBF) ||| 0x80]
  else if c < 0x4000000 then
    [0xF8 ||| c >>> 24, ((c >>> 18) &&& 0xBF) ||| 0x80, ((c >>> 12) &&& 0xBF) ||| 0x80,
      ((c >>> 6) &&& 0xBF) ||| 0x80, (c &&& 0xBF) ||| 0x80]
  else
    [0xFC ||| (if 0x40000000 ≤ c then 1 else 0), ((c >>> 24) &&& 0xBF) ||| 0x80,
      ((c >>> 18) &&& 0xBF) ||| 0x80, ((c >>> 12) &&& 0xBF) ||| 0x80,
      ((c >>> 6) &&& 0xBF) ||| 0x80, (c &&& 0xBF) ||| 0x80]

/-- One emission of the dollar-quote loop of the wide-char path
(printfq.c lines 441-559): output units, the stream after any
getwc-then-ungetwc lookahead, and whether the upper-case U escape hit a
following hex digit and must break the quote.  szGt2 is the platform
condition sizeof(wchar_t) > 2. -/
def escEmitW (u szGt2 : Bool) (c : Int) (isP : Bool) (inp : List Nat) :
    List Nat × List Nat × Bool :=
  if isP then
    if c = 92 then ([92, 92], inp, false)
    else if c = 39 then ([92, 39], inp, false)
    else ([c.toNat], inp, false)
  else if c < 128 then
    if c < ansiEscapesLimit u ∧ ansiEscapes.getD c.toNat 0 ≠ 0 then
      ([92, ansiEscapes.getD c.toNat 0], inp, false)
    else if 63 < c then (92 :: oct3 c.toNat, inp, false)
    else
      let nextc := (getcW inp).1
      if 48 ≤ nextc ∧ nextc ≤ 55 then (92 :: oct3 c.toNat, inp, false)
      else (92 :: octMin c.toNat, inp, false)
  else if ¬ u then
    ((wideOctBytes c.toNat).foldr (fun b acc => (92 :: oct3 b) ++ acc) [], inp, false)
  else if szGt2 then
    if c ≤ 65535 then
      let nextc := (getcW inp).1
      if 0xFFF < c ∨ isxdigitA nextc then ([92, 117] ++ hex4 c.toNat, inp, false)
      else ([92, 117] ++ hexMin c.toNat, inp, false)
    else
      let nextc := (getcW inp).1
      ([92, 85] ++ hexMin c.toNat, inp, isxdigitA nextc)
  else
    let nextc := (getcW inp).1
    if 0xFFF < c ∨ isxdigitA nextc then ([92, 117] ++ hex4 c.toNat, inp, false)
    else ([92, 117] ++ hexMin c.toNat, inp, false)

/-- The dollar-quote loop of the wide-char path (printfq.c lines
441-563): accumulated output, the unit that ended the loop, the
remaining stream, and whether the loop was left through the upper-case
U escape break. -/
def wQuoteLoop (f : Int → Bool) (u szGt2 : Bool) :
    Nat → Int → Bool → List Nat → List Nat × Int × List Nat × Bool
  | 0, c, _, inp => ([], c, inp, false)
  | n + 1, c, isP, inp =>
    let e := escEmitW u szGt2 c isP inp
    if e.2.2 then (e.1, c, e.2.1, true)
    else
      let r := getcW e.2.1
      if r.1 ≠ 0 ∧ r.1 ≠ -1 then
        let q := wQuoteLoop f u szGt2 n r.1 (f r.1) r.2
        (e.1 ++ q.1, q.2.1, q.2.2.1, q.2.2.2)
      else (e.1, r.1, r.2, false)

/-- The raw single-quote loop of minimal mode in the wide-char path
(printfq.c lines 434-437). -/
def rawQuoteLoopW : Nat → Int → List Nat → List Nat × Int × List Nat
  | 0, c, inp => ([], c, inp)
  | n + 1, c, inp =>
    let r := getcW inp
    if r.1 ≠ 0 ∧ r.1 ≠ -1 ∧ r.1 ≠ 39 then
      let q := rawQuoteLoopW n r.1 r.2
      (c.toNat :: q.1, q.2.1, q.2.2)
    else ([c.toNat], r.1, r.2)

/-- The record loop of the wide-char path (printfq.c lines 427-575),
with the same structure as the narrow-char record loop; the final
fall-through arm is the continuation after the upper-case U escape
break reopens normal mode. -/
def wRecLoop (f : Int → Bool) (m u szGt2 : Bool) :
    Nat → AMode → Int → List Nat → List Nat × Int × List Nat
  | 0, _, c, inp => ([], c, inp)
  | n + 1, AMode.norm, c, inp =>
    let isP := m || f c
    if shMeta c || !isP then wRecLoop f m u szGt2 n (AMode.esc isP) c inp
    else
      let r := getcW inp
      if r.1 ≠ 0 ∧ r.1 ≠ -1 then
        let t := wRecLoop f m u szGt2 n AMode.norm r.1 r.2
        (c.toNat :: t.1, t.2.1, t.2.2)
      else ([c.toNat], r.1, r.2)
  | n + 1, AMode.esc isP, c, inp =>
    if c = 39 then
      let r := getcW inp
      if r.1 ≠ 0 ∧ r.1 ≠ -1 then
        let t := wRecLoop f m u szGt2 n AMode.norm r.1 r.2
        (92 :: 39 :: t.1, t.2.1, t.2.2)
      else ([92, 39], r.1, r.2)
    else
      let q : List Nat × Int × List Nat :=
        if m then
          let rq := rawQuoteLoopW n c inp
          (39 :: rq.1, rq.2.1, rq.2.2)
        else
          let wq := wQuoteLoop f u szGt2 n c isP inp
          (36 :: 39 :: wq.1, wq.2.1, wq.2.2.1)
      let em := q.1 ++ [39]
      if q.2.1 = 39 then
        let r := getcW q.2.2
        if r.1 ≠ 0 ∧ r.1 ≠ -1 then
          let t := wRecLoop f m u szGt2 n AMode.norm r.1 r.2
          (em ++ 92 :: 39 :: t.1, t.2.1, t.2.2)
        else (em ++ [92, 39], r.1, r.2)
      else if q.2.1 = 0 ∨ q.2.1 = -1 then (em, q.2.1, q.2.2)
      else
        let r := getcW q.2.2
        if r.1 ≠ 0 ∧ r.1 ≠ -1 then
          let t := wRecLoop f m u szGt2 n AMode.norm r.1 r.2
          (em ++ t.1, t.2.1, t.2.2)
        else (em, r.1, r.2)

/-- The outer loop of the wide-char path (printfq.c lines 426-598):
the same delimiter and terminator logic as the other paths, with the
wide-char end conditions. -/
def wMain (f : Int → Bool) (m : Bool) (o : Opts) (szGt2 sepOk flushOk : Bool) :
    Nat → Int → List Nat → List Nat
  | 0, _, _ => []
  | n + 1, c, inp =>
    let rr : List Nat × Int × List Nat :=
      if c ≠ 0 ∧ c ≠ -1 then
        if c = 126 then wRecLoop f m o.useUnicodeEscapes szGt2 n (AMode.esc true) c inp
        else wRecLoop f m o.useUnicodeEscapes szGt2 n AMode.norm c inp
      else ([39, 39], c, inp)
    if rr.2.1 = 0 then
      let r := getcW rr.2.2
      if r.1 = -1 then rr.1 ++ (if o.nullTerminatedOutput then [0] else [])
      else
        let sep : List Nat :=
          if o.ignoreNullInput then []
          else if o.nullTerminatedOutput then (if sepOk then [0] else [])
          else (if sepOk then [32] else [])
        let lc : Bool :=
          o.ignoreNullInput ||
            (if o.nullTerminatedOutput then sepOk && (!o.flushArguments || flushOk)
             else (if r.1 = -1 then false else sepOk))
        if lc then rr.1 ++ sep ++ wMain f m o szGt2 sepOk flushOk n r.1 r.2
        else rr.1 ++ sep
    else rr.1 ++ (if o.ignoreNullInput ∧ o.nullTerminatedOutput then [0] else [])

/-- The wide-char path of printfq on a stream of platform-decoded wide
characters with all delimiter writes succeeding: the route taken for a
non-UTF-8, non-ASCII locale (printfq.c lines 415-420). -/
def runWide (f : Int → Bool) (m : Bool) (o : Opts) (szGt2 : Bool)
    (input : List Nat) : List Nat :=
  let r := getcW input
  wMain f m o szGt2 true true (2 * input.length + 8) r.1 r.2

theorem quoteLoop_step_eq (f : Int → Bool) (u : Bool) (n : Nat) (c : Int) (bytes : List Nat)
    (isP : Bool) (s : U8) :
    quoteLoop f u (n + 1) c bytes isP s =
      (let e := escEmit u c bytes isP s
       if e.brk then ⟨e.out, c, bytes, e.st, true⟩
       else
         let r := getUtf8CodePoint e.st
         if 0 < r.rc then
           let q := quoteLoop f u n r.rc r.bytes (!r.bytes.isEmpty && f r.rc) r.st
           ⟨e.out ++ q.out, q.c, q.bytes, q.st, q.brk⟩
         else ⟨e.out, r.rc, r.bytes, r.st, false⟩) := rfl

theorem recLoop_esc_eq (f : Int → Bool) (u : Bool) (n : Nat) (isP : Bool) (c : Int)
    (bytes : List Nat) (s : U8) :
    recLoop f u (n + 1) (RMode.esc isP) c bytes s =
      (let q := quoteLoop f u n c bytes isP s
       let em := 36 :: 39 :: q.out ++ [39]
       if 0 ≥ q.c then ⟨em, q.c, q.bytes, q.st⟩
       else
         let r := getUtf8CodePoint q.st
         if 0 < r.rc then
           let t := recLoop f u n RMode.norm r.rc r.bytes r.st
           ⟨em ++ t.out, t.c, t.bytes, t.st⟩
         else ⟨em, r.rc, r.bytes, r.st⟩) := rfl

theorem recLoop_norm_eq (f : Int → Bool) (u : Bool) (n : Nat) (c : Int)
    (bytes : List Nat) (s : U8) :
    recLoop f u (n + 1) RMode.norm c bytes s =
      (let isP := !bytes.isEmpty && f c
       if ¬ isP ∨ shMeta c then
         if c = 39 then
           let r := getUtf8CodePoint s
           if 0 < r.rc then
             let t := recLoop f u n RMode.norm r.rc r.bytes r.st
             ⟨92 :: 39 :: t.out, t.c, t.bytes, t.st⟩
           else ⟨[92, 39], r.rc, r.bytes, r.st⟩
         else recLoop f u n (RMode.esc isP) c bytes s
       else
         let r := getUtf8CodePoint s
         if 0 < r.rc then
           let t := recLoop f u n RMode.norm r.rc r.bytes r.st
           ⟨bytes ++ t.out, t.c, t.bytes, t.st⟩
         else ⟨bytes, r.rc, r.bytes, r.st⟩) := rfl

theorem u8Main_step_eq (f : Int → Bool) (o : Opts) (sepOk flushOk : Bool) (n : Nat) (c : Int)
    (bytes : List Nat) (s : U8) :
    u8Main f o sepOk flushOk (n + 1) c bytes s =
      (let rr : RecRes :=
        if 0 < c then
          if c = 126 then recLoop f o.useUnicodeEscapes n (RMode.esc true) c bytes s
          else recLoop f o.useUnicodeEscapes n RMode.norm c bytes s
        else ⟨[39, 39], c, bytes, s⟩
       if rr.c = 0 then
         let r := getUtf8CodePoint rr.st
         if r.rc = -1 then
           rr.out ++ (if o.nullTerminatedOutput then [0] else [])
         else
           let sep : List Nat :=
             if o.ignoreNullInput then []
             else if o.nullTerminatedOutput then (if sepOk then [0] else [])
             else (if sepOk then [32] else [])
           let lc : Bool :=
             o.ignoreNullInput ||
               (if o.nullTerminatedOutput then sepOk && (!o.flushArguments || flushOk)
                else sepOk)
           if lc then rr.out ++ sep ++ u8Main f o sepOk flushOk n r.rc r.bytes r.st
           else rr.out ++ sep
       else
         rr.out ++ (if o.ignoreNullInput ∧ o.nullTerminatedOutput then [0] else [])) := rfl

theorem head3_app (a b : List Nat) (x y z : Nat) (t : List Nat) (h : a = x :: y :: z :: t) :
    ∃ r, a ++ b = x :: y :: z :: r := ⟨t ++ b, by rw [h]; simp⟩

theorem quoteLoop_tilde (f : Int → Bool) (u : Bool) (j : Nat) (s : U8) :
    ∃ t, (quoteLoop f u (j + 1) 126 [126] true s).out = 126 :: t := by
  have he : escEmit u 126 [126] true s = ⟨[126], s, false⟩ := by
    norm_num [escEmit]
  rw [quoteLoop_step_eq]
  by_cases hr : 0 < (getUtf8CodePoint s).rc
  · refine ⟨(quoteLoop f u j (getUtf8CodePoint s).rc (getUtf8CodePoint s).bytes
      (!(getUtf8CodePoint s).bytes.isEmpty && f (getUtf8CodePoint s).rc)
      (getUtf8CodePoint s).st).out, ?_⟩
    simp [he, hr]
  · exact ⟨[], by simp [he, hr]⟩

theorem recLoop_tilde (f : Int → Bool) (u : Bool) (k : Nat) (s : U8) :
    ∃ t, (recLoop f u (k + 2) (RMode.esc true) 126 [126] s).out = 36 :: 39 :: 126 :: t := by
  obtain ⟨t, ht⟩ := quoteLoop_tilde f u k s
  rw [show k + 2 = (k + 1) + 1 from rfl, recLoop_esc_eq]
  by_cases hq : 0 ≥ (quoteLoop f u (k + 1) 126 [126] true s).c
  · refine ⟨t ++ [39], ?_⟩
    simp [hq, ht]
  · by_cases hr : 0 < (getUtf8CodePoint (quoteLoop f u (k + 1) 126 [126] true s).st).rc
    · refine ⟨t ++ 39 :: (recLoop f u (k + 1) RMode.norm
        (getUtf8CodePoint (quoteLoop f u (k + 1) 126 [126] true s).st).rc
        (getUtf8CodePoint (quoteLoop f u (k + 1) 126 [126] true s).st).bytes
        (getUtf8CodePoint (quoteLoop f u (k + 1) 126 [126] true s).st).st).out, ?_⟩
      simp [hq, hr, ht]
    · refine ⟨t ++ [39], ?_⟩
      simp [hq, hr, ht]

theorem u8Main_tilde (f : Int → Bool) (o : Opts) (sepOk flushOk : Bool) (n : Nat) (s : U8) :
    ∃ t, u8Main f o sepOk flushOk (n + 3) 126 [126] s = 36 :: 39 :: 126 :: t := by
  obtain ⟨t, ht⟩ := recLoop_tilde f o.useUnicodeEscapes n s
  rw [show n + 3 = (n + 2) + 1 from rfl, u8Main_step_eq]
  norm_num
  by_cases h0 : (recLoop f o.useUnicodeEscapes (n + 2) (RMode.esc true) 126 [126] s).c = 0
  · by_cases hE :
      (getUtf8CodePoint
        (recLoop f o.useUnicodeEscapes (n + 2) (RMode.esc true) 126 [126] s).st).rc = -1
    · simp only [h0, hE, if_true, if_pos]
      exact head3_app _ _ _ _ _ _ ht
    · by_cases hlc : o.ignoreNullInput = true ∨
          (if o.nullTerminatedOutput = true then
            sepOk = true ∧ (o.flushArguments = false ∨ flushOk = true)
          else sepOk = true)
      · simp only [h0, hE, if_true, if_pos, if_neg, if_false]
        rw [if_pos hlc]
        exact head3_app _ _ _ _ _ _ ht
      · simp only [h0, hE, if_true, if_pos, if_neg, if_false]
        rw [if_neg hlc]
        exact head3_app _ _ _ _ _ _ ht
  · simp only [h0, if_neg, if_false]
    exact head3_app _ _ _ _ _ _ ht

theorem aRecLoop_esc_eq (f : Int → Bool) (m u : Bool) (n : Nat) (isP : Bool) (c : Int)
    (inp : List Nat) :
    aRecLoop f m u (n + 1) (AMode.esc isP) c inp =
      (if c = 39 then
        let r := getcA inp
        if 0 < r.1 then
          let t := aRecLoop f m u n AMode.norm r.1 r.2
          (92 :: 39 :: t.1, t.2.1, t.2.2)
        else ([92, 39], r.1, r.2)
      else
        let q : List Nat × Int × List Nat :=
          if m then
            let rq := rawQuoteLoop n c inp
            (39 :: rq.1, rq.2.1, rq.2.2)
          else
            let aq := aQuoteLoop f u n c isP inp
            (36 :: 39 :: aq.1, aq.2.1, aq.2.2)
        let em := q.1 ++ [39]
        if q.2.1 = 39 then
          let r := getcA q.2.2
          if 0 < r.1 then
            let t := aRecLoop f m u n AMode.norm r.1 r.2
            (em ++ 92 :: 39 :: t.1, t.2.1, t.2.2)
          else (em ++ [92, 39], r.1, r.2)
        else if q.2.1 ≤ 0 then (em, q.2.1, q.2.2)
        else
          let r := getcA q.2.2
          if 0 < r.1 then
            let t := aRecLoop f m u n AMode.norm r.1 r.2
            (em ++ t.1, t.2.1, t.2.2)
          else (em, r.1, r.2)) := rfl

theorem aMain_step_eq (f : Int → Bool) (m : Bool) (o : Opts) (sepOk flushOk : Bool) (n : Nat)
    (c : Int) (inp : List Nat) :
    aMain f m o sepOk flushOk (n + 1) c inp =
      (let rr : List Nat × Int × List Nat :=
        if 0 < c then
          if c = 126 then aRecLoop f m o.useUnicodeEscapes n (AMode.esc true) c inp
          else aRecLoop f m o.useUnicodeEscapes n AMode.norm c inp
        else ([39, 39], c, inp)
       if rr.2.1 = 0 then
         let r := getcA rr.2.2
         if r.1 = -1 then rr.1 ++ (if o.nullTerminatedOutput then [0] else [])
         else
           let sep : List Nat :=
             if o.ignoreNullInput then []
             else if o.nullTerminatedOutput then (if sepOk then [0] else [])
             else (if sepOk then [32] else [])
           let lc : Bool :=
             o.ignoreNullInput ||
               (if o.nullTerminatedOutput then sepOk && (!o.flushArguments || flushOk)
                else sepOk)
           if lc then rr.1 ++ sep ++ aMain f m o sepOk flushOk n r.1 r.2
           else rr.1 ++ sep
       else rr.1 ++ (if o.ignoreNullInput ∧ o.nullTerminatedOutput then [0] else [])) := rfl

theorem wRecLoop_esc_eq (f : Int → Bool) (m u szGt2 : Bool) (n : Nat) (isP : Bool) (c : Int)
    (inp : List Nat) :
    wRecLoop f m u szGt2 (n + 1) (AMode.esc isP) c inp =
      (if c = 39 then
        let r := getcW inp
        if r.1 ≠ 0 ∧ r.1 ≠ -1 then
          let t := wRecLoop f m u szGt2 n AMode.norm r.1 r.2
          (92 :: 39 :: t.1, t.2.1, t.2.2)
        else ([92, 39], r.1, r.2)
      else
        let q : List Nat × Int × List Nat :=
          if m then
            let rq := rawQuoteLoopW n c inp
            (39 :: rq.1, rq.2.1, rq.2.2)
          else
            let wq := wQuoteLoop f u szGt2 n c isP inp
            (36 :: 39 :: wq.1, wq.2.1, wq.2.2.1)
        let em := q.1 ++ [39]
        if q.2.1 = 39 then
          let r := getcW q.2.2
          if r.1 ≠ 0 ∧ r.1 ≠ -1 then
            let t := wRecLoop f m u szGt2 n AMode.norm r.1 r.2
            (em ++ 92 :: 39 :: t.1, t.2.1, t.2.2)
          else (em ++ [92, 39], r.1, r.2)
        else if q.2.1 = 0 ∨ q.2.1 = -1 then (em, q.2.1, q.2.2)
        else
          let r := getcW q.2.2
          if r.1 ≠ 0 ∧ r.1 ≠ -1 then
            let t := wRecLoop f m u szGt2 n AMode.norm r.1 r.2
            (em ++ t.1, t.2.1, t.2.2)
          else (em, r.1, r.2)) := rfl

theorem wMain_step_eq (f : Int → Bool) (m : Bool) (o : Opts) (szGt2 sepOk flushOk : Bool)
    (n : Nat) (c : Int) (inp : List Nat) :
    wMain f m o szGt2 sepOk flushOk (n + 1) c inp =
      (let rr : List Nat × Int × List Nat :=
        if c ≠ 0 ∧ c ≠ -1 then
          if c = 126 then wRecLoop f m o.useUnicodeEscapes szGt2 n (AMode.esc true) c inp
          else wRecLoop f m o.useUnicodeEscapes szGt2 n AMode.norm c inp
        else ([39, 39], c, inp)
       if rr.2.1 = 0 then
         let r := getcW rr.2.2
         if r.1 = -1 then rr.1 ++ (if o.nullTerminatedOutput then [0] else [])
         else
           let sep : List Nat :=
             if o.ignoreNullInput then []
             else if o.nullTerminatedOutput then (if sepOk then [0] else [])
             else (if sepOk then [32] else [])
           let lc : Bool :=
             o.ignoreNullInput ||
               (if o.nullTerminatedOutput then sepOk && (!o.flushArguments || flushOk)
                else (if r.1 = -1 then false else sepOk))
           if lc then rr.1 ++ sep ++ wMain f m o szGt2 sepOk flushOk n r.1 r.2
           else rr.1 ++ sep
       else rr.1 ++ (if o.ignoreNullInput ∧ o.nullTerminatedOutput then [0] else [])) := rfl

theorem headPre_app (p a b t : List Nat) (h : a = p ++ t) : ∃ r, a ++ b = p ++ r :=
  ⟨t ++ b, by rw [h]; simp⟩

theorem aQuoteLoop_tilde (f : Int → Bool) (u : Bool) (j : Nat) (inp : List Nat) :
    ∃ t, (aQuoteLoop f u (j + 1) 126 true inp).1 = 126 :: t := by
  have he : escEmitA u 126 true inp = ([126], inp) := by norm_num [escEmitA] <;> decide
  by_cases hr : 0 < (getcA inp).1
  · refine ⟨(aQuoteLoop f u j (getcA inp).1 (f (getcA inp).1) (getcA inp).2).1, ?_⟩
    simp [aQuoteLoop, he, hr] <;> decide
  · exact ⟨[], by simp [aQuoteLoop, he, hr] <;> decide⟩

theorem rawQuoteLoop_tilde (j : Nat) (inp : List Nat) :
    ∃ t, (rawQuoteLoop (j + 1) 126 inp).1 = 126 :: t := by
  by_cases hr : 0 < (getcA inp).1 ∧ (getcA inp).1 ≠ 39
  · refine ⟨(rawQuoteLoop j (getcA inp).1 (getcA inp).2).1, ?_⟩
    simp [rawQuoteLoop, hr] <;> decide
  · exact ⟨[], by simp [rawQuoteLoop, hr] <;> decide⟩

theorem wQuoteLoop_tilde (f : Int → Bool) (u szGt2 : Bool) (j : Nat) (inp : List Nat) :
    ∃ t, (wQuoteLoop f u szGt2 (j + 1) 126 true inp).1 = 126 :: t := by
  have he : escEmitW u szGt2 126 true inp = ([126], inp, false) := by norm_num [escEmitW] <;> decide
  by_cases hr : (getcW inp).1 ≠ 0 ∧ (getcW inp).1 ≠ -1
  · refine ⟨(wQuoteLoop f u szGt2 j (getcW inp).1 (f (getcW inp).1) (getcW inp).2).1, ?_⟩
    simp [wQuoteLoop, he, hr] <;> decide
  · exact ⟨[], by simp [wQuoteLoop, he, hr] <;> decide⟩

theorem rawQuoteLoopW_tilde (j : Nat) (inp : List Nat) :
    ∃ t, (rawQuoteLoopW (j + 1) 126 inp).1 = 126 :: t := by
  by_cases hr : (getcW inp).1 ≠ 0 ∧ (getcW inp).1 ≠ -1 ∧ (getcW inp).1 ≠ 39
  · refine ⟨(rawQuoteLoopW j (getcW inp).1 (getcW inp).2).1, ?_⟩
    simp [rawQuoteLoopW, hr] <;> decide
  · exact ⟨[], by simp [rawQuoteLoopW, hr] <;> decide⟩

theorem aRecLoop_tilde (f : Int → Bool) (m u : Bool) (k : Nat) (inp : List Nat) :
    ∃ t, (aRecLoop f m u (k + 2) (AMode.esc true) 126 inp).1 =
      (if m then [39, 126] else [36, 39, 126]) ++ t := by
  rw [show k + 2 = (k + 1) + 1 from rfl, aRecLoop_esc_eq]
  rw [if_neg (by norm_num : ¬ (126 : Int) = 39)]
  cases m with
  | true =>
    obtain ⟨t0, ht0⟩ := rawQuoteLoop_tilde k inp
    rcases hQ : rawQuoteLoop (k + 1) 126 inp with ⟨qo, qc, qi⟩
    rw [hQ] at ht0
    simp only at ht0
    by_cases h39 : qc = 39
    · by_cases hr : 0 < (getcA qi).1
      · refine ⟨t0 ++ [39] ++
          92 :: 39 :: (aRecLoop f true u (k + 1) AMode.norm (getcA qi).1 (getcA qi).2).1, ?_⟩
        simp [h39, hr, ht0]
      · refine ⟨t0 ++ [39] ++ [92, 39], ?_⟩
        simp [h39, hr, ht0]
    · by_cases hle : qc ≤ 0
      · refine ⟨t0 ++ [39], ?_⟩
        simp [h39, hle, ht0]
      · by_cases hr : 0 < (getcA qi).1
        · refine ⟨t0 ++ [39] ++
            (aRecLoop f true u (k + 1) AMode.norm (getcA qi).1 (getcA qi).2).1, ?_⟩
          simp [h39, hle, hr, ht0]
        · refine ⟨t0 ++ [39], ?_⟩
          simp [h39, hle, hr, ht0]
  | false =>
    obtain ⟨t0, ht0⟩ := aQuoteLoop_tilde f u k inp
    rcases hQ : aQuoteLoop f u (k + 1) 126 true inp with ⟨qo, qc, qi⟩
    rw [hQ] at ht0
    simp only at ht0
    by_cases h39 : qc = 39
    · by_cases hr : 0 < (getcA qi).1
      · refine ⟨t0 ++ [39] ++
          92 :: 39 :: (aRecLoop f false u (k + 1) AMode.norm (getcA qi).1 (getcA qi).2).1, ?_⟩
        simp [h39, hr, ht0]
      · refine ⟨t0 ++ [39] ++ [92, 39], ?_⟩
        simp [h39, hr, ht0]
    · by_cases hle : qc ≤ 0
      · refine ⟨t0 ++ [39], ?_⟩
        simp [h39, hle, ht0]
      · by_cases hr : 0 < (getcA qi).1
        · refine ⟨t0 ++ [39] ++
            (aRecLoop f false u (k + 1) AMode.norm (getcA qi).1 (getcA qi).2).1, ?_⟩
          simp [h39, hle, hr, ht0]
        · refine ⟨t0 ++ [39], ?_⟩
          simp [h39, hle, hr, ht0]

theorem wRecLoop_tilde (f : Int → Bool) (m u szGt2 : Bool) (k : Nat) (inp : List Nat) :
    ∃ t, (wRecLoop f m u szGt2 (k + 2) (AMode.esc true) 126 inp).1 =
      (if m then [39, 126] else [36, 39, 126]) ++ t := by
  rw [show k + 2 = (k + 1) + 1 from rfl, wRecLoop_esc_eq]
  rw [if_neg (by norm_num : ¬ (126 : Int) = 39)]
  cases m with
  | true =>
    obtain ⟨t0, ht0⟩ := rawQuoteLoopW_tilde k inp
    rcases hQ : rawQuoteLoopW (k + 1) 126 inp with ⟨qo, qc, qi⟩
    rw [hQ] at ht0
    simp only at ht0
    by_cases h39 : qc = 39
    · by_cases hr : (getcW qi).1 ≠ 0 ∧ (getcW qi).1 ≠ -1
      · refine ⟨t0 ++ [39] ++ 92 :: 39 ::
          (wRecLoop f true u szGt2 (k + 1) AMode.norm (getcW qi).1 (getcW qi).2).1, ?_⟩
        simp [h39, hr, ht0]
      · refine ⟨t0 ++ [39] ++ [92, 39], ?_⟩
        simp [h39, hr, ht0]
    · by_cases hle : qc = 0 ∨ qc = -1
      · refine ⟨t0 ++ [39], ?_⟩
        simp [h39, hle, ht0]
      · by_cases hr : (getcW qi).1 ≠ 0 ∧ (getcW qi).1 ≠ -1
        · refine ⟨t0 ++ [39] ++
            (wRecLoop f true u szGt2 (k + 1) AMode.norm (getcW qi).1 (getcW qi).2).1, ?_⟩
          simp [h39, hle, hr, ht0]
        · refine ⟨t0 ++ [39], ?_⟩
          simp [h39, hle, hr, ht0]
  | false =>
    obtain ⟨t0, ht0⟩ := wQuoteLoop_tilde f u szGt2 k inp
    rcases hQ : wQuoteLoop f u szGt2 (k + 1) 126 true inp with ⟨qo, qc, qi, qb⟩
    rw [hQ] at ht0
    simp only at ht0
    by_cases h39 : qc = 39
    · by_cases hr : (getcW qi).1 ≠ 0 ∧ (getcW qi).1 ≠ -1
      · refine ⟨t0 ++ [39] ++ 92 :: 39 ::
          (wRecLoop f false u szGt2 (k + 1) AMode.norm (getcW qi).1 (getcW qi).2).1, ?_⟩
        simp [h39, hr, ht0]
      · refine ⟨t0 ++ [39] ++ [92, 39], ?_⟩
        simp [h39, hr, ht0]
    · by_cases hle : qc = 0 ∨ qc = -1
      · refine ⟨t0 ++ [39], ?_⟩
        simp [h39, hle, ht0]
      · by_cases hr : (getcW qi).1 ≠ 0 ∧ (getcW qi).1 ≠ -1
        · refine ⟨t0 ++ [39] ++
            (wRecLoop f false u szGt2 (k + 1) AMode.norm (getcW qi).1 (getcW qi).2).1, ?_⟩
          simp [h39, hle, hr, ht0]
        · refine ⟨t0 ++ [39], ?_⟩
          simp [h39, hle, hr, ht0]

theorem aMain_tilde (f : Int → Bool) (m : Bool) (o : Opts) (sepOk flushOk : Bool) (n : Nat)
    (inp : List Nat) :
    ∃ t, aMain f m o sepOk flushOk (n + 3) 126 inp =
      (if m then [39, 126] else [36, 39, 126]) ++ t := by
  obtain ⟨t, ht⟩ := aRecLoop_tilde f m o.useUnicodeEscapes n inp
  rw [show n + 3 = (n + 2) + 1 from rfl, aMain_step_eq]
  norm_num
  by_cases h0 : (aRecLoop f m o.useUnicodeEscapes (n + 2) (AMode.esc true) 126 inp).2.1 = 0
  · by_cases hE :
      (getcA (aRecLoop f m o.useUnicodeEscapes (n + 2) (AMode.esc true) 126 inp).2.2).1 = -1
    · simp only [h0, hE, if_true, if_pos]
      exact headPre_app _ _ _ _ ht
    · by_cases hlc : o.ignoreNullInput = true ∨
          (if o.nullTerminatedOutput = true then
            sepOk = true ∧ (o.flushArguments = false ∨ flushOk = true)
          else sepOk = true)
      · simp only [h0, hE, if_true, if_pos, if_neg, if_false]
        rw [if_pos hlc]
        exact headPre_app _ _ _ _ ht
      · simp only [h0, hE, if_true, if_pos, if_neg, if_false]
        rw [if_neg hlc]
        exact headPre_app _ _ _ _ ht
  · simp only [h0, if_neg, if_false]
    exact headPre_app _ _ _ _ ht

theorem wMain_tilde (f : Int → Bool) (m : Bool) (o : Opts) (szGt2 sepOk flushOk : Bool)
    (n : Nat) (inp : List Nat) :
    ∃ t, wMain f m o szGt2 sepOk flushOk (n + 3) 126 inp =
      (if m then [39, 126] else [36, 39, 126]) ++ t := by
  obtain ⟨t, ht⟩ := wRecLoop_tilde f m o.useUnicodeEscapes szGt2 n inp
  rw [show n + 3 = (n + 2) + 1 from rfl, wMain_step_eq]
  norm_num
  by_cases h0 :
      (wRecLoop f m o.useUnicodeEscapes szGt2 (n + 2) (AMode.esc true) 126 inp).2.1 = 0
  · by_cases hE :
      (getcW
        (wRecLoop f m o.useUnicodeEscapes szGt2 (n + 2) (AMode.esc true) 126 inp).2.2).1 = -1
    · simp only [h0, hE, if_true, if_pos]
      exact headPre_app _ _ _ _ ht
    · by_cases hlc : o.ignoreNullInput = true ∨
          (if o.nullTerminatedOutput = true then
            sepOk = true ∧ (o.flushArguments = false ∨ flushOk = true)
          else ¬ False ∧ sepOk = true)
      · simp only [h0, hE, if_true, if_pos, if_neg, if_false]
        rw [if_pos hlc]
        exact headPre_app _ _ _ _ ht
      · simp only [h0, hE, if_true, if_pos, if_neg, if_false]
        rw [if_neg hlc]
        exact headPre_app _ _ _ _ ht
  · simp only [h0, if_neg, if_false]
    exact headPre_app _ _ _ _ ht

/-- Claim C4: a record whose first code point is the tilde is always
quoted in every locale path and every mode: the UTF-8 engine, the
narrow-char engine (both with dollar quoting and in minimal raw-quoting
mode) and the wide-char engine all enter their quote path with the
tilde emitted inside the quotes, whether the record opens the stream or
follows a delimiter, for every classifier, option combination, platform
wide-char width and delimiter-write outcome. -/
theorem c4_tilde_guard (f : Int → Bool) (o : Opts) (sepOk flushOk : Bool) :
    (∀ (n : Nat) (s : U8),
      ∃ t, u8Main f o sepOk flushOk (n + 3) 126 [126] s = 36 :: 39 :: 126 :: t) ∧
    (∀ rest : List Nat, ∃ t, runUtf8 f o (126 :: rest) = 36 :: 39 :: 126 :: t) ∧
    (∀ (m : Bool) (n : Nat) (inp : List Nat),
      ∃ t, aMain f m o sepOk flushOk (n + 3) 126 inp =
        (if m then [39, 126] else [36, 39, 126]) ++ t) ∧
    (∀ (m : Bool) (rest : List Nat),
      ∃ t, runAscii f m o (126 :: rest) = (if m then [39, 126] else [36, 39, 126]) ++ t) ∧
    (∀ (m szGt2 : Bool) (n : Nat) (inp : List Nat),
      ∃ t, wMain f m o szGt2 sepOk flushOk (n + 3) 126 inp =
        (if m then [39, 126] else [36, 39, 126]) ++ t) ∧
    (∀ (m szGt2 : Bool) (rest : List Nat),
      ∃ t, runWide f m o szGt2 (126 :: rest) =
        (if m then [39, 126] else [36, 39, 126]) ++ t) := by
  refine ⟨?_, ?_, fun m n inp => aMain_tilde f m o sepOk flushOk n inp, ?_,
    fun m szGt2 n inp => wMain_tilde f m o szGt2 sepOk flushOk n inp, ?_⟩
  · exact u8Main_tilde f o sepOk flushOk
  · intro rest
    have hr : getUtf8CodePoint ⟨[], 126 :: rest⟩ = ⟨(126 : Int), [126], ⟨[], rest⟩⟩ := rfl
    have hfuel : 2 * (126 :: rest).length + 8 = (2 * rest.length + 7) + 3 := by
      simp
      omega
    obtain ⟨t, ht⟩ := u8Main_tilde f o true true (2 * rest.length + 7) ⟨[], rest⟩
    refine ⟨t, ?_⟩
    rw [runUtf8, runUtf8F]
    simp only [hr, hfuel]
    exact ht
  · intro m rest
    have hfuel : 2 * (126 :: rest).length + 8 = (2 * rest.length + 7) + 3 := by
      simp
      omega
    obtain ⟨t, ht⟩ := aMain_tilde f m o true true (2 * rest.length + 7) rest
    refine ⟨t, ?_⟩
    rw [runAscii]
    simp only [getcA, hfuel]
    exact ht
  · intro m szGt2 rest
    have hfuel : 2 * (126 :: rest).length + 8 = (2 * rest.length + 7) + 3 := by
      simp
      omega
    obtain ⟨t, ht⟩ := wMain_tilde f m o szGt2 true true (2 * rest.length + 7) rest
    refine ⟨t, ?_⟩
    rw [runWide]
    simp only [getcW, hfuel]
    exact ht

/-- A run of units that are all literal for classifier f (positive code,
nonempty byte view, classified printable, not a shell metacharacter)
until the end of the stream, within the given fuel. -/
def litRun (f : Int → Bool) : Nat → U8 → Bool
  | 0, _ => false
  | n + 1, s =>
    let r := getUtf8CodePoint s
    if r.rc = -1 then true
    else if r.rc ≤ 0 then false
    else (!r.bytes.isEmpty && f r.rc && !shMeta r.rc) && litRun f n r.st

/-- Successive getUtf8CodePoint calls until a non-positive unit. -/
def readPos : Nat → U8 → List (Int × List Nat)
  | 0, _ => []
  | n + 1, s =>
    let r := getUtf8CodePoint s
    if r.rc ≤ 0 then [] else (r.rc, r.bytes) :: readPos n r.st

/-- The unit that ends a run of positive units, with the state after
it. -/
def skipPos : Nat → U8 → Int × List Nat × U8
  | 0, s => (1, [], s)
  | n + 1, s =>
    let r := getUtf8CodePoint s
    if r.rc ≤ 0 then (r.rc, r.bytes, r.st) else skipPos n r.st

theorem litRun_mono (f : Int → Bool) : ∀ n m : Nat, ∀ s : U8, n ≤ m →
    litRun f n s = true → litRun f m s = true := by
  intro n
  induction n with
  | zero => intro m s _ h; simp [litRun] at h
  | succ n ih =>
    intro m s hnm h
    rcases m with _ | m
    · omega
    simp only [litRun] at h ⊢
    by_cases h1 : (getUtf8CodePoint s).rc = -1
    · simp [h1]
    by_cases h2 : (getUtf8CodePoint s).rc ≤ 0
    · simp [h1, h2] at h
    simp only [h1, h2, if_neg, if_false] at h ⊢
    simp only [Bool.and_eq_true] at h ⊢
    exact ⟨h.1, ih m (getUtf8CodePoint s).st (by omega) h.2⟩

theorem litRun_end (f : Int → Bool) : ∀ n : Nat, ∀ s : U8, litRun f n s = true →
    (skipPos n s).1 = -1 ∧ readPos n s = readUnits n s := by
  intro n
  induction n with
  | zero => intro s h; simp [litRun] at h
  | succ n ih =>
    intro s h
    simp only [litRun] at h
    by_cases h1 : (getUtf8CodePoint s).rc = -1
    · refine ⟨by simp [skipPos, h1], ?_⟩
      simp [readPos, readUnits, h1]
    by_cases h2 : (getUtf8CodePoint s).rc ≤ 0
    · simp [h1, h2] at h
    simp only [h1, h2, if_neg, if_false, Bool.and_eq_true] at h
    obtain ⟨hend, hread⟩ := ih (getUtf8CodePoint s).st h.2
    refine ⟨by simpa [skipPos, h2] using hend, ?_⟩
    simp [readPos, readUnits, h1, h2, hread]

theorem recLoop_lit (f : Int → Bool) (u : Bool) : ∀ n : Nat, ∀ (c : Int) (bytes : List Nat),
    ∀ s : U8, 0 < c → bytes.isEmpty = false → f c = true → shMeta c = false →
    litRun f n s = true →
    recLoop f u (n + 1) RMode.norm c bytes s =
      ⟨bytes ++ unitsConcat (readPos n s), (skipPos n s).1, (skipPos n s).2.1,
        (skipPos n s).2.2⟩ := by
  intro n
  induction n with
  | zero => intro c bytes s _ _ _ _ h; simp [litRun] at h
  | succ n ih =>
    intro c bytes s hc hbe hf hm h
    rw [show n + 1 + 1 = (n + 1) + 1 from rfl, recLoop_norm_eq]
    have hisP : (!bytes.isEmpty && f c) = true := by simp [hbe, hf]
    have hcond : ¬ (¬ (!bytes.isEmpty && f c) = true ∨ shMeta c = true) := by
      simp [hisP, hm]
    rw [if_neg hcond]
    simp only [litRun] at h
    by_cases h1 : (getUtf8CodePoint s).rc = -1
    · have hnp : ¬ 0 < (getUtf8CodePoint s).rc := by omega
      rw [if_neg hnp]
      simp [readPos, skipPos, unitsConcat, h1, show (getUtf8CodePoint s).rc ≤ 0 by omega]
    by_cases h2 : (getUtf8CodePoint s).rc ≤ 0
    · simp [h1, h2] at h
    simp only [h1, h2, if_neg, if_false, Bool.and_eq_true] at h
    have h3 := h.2
    have hbe2 : (getUtf8CodePoint s).bytes.isEmpty = false := by
      rcases h.1 with hx
      simp only [Bool.and_eq_true, Bool.not_eq_true'] at hx
      exact hx.1.1
    have hf2 : f (getUtf8CodePoint s).rc = true := by
      rcases h.1 with hx
      simp only [Bool.and_eq_true, Bool.not_eq_true'] at hx
      exact hx.1.2
    have hm2 : shMeta (getUtf8CodePoint s).rc = false := by
      rcases h.1 with hx
      simp only [Bool.and_eq_true, Bool.not_eq_true'] at hx
      exact hx.2
    have hpos : 0 < (getUtf8CodePoint s).rc := by omega
    rw [if_pos hpos]
    have hrec := ih (getUtf8CodePoint s).rc (getUtf8CodePoint s).bytes
      (getUtf8CodePoint s).st hpos hbe2 hf2 hm2 h3
    simp only [hrec]
    have hreadp : readPos (n + 1) s =
        ((getUtf8CodePoint s).rc, (getUtf8CodePoint s).bytes) ::
          readPos n (getUtf8CodePoint s).st := by
      simp [readPos, h2]
    have hskip : skipPos (n + 1) s = skipPos n (getUtf8CodePoint s).st := by
      simp [skipPos, h2]
    rw [hreadp, hskip]
    have hne2 : (getUtf8CodePoint s).bytes ≠ [] := by
      intro hx
      rw [hx] at hbe2
      simp at hbe2
    simp [unitsConcat, unitBytes, hbe2, hne2]


theorem c5_counterexample :
    runUtf8 printableAscii ⟨false, false, false, false⟩ [126] = [36, 39, 126, 39] ∧
      shMeta 126 = false ∧ printableAscii 126 = true ∧
      [36, 39, 126, 39] ≠ [126] := by
  refine ⟨by decide, by decide, by decide, by decide⟩

/-- Claim C5 (amended): a nonempty record that decodes into units that
are all positive, have a nonempty byte view, are classified printable
and are not shell metacharacters is emitted byte-for-byte unmodified,
provided its first code point is not the tilde; the record consisting of
the tilde alone refutes the unamended claim, since the tilde is strict
printable and not a metacharacter yet is force-quoted. -/
theorem c5_literal_identity (f : Int → Bool) (u : Bool) (R : List Nat)
    (hB : ∀ b ∈ R, b < 256) (hne : R ≠ [])
    (hlit : litRun f (R.length + 1) ⟨[], R⟩ = true)
    (hfirst : (getUtf8CodePoint ⟨[], R⟩).rc ≠ 126) :
    runUtf8 f ⟨u, false, false, false⟩ R = R := by
  have hWF : WFS ⟨[], R⟩ := WFS_init R hB
  obtain ⟨hrc, hbytes, hpend, hWF2, _, _⟩ := getUtf8CodePoint_ref hWF
  have hp0 : pend ⟨[], R⟩ = R := by simp [pend]
  rcases hR : R with _ | ⟨b, t⟩
  · exact absurd hR hne
  subst hR
  have hb : b < 256 := hB b (by simp)
  have ht : ∀ x ∈ t, x < 256 := fun x hx => hB x (by simp [hx])
  obtain ⟨hpos0, hcat, hshort⟩ := decodeRef_cons_spec b t hb ht
  rw [hp0] at hrc hbytes hpend
  simp only [litRun] at hlit
  have hnm1 : ¬ (getUtf8CodePoint ⟨[], b :: t⟩).rc = -1 := by
    rw [hrc]
    omega
  by_cases h2 : (getUtf8CodePoint ⟨[], b :: t⟩).rc ≤ 0
  · simp [hnm1, h2] at hlit
  simp only [hnm1, h2, if_neg, if_false, Bool.and_eq_true] at hlit
  have hbe : (getUtf8CodePoint ⟨[], b :: t⟩).bytes.isEmpty = false := by
    have hx := hlit.1
    simp only [Bool.and_eq_true, Bool.not_eq_true'] at hx
    exact hx.1.1
  have hf1 : f (getUtf8CodePoint ⟨[], b :: t⟩).rc = true := by
    have hx := hlit.1
    simp only [Bool.and_eq_true, Bool.not_eq_true'] at hx
    exact hx.1.2
  have hm1 : shMeta (getUtf8CodePoint ⟨[], b :: t⟩).rc = false := by
    have hx := hlit.1
    simp only [Bool.and_eq_true, Bool.not_eq_true'] at hx
    exact hx.2
  have hpos : 0 < (getUtf8CodePoint ⟨[], b :: t⟩).rc := by omega
  have hlit2 : litRun f (2 * t.length + 8) (getUtf8CodePoint ⟨[], b :: t⟩).st :=
    litRun_mono f (b :: t).length (2 * t.length + 8) _ (by simp; omega) hlit.2
  obtain ⟨hsk, hrp⟩ := litRun_end f (2 * t.length + 8) _ hlit2
  have hlen : (pend (getUtf8CodePoint ⟨[], b :: t⟩).st).length < 2 * t.length + 8 := by
    rw [hpend]
    have := hshort
    simp at this
    omega
  have hconc := readUnits_concat (2 * t.length + 8) _ hWF2 hlen
  have hfuel : 2 * (b :: t).length + 8 = ((2 * t.length + 8) + 1) + 1 := by
    simp
    omega
  rw [runUtf8, runUtf8F]
  simp only [hfuel]
  rw [u8Main_step_eq]
  rw [if_pos hpos, if_neg hfirst]
  rw [recLoop_lit f u (2 * t.length + 8) _ _ _ hpos hbe hf1 hm1 hlit2]
  have hc0 : ¬ ((skipPos (2 * t.length + 8) (getUtf8CodePoint ⟨[], b :: t⟩).st).1 = 0) := by
    rw [hsk]
    omega
  simp only [hc0, if_neg, if_false]
  simp only [hrp, hconc]
  rw [hpend]
  have hb0 : (decodeRef (b :: t)).2.1.isEmpty = false := by
    rw [← hbytes]
    exact hbe
  have hub2 : unitBytes ((decodeRef (b :: t)).1, (decodeRef (b :: t)).2.1) =
      (decodeRef (b :: t)).2.1 := by
    unfold unitBytes
    simp [hb0]
  have hfin : (decodeRef (b :: t)).2.1 ++ (decodeRef (b :: t)).2.2 = b :: t := by
    rw [← hub2]
    exact hcat
  rw [hbytes]
  simp [hfin]

theorem c5_literal_identity_witness :
    runUtf8 printableAscii ⟨false, false, false, false⟩ [97, 98] = [97, 98] :=
  c5_literal_identity printableAscii false [97, 98] (by decide) (by decide) (by decide)
    (by decide)


/-- Canonical UTF-8 encoding of a scalar value.  Modelled from the spec:
this is the shell side of the round-trip, which re-encodes a
backslash-u escape found inside dollar quoting into UTF-8 bytes. -/
def utf8Encode (v : Nat) : List Nat :=
  if v < 0x80 then [v]
  else if v < 0x800 then [0xC0 + v / 64, 0x80 + v % 64]
  else if v < 0x10000 then [0xE0 + v / 4096, 0x80 + v / 64 % 64, 0x80 + v % 64]
  else [0xF0 + v / 262144, 0x80 + v / 4096 % 64, 0x80 + v / 64 % 64, 0x80 + v % 64]

/-- Claim C1: refuted by the code.  The decoder checks the 10xxxxxx
pattern only on the last continuation byte of a 3- or 4-byte sequence,
so the record EF 37 90 (whose second byte, the ASCII digit 7, is not a
continuation byte) is accepted as a successful decode of the
noncharacter U+FDD0 with its original bytes retained.  With
unicode-escapes enabled and the code point classified unprintable, the
engine emits the record as a backslash-u escape of U+FDD0, which shell
quote removal re-encodes to the canonical bytes EF B7 90: the
round-trip returns a different byte sequence than the input record. -/
theorem c1_continuation_bug :
    decodeRef [0xEF, 0x37, 0x90] = ((0xFDD0 : Int), [0xEF, 0x37, 0x90], []) ∧
      0x37 &&& 0xC0 ≠ 0x80 ∧
      runUtf8 printableAscii ⟨true, false, false, false⟩ [0xEF, 0x37, 0x90] =
        [36, 39, 92, 117, 70, 68, 68, 48, 39] ∧
      utf8Encode 0xFDD0 = [0xEF, 0xB7, 0x90] ∧
      ([0xEF, 0xB7, 0x90] : List Nat) ≠ [0xEF, 0x37, 0x90] := by
  refine ⟨by decide, by decide, by decide, by decide, by decide⟩

end Printfq
